import Mathlib

/-!
# MD5 skeletal animation of the GFX engine (`src/common/md5.cpp`, `src/common/vector.cpp`)

Shallow embedding of the skeleton loader, the action loader, the bind-pose
preprocessor, the pose evaluator and the animation state machine.

Conventions of the embedding.

* C `float` values are elements of a linear ordered field `F` (idealised
  arithmetic: no rounding, no infinities, no NaN).  Every definition is
  computable and can be run at `F := ℚ`; statements about square roots are
  made at `F := ℝ`.
* The functions of the C mathematics library (`sqrtf`, `sinf`, `atan2f`) are
  not part of the repository; they are passed in as a `FloatLib`.  A float
  division that the source performs without testing the divisor is passed in
  the same way (`fdiv`): it is the field division whenever the divisor is not
  zero and is left unspecified at zero.  Divisions the source guards with a
  test are written with the field division.
* C arrays are lists.  The element counts (`n_joint`, `n_vertex`, ...) are kept
  as fields next to the lists, as in the source.  A read outside a list gives
  the zero record and a write outside a list is dropped; statements carry the
  bounds they rely on.
* Text scanning (`strtok`, `sscanf`) is outside the model: a file is the list
  of its scanned records.  OpenGL calls are omitted.
-/

namespace GFX

/-! ## Scalars and vectors (`types.h`, `vector.cpp`) -/

/-- Functions on floats that the source takes from outside the repository. -/
structure FloatLib (F : Type) where
  /-- C library square root. -/
  sqrtf : F → F
  /-- C library sine. -/
  sinf : F → F
  /-- C library two-argument arctangent. -/
  atan2f : F → F → F
  /-- Float division where the source does not test the divisor. -/
  fdiv : F → F → F

/-- Vector 2D. -/
structure vec2 (F : Type) where
  x : F
  y : F
deriving DecidableEq, Repr

/-- Vector 3D. -/
structure vec3 (F : Type) where
  x : F
  y : F
  z : F
deriving DecidableEq, Repr

/-- Vector 4D, used as a quaternion. -/
structure vec4 (F : Type) where
  x : F
  y : F
  z : F
  w : F
deriving DecidableEq, Repr

section Vector

variable {F : Type} [LinearOrderedField F]

instance : Inhabited (vec2 F) := ⟨⟨0, 0⟩⟩

instance : Inhabited (vec3 F) := ⟨⟨0, 0, 0⟩⟩

instance : Inhabited (vec4 F) := ⟨⟨0, 0, 0, 0⟩⟩

/-- The action states of `types.h`. -/
def STOP : Nat := 0

/-- The action states of `types.h`. -/
def PLAY : Nat := 1

/-- The action states of `types.h`. -/
def PAUSE : Nat := 2

/-- The macro `CLAMP( x, low, high )` of `types.h`. -/
def CLAMP (x low high : F) : F :=
  if x > high then high else (if x < low then low else x)

/-- Read `xs[i]` for an unsigned index. -/
def rd {α : Type} [Inhabited α] (xs : List α) (i : Nat) : α :=
  xs.getD i default

/-- Read `xs[i]` for a signed index. -/
def rdI {α : Type} [Inhabited α] (xs : List α) (i : Int) : α :=
  if 0 ≤ i then xs.getD i.toNat default else default

/-- The loop `i = 0; while( i != n ) { body; ++i; }` run on a state. -/
def whileIdx {σ : Type} : Nat → (Nat → σ → σ) → σ → σ
  | 0, _, s => s
  | n + 1, body, s => body n (whileIdx n body s)

/-- Difference of two 2D vectors (`vec2_diff`). -/
def vec2_diff (v0 v1 : vec2 F) : vec2 F :=
  ⟨v0.x - v1.x, v0.y - v1.y⟩

/-- Sum of two 3D vectors (`vec3_add`). -/
def vec3_add (v0 v1 : vec3 F) : vec3 F :=
  ⟨v0.x + v1.x, v0.y + v1.y, v0.z + v1.z⟩

/-- Difference of two 3D vectors (`vec3_diff`). -/
def vec3_diff (v0 v1 : vec3 F) : vec3 F :=
  ⟨v0.x - v1.x, v0.y - v1.y, v0.z - v1.z⟩

/-- Squared length of a 3D vector (`vec3_dot`). -/
def vec3_dot (v : vec3 F) : F :=
  (v.x * v.x) + (v.y * v.y) + (v.z * v.z)

/-- Length of a 3D vector (`vec3_length`). -/
def vec3_length (M : FloatLib F) (v : vec3 F) : F :=
  M.sqrtf (vec3_dot v)

/-- The new content of `dst` after `vec3_normalize( dst, v )`: untouched when
the length is zero. -/
def vec3_normalize (M : FloatLib F) (dst v : vec3 F) : vec3 F :=
  let l := vec3_length M v
  if l ≠ 0 then
    let m := 1 / l
    ⟨v.x * m, v.y * m, v.z * m⟩
  else dst

/-- Cross product (`vec3_cross`). -/
def vec3_cross (v0 v1 : vec3 F) : vec3 F :=
  ⟨(v0.y * v1.z) - (v1.y * v0.z),
   (v0.z * v1.x) - (v1.z * v0.x),
   (v0.x * v1.y) - (v1.x * v0.y)⟩

/-- Linear interpolation of two 3D vectors (`vec3_lerp`). -/
def vec3_lerp (v0 v1 : vec3 F) (t : F) : vec3 F :=
  if t = 1 then ⟨v1.x, v1.y, v1.z⟩
  else if t = 0 then ⟨v0.x, v0.y, v0.z⟩
  else ⟨v0.x + t * (v1.x - v0.x), v0.y + t * (v1.y - v0.y), v0.z + t * (v1.z - v0.z)⟩

/-- The quaternion with its W component rebuilt from X, Y, Z (`vec4_build_w`). -/
def vec4_build_w (M : FloatLib F) (v : vec4 F) : vec4 F :=
  let l := 1 - (v.x * v.x) - (v.y * v.y) - (v.z * v.z)
  { v with w := if l < 0 then 0 else -M.sqrtf l }

/-- Squared length of a quaternion (`vec4_dot`). -/
def vec4_dot (v : vec4 F) : F :=
  (v.x * v.x) + (v.y * v.y) + (v.z * v.z) + (v.w * v.w)

/-- Dot product of two quaternions (`vec4_dot_vec4`). -/
def vec4_dot_vec4 (v0 v1 : vec4 F) : F :=
  (v0.x * v1.x) + (v0.y * v1.y) + (v0.z * v1.z) + (v0.w * v1.w)

/-- Length of a quaternion (`vec4_length`). -/
def vec4_length (M : FloatLib F) (v : vec4 F) : F :=
  M.sqrtf (vec4_dot v)

/-- Normalised quaternion (`vec4_normalize`); the zero quaternion when the
length is zero. -/
def vec4_normalize (M : FloatLib F) (v : vec4 F) : vec4 F :=
  let l := vec4_length M v
  let m := if l ≠ 0 then 1 / l else 0
  ⟨v.x * m, v.y * m, v.z * m, v.w * m⟩

/-- Product of a quaternion and a 3D vector (`vec4_multiply_vec3`). -/
def vec4_multiply_vec3 (v0 : vec4 F) (v1 : vec3 F) : vec4 F :=
  ⟨(v0.w * v1.x) + (v0.y * v1.z) - (v0.z * v1.y),
   (v0.w * v1.y) + (v0.z * v1.x) - (v0.x * v1.z),
   (v0.w * v1.z) + (v0.x * v1.y) - (v0.y * v1.x),
   -(v0.x * v1.x) - (v0.y * v1.y) - (v0.z * v1.z)⟩

/-- Product of two quaternions (`vec4_multiply_vec4`). -/
def vec4_multiply_vec4 (v0 v1 : vec4 F) : vec4 F :=
  ⟨(v0.x * v1.w) + (v0.w * v1.x) + (v0.y * v1.z) - (v0.z * v1.y),
   (v0.y * v1.w) + (v0.w * v1.y) + (v0.z * v1.x) - (v0.x * v1.z),
   (v0.z * v1.w) + (v0.w * v1.z) + (v0.x * v1.y) - (v0.y * v1.x),
   (v0.w * v1.w) - (v0.x * v1.x) - (v0.y * v1.y) - (v0.z * v1.z)⟩

/-- Conjugate of a quaternion (`vec4_conjugate`). -/
def vec4_conjugate (v : vec4 F) : vec4 F :=
  ⟨-v.x, -v.y, -v.z, v.w⟩

/-- The quaternion with its four components negated (`vec4_invert`). -/
def vec4_invert (v : vec4 F) : vec4 F :=
  ⟨-v.x, -v.y, -v.z, -v.w⟩

/-- Rotation of a 3D vector by a quaternion (`vec3_rotate_vec4`). -/
def vec3_rotate_vec4 (M : FloatLib F) (v0 : vec3 F) (v1 : vec4 F) : vec3 F :=
  let i := vec4_conjugate v1
  let i := vec4_normalize M i
  let t := vec4_multiply_vec3 v1 v0
  let f := vec4_multiply_vec4 t i
  ⟨f.x, f.y, f.z⟩

/-- Interpolation of two quaternions (`vec4_lerp`). -/
def vec4_lerp (M : FloatLib F) (v0 v1 : vec4 F) (t : F) : vec4 F :=
  let dot := vec4_dot_vec4 v0 v1
  if t = 1 then ⟨v1.x, v1.y, v1.z, v1.w⟩
  else if t = 0 then ⟨v0.x, v0.y, v0.z, v0.w⟩
  else
    let tmp : vec4 F := if dot < 0 then ⟨-v1.x, -v1.y, -v1.z, -v1.w⟩ else ⟨v1.x, v1.y, v1.z, v1.w⟩
    let dot := if dot < 0 then -dot else dot
    let k : F × F :=
      if dot > 999999 / 1000000 then (1 - t, t)
      else
        let s := M.sqrtf (1 - (dot * dot))
        let o := M.atan2f s dot
        let o1 := M.fdiv 1 s
        (M.sinf ((1 - t) * o) * o1, M.sinf (t * o) * o1)
    ⟨(k.1 * v0.x) + (k.2 * tmp.x), (k.1 * v0.y) + (k.2 * tmp.y),
     (k.1 * v0.z) + (k.2 * tmp.z), (k.1 * v0.w) + (k.2 * tmp.w)⟩

/-- Spherical interpolation of two quaternions (`vec4_slerp`). -/
def vec4_slerp (M : FloatLib F) (v0 v1 : vec4 F) (t : F) : vec4 F :=
  let c := vec4_dot_vec4 v0 v1
  if t = 1 then ⟨v1.x, v1.y, v1.z, v1.w⟩
  else if t = 0 then ⟨v0.x, v0.y, v0.z, v0.w⟩
  else
    let tmp : vec4 F := if c < 0 then ⟨-v1.x, -v1.y, -v1.z, -v1.w⟩ else ⟨v1.x, v1.y, v1.z, v1.w⟩
    let c := if c < 0 then -c else c
    let k : F × F :=
      if c > 999999 / 1000000 then (1 - t, t)
      else
        let s := M.sqrtf (1 - (c * c))
        let o := M.atan2f s c
        let o1 := M.fdiv 1 s
        (M.sinf ((1 - t) * o) * o1, M.sinf (t * o) * o1)
    ⟨(k.1 * v0.x) + (k.2 * tmp.x), (k.1 * v0.y) + (k.2 * tmp.y),
     (k.1 * v0.z) + (k.2 * tmp.z), (k.1 * v0.w) + (k.2 * tmp.w)⟩

end Vector

/-! ## Data model (`md5.h`) -/

/-- The interpolation methods of `md5.h`. -/
def MD5_METHOD_FRAME : Nat := 0

/-- The interpolation methods of `md5.h`. -/
def MD5_METHOD_LERP : Nat := 1

/-- The interpolation methods of `md5.h`. -/
def MD5_METHOD_SLERP : Nat := 2

/-- A single joint. -/
structure MD5JOINT (F : Type) where
  name : String
  parent : Int
  location : vec3 F
  rotation : vec4 F
deriving DecidableEq, Repr

/-- A single vertex. -/
structure MD5VERTEX (F : Type) where
  uv : vec2 F
  normal : vec3 F
  tangent : vec3 F
  start : Nat
  count : Nat
deriving DecidableEq, Repr

/-- The three indices of a triangle, `indice[ 0 ]`, `indice[ 1 ]`, `indice[ 2 ]`. -/
structure MD5TRIANGLE where
  indice0 : Nat
  indice1 : Nat
  indice2 : Nat
deriving DecidableEq, Repr

/-- A bone weight. -/
structure MD5WEIGHT (F : Type) where
  joint : Int
  bias : F
  location : vec3 F
  normal : vec3 F
  tangent : vec3 F
deriving DecidableEq, Repr

/-- The buffer `vertex_data` of a mesh, seen as its four arrays (`offset[ 0 ]`
to `offset[ 3 ]`): positions, normals, texture coordinates, tangents. -/
structure VERTEXDATA (F : Type) where
  vertex_array : List (vec3 F)
  normal_array : List (vec3 F)
  uv_array : List (vec2 F)
  tangent_array : List (vec3 F)
deriving DecidableEq, Repr

/-- A mesh of an MD5 (the OpenGL handles are left out). -/
structure MD5MESH (F : Type) where
  shader : String
  n_vertex : Nat
  md5vertex : List (MD5VERTEX F)
  vertex_data : VERTEXDATA F
  n_triangle : Nat
  md5triangle : List MD5TRIANGLE
  n_indice : Nat
  indice : List Nat
  n_weight : Nat
  md5weight : List (MD5WEIGHT F)
  visible : Nat
deriving DecidableEq, Repr

/-- An action: the frames, the working pose and the playback state. -/
structure MD5ACTION (F : Type) where
  name : String
  n_frame : Nat
  frame : List (List (MD5JOINT F))
  pose : List (MD5JOINT F)
  curr_frame : Int
  next_frame : Int
  state : Nat
  method : Nat
  loop : Nat
  frame_time : F
  fps : F
deriving DecidableEq, Repr

/-- The main MD5 structure (the fields used by the drawing code only are left
out). -/
structure MD5 (F : Type) where
  name : String
  visible : Nat
  n_joint : Nat
  bind_pose : List (MD5JOINT F)
  n_mesh : Nat
  md5mesh : List (MD5MESH F)
  n_action : Nat
  md5action : List (MD5ACTION F)
  min : vec3 F
  max : vec3 F
  dimension : vec3 F
  radius : F
deriving DecidableEq, Repr

section Model

variable {F : Type} [LinearOrderedField F]

instance : Inhabited (MD5JOINT F) := ⟨⟨"", 0, default, default⟩⟩

instance : Inhabited (MD5VERTEX F) := ⟨⟨default, default, default, 0, 0⟩⟩

instance : Inhabited MD5TRIANGLE := ⟨⟨0, 0, 0⟩⟩

instance : Inhabited (MD5WEIGHT F) := ⟨⟨0, 0, default, default, default⟩⟩

instance : Inhabited (VERTEXDATA F) := ⟨⟨[], [], [], []⟩⟩

instance : Inhabited (MD5MESH F) := ⟨⟨"", 0, [], default, 0, [], 0, [], 0, [], 0⟩⟩

instance : Inhabited (MD5ACTION F) := ⟨⟨"", 0, [], [], 0, 0, 0, 0, 0, 0, 0⟩⟩

/-! ## Pose evaluator (`MD5_set_pose`) -/

/-- Body of the loop over the weights `k` of vertex `j` in `MD5_set_pose`. -/
def MD5_set_pose_weight (M : FloatLib F) (md5mesh : MD5MESH F) (pose : List (MD5JOINT F))
    (j : Nat) (md5vertex : MD5VERTEX F) (k : Nat) (d : VERTEXDATA F) : VERTEXDATA F :=
  let md5weight := rd md5mesh.md5weight (md5vertex.start + k)
  let md5joint := rdI pose md5weight.joint
  let location := vec3_rotate_vec4 M md5weight.location md5joint.rotation
  let normal := vec3_rotate_vec4 M md5weight.normal md5joint.rotation
  let tangent := vec3_rotate_vec4 M md5weight.tangent md5joint.rotation
  let v := rd d.vertex_array j
  let n := rd d.normal_array j
  let t := rd d.tangent_array j
  { d with
    vertex_array := d.vertex_array.set j
      ⟨v.x + (md5joint.location.x + location.x) * md5weight.bias,
       v.y + (md5joint.location.y + location.y) * md5weight.bias,
       v.z + (md5joint.location.z + location.z) * md5weight.bias⟩
    normal_array := d.normal_array.set j
      ⟨n.x + normal.x * md5weight.bias,
       n.y + normal.y * md5weight.bias,
       n.z + normal.z * md5weight.bias⟩
    tangent_array := d.tangent_array.set j
      ⟨t.x + tangent.x * md5weight.bias,
       t.y + tangent.y * md5weight.bias,
       t.z + tangent.z * md5weight.bias⟩ }

/-- Body of the loop over the vertices `j` in `MD5_set_pose`. -/
def MD5_set_pose_vertex (M : FloatLib F) (md5mesh : MD5MESH F) (pose : List (MD5JOINT F))
    (j : Nat) (d : VERTEXDATA F) : VERTEXDATA F :=
  let md5vertex := rd md5mesh.md5vertex j
  let d := whileIdx md5vertex.count (MD5_set_pose_weight M md5mesh pose j md5vertex) d
  { d with uv_array := d.uv_array.set j ⟨md5vertex.uv.x, md5vertex.uv.y⟩ }

/-- The call `memset( xs, 0, n * sizeof( vec3 ) )`: the first `n` entries are
cleared. -/
def memset_vec3 (xs : List (vec3 F)) (n : Nat) : List (vec3 F) :=
  List.replicate (Nat.min n xs.length) ⟨0, 0, 0⟩ ++ xs.drop n

/-- Body of the loop over the meshes in `MD5_set_pose`: the three `memset`
calls clear the `n_vertex` positions, normals and tangents (`offset[ 1 ]`
bytes each), then the vertices are accumulated. -/
def MD5_set_pose_mesh (M : FloatLib F) (pose : List (MD5JOINT F)) (md5mesh : MD5MESH F) :
    MD5MESH F :=
  let d : VERTEXDATA F :=
    { md5mesh.vertex_data with
      vertex_array := memset_vec3 md5mesh.vertex_data.vertex_array md5mesh.n_vertex
      normal_array := memset_vec3 md5mesh.vertex_data.normal_array md5mesh.n_vertex
      tangent_array := memset_vec3 md5mesh.vertex_data.tangent_array md5mesh.n_vertex }
  { md5mesh with
    vertex_data := whileIdx md5mesh.n_vertex (MD5_set_pose_vertex M md5mesh pose) d }

/-- Set all the meshes of an MD5 to a pose (`MD5_set_pose`). -/
def MD5_set_pose (M : FloatLib F) (md5 : MD5 F) (pose : List (MD5JOINT F)) : MD5 F :=
  whileIdx md5.n_mesh
    (fun i md5 => { md5 with md5mesh := md5.md5mesh.set i (MD5_set_pose_mesh M pose (rd md5.md5mesh i)) })
    md5

/-! ## Blending of poses (`MD5_blend_pose`, `MD5_add_pose`) -/

/-- Blend two poses into `final_pose` (`MD5_blend_pose`).  The three arrays
are taken to be distinct buffers. -/
def MD5_blend_pose (M : FloatLib F) (md5 : MD5 F) (final_pose pose0 pose1 : List (MD5JOINT F))
    (joint_interpolation_method : Nat) (blend : F) : List (MD5JOINT F) :=
  whileIdx md5.n_joint
    (fun i final_pose =>
      let location := vec3_lerp (rd pose0 i).location (rd pose1 i).location blend
      let rotation :=
        if joint_interpolation_method = MD5_METHOD_FRAME ∨
            joint_interpolation_method = MD5_METHOD_LERP then
          vec4_lerp M (rd pose0 i).rotation (rd pose1 i).rotation blend
        else if joint_interpolation_method = MD5_METHOD_SLERP then
          vec4_slerp M (rd pose0 i).rotation (rd pose1 i).rotation blend
        else (rd final_pose i).rotation
      final_pose.set i { rd final_pose i with location := location, rotation := rotation })
    final_pose

/-- The object representation of the frames of an action: `location f i` is
the `sizeof( vec3 )` bytes of `frame[ f ][ i ].location` and `rotation f i` the
`sizeof( vec4 )` bytes of `frame[ f ][ i ].rotation`.  The scalars of the
embedding do not determine the bytes (`0.0f` and `-0.0f` are one value with two
byte images), so the bytes that `memcmp` reads are given beside the values. -/
structure FRAMEBYTES where
  location : Int → Nat → List Nat
  rotation : Int → Nat → List Nat

/-- Add the action `action1` on top of `action0` into `final_pose`
(`MD5_add_pose`).  The two `memcmp` calls compare the bytes of the location
and of the rotation of joint `i` in the current and the next frame of
`action1`, given by `frame_bytes`; `memcmp` is non-zero when the bytes
differ. -/
def MD5_add_pose (M : FloatLib F) (frame_bytes : FRAMEBYTES) (md5 : MD5 F)
    (final_pose : List (MD5JOINT F)) (action0 action1 : MD5ACTION F)
    (joint_interpolation_method : Nat) (action_weight : F) : List (MD5JOINT F) :=
  whileIdx md5.n_joint
    (fun i final_pose =>
      if frame_bytes.location action1.curr_frame i ≠
            frame_bytes.location action1.next_frame i ∨
          frame_bytes.rotation action1.curr_frame i ≠
            frame_bytes.rotation action1.next_frame i then
        let location :=
          vec3_lerp (rd action0.pose i).location (rd action1.pose i).location action_weight
        let rotation :=
          if joint_interpolation_method = MD5_METHOD_FRAME ∨
              joint_interpolation_method = MD5_METHOD_LERP then
            vec4_lerp M (rd action0.pose i).rotation (rd action1.pose i).rotation action_weight
          else if joint_interpolation_method = MD5_METHOD_SLERP then
            vec4_slerp M (rd action0.pose i).rotation (rd action1.pose i).rotation action_weight
          else (rd final_pose i).rotation
        final_pose.set i { rd final_pose i with location := location, rotation := rotation }
      else
        final_pose.set i
          { rd final_pose i with
            location := (rd action0.pose i).location
            rotation := (rd action0.pose i).rotation })
    final_pose

/-! ## Action state machine (`MD5_action_play`, `MD5_action_pause`,
`MD5_action_stop`, `MD5_draw_action`) -/

/-- Start playing an action (`MD5_action_play`). -/
def MD5_action_play (md5action : MD5ACTION F) (frame_interpolation_method loop : Nat) :
    MD5ACTION F :=
  let md5action :=
    { md5action with method := frame_interpolation_method, loop := loop, state := PLAY }
  if md5action.frame_time = 0 ∧ frame_interpolation_method = MD5_METHOD_FRAME then
    { md5action with frame_time := md5action.fps }
  else md5action

/-- Pause an action (`MD5_action_pause`). -/
def MD5_action_pause (md5action : MD5ACTION F) : MD5ACTION F :=
  { md5action with state := PAUSE }

/-- Stop and reset an action (`MD5_action_stop`). -/
def MD5_action_stop (md5action : MD5ACTION F) : MD5ACTION F :=
  { md5action with curr_frame := 0, next_frame := 1, state := STOP, frame_time := 0 }

/-- The call `memcpy( dst, src, n * sizeof( MD5JOINT ) )`. -/
def memcpy_joints (dst src : List (MD5JOINT F)) (n : Nat) : List (MD5JOINT F) :=
  whileIdx n (fun i dst => dst.set i (rd src i)) dst

/-- The `MD5_METHOD_FRAME` case of the switch in `MD5_draw_action`, for an
action whose `frame_time` has already been advanced.  The second component is
the new value of `update`.  The frame indices are C `int` values compared
with the unsigned `n_frame`; both are taken below `2^31`. -/
def MD5_draw_action_frame (md5 : MD5 F) (a : MD5ACTION F) (update : Nat) :
    MD5ACTION F × Nat :=
  if a.frame_time ≥ a.fps then
    let a := { a with pose := memcpy_joints a.pose (rdI a.frame a.curr_frame) md5.n_joint }
    let a := { a with curr_frame := a.curr_frame + 1 }
    let rest := fun (a : MD5ACTION F) =>
      let a := { a with next_frame := a.curr_frame + 1 }
      let a := if a.next_frame = (a.n_frame : Int) then { a with next_frame := 0 } else a
      let a := { a with frame_time := a.frame_time - a.fps }
      (a, 1)
    if a.curr_frame = (a.n_frame : Int) then
      if a.loop ≠ 0 then rest { a with curr_frame := 0 }
      else (MD5_action_stop a, update)
    else rest a
  else (a, update)

/-- The `MD5_METHOD_LERP` / `MD5_METHOD_SLERP` case of the switch in
`MD5_draw_action`, for an action whose `frame_time` has already been advanced.
The second component is the new value of `update`. -/
def MD5_draw_action_blend (M : FloatLib F) (md5 : MD5 F) (a : MD5ACTION F) (update : Nat) :
    MD5ACTION F × Nat :=
  let t := CLAMP (M.fdiv a.frame_time a.fps) 0 1
  let a :=
    { a with
      pose := MD5_blend_pose M md5 a.pose (rdI a.frame a.curr_frame) (rdI a.frame a.next_frame)
        a.method t }
  if t ≥ 1 then
    let a := { a with curr_frame := a.curr_frame + 1 }
    let a := { a with next_frame := a.curr_frame + 1 }
    if a.loop ≠ 0 then
      let a :=
        if a.curr_frame = (a.n_frame : Int) then { a with curr_frame := 0, next_frame := 1 }
        else a
      let a := if a.next_frame = (a.n_frame : Int) then { a with next_frame := 0 } else a
      ({ a with frame_time := a.frame_time - a.fps }, 1)
    else if a.next_frame = (a.n_frame : Int) then
      (MD5_action_stop a, update)
    else
      ({ a with frame_time := a.frame_time - a.fps }, 1)
  else (a, 1)

/-- Body of the loop over the actions in `MD5_draw_action`: the action after
the tick and the new value of `update`. -/
def MD5_draw_action_body (M : FloatLib F) (md5 : MD5 F) (time_step : F)
    (md5action : MD5ACTION F) (update : Nat) : MD5ACTION F × Nat :=
  if md5action.state = PLAY then
    let a := { md5action with frame_time := md5action.frame_time + time_step }
    if a.method = MD5_METHOD_FRAME then MD5_draw_action_frame md5 a update
    else if a.method = MD5_METHOD_LERP ∨ a.method = MD5_METHOD_SLERP then
      MD5_draw_action_blend M md5 a update
    else (a, update)
  else (md5action, update)

/-- Update all the actions by a time step (`MD5_draw_action`): the MD5 after
the call and the returned `update` flag. -/
def MD5_draw_action (M : FloatLib F) (md5 : MD5 F) (time_step : F) : MD5 F × Nat :=
  whileIdx md5.n_action
    (fun i (s : MD5 F × Nat) =>
      let r := MD5_draw_action_body M s.1 time_step (rd s.1.md5action i) s.2
      ({ s.1 with md5action := s.1.md5action.set i r.1 }, r.2))
    (md5, 0)

/-- The MD5 after `k` successive calls of `MD5_draw_action`, each with the
elapsed time `time_step`. -/
def MD5_draw_action_times (M : FloatLib F) (time_step : F) : Nat → MD5 F → MD5 F
  | 0, md5 => md5
  | k + 1, md5 => (MD5_draw_action M (MD5_draw_action_times M time_step k md5) time_step).1

/-! ## Lookup by name (`MD5_get_action`, `MD5_get_mesh`) -/

/-- The C library test `strcmp( a, b ) == 0`: the two strings are equal. -/
def strcmp_equal (a b : String) : Bool :=
  decide (a = b)

/-- The C library test `strstr( hay, needle ) != NULL`: `needle` occurs in
`hay` as a run of consecutive characters. -/
def strstr_found (hay needle : String) : Bool :=
  decide (needle.data <:+: hay.data)

/-- The loop `while( i != n ) { if( test ) return &array[ i ]; ++i; }`
followed by `return NULL`, with `k` iterations left at index `i`: the index of
the returned entry, or `none` for `NULL`. -/
def first_match (test : Nat → Bool) : Nat → Nat → Option Nat
  | 0, _ => none
  | k + 1, i => if test i then some i else first_match test k (i + 1)

/-- The index of the action returned by `MD5_get_action`, `none` for `NULL`. -/
def MD5_get_action (md5 : MD5 F) (name : String) (exact_name : Nat) : Option Nat :=
  first_match
    (fun i =>
      if exact_name ≠ 0 then strcmp_equal (rd md5.md5action i).name name
      else strstr_found (rd md5.md5action i).name name)
    md5.n_action 0

/-- The index of the mesh returned by `MD5_get_mesh`, `none` for `NULL`. -/
def MD5_get_mesh (md5 : MD5 F) (name : String) (exact_name : Nat) : Option Nat :=
  first_match
    (fun i =>
      if exact_name ≠ 0 then strcmp_equal (rd md5.md5mesh i).shader name
      else strstr_found (rd md5.md5mesh i).shader name)
    md5.n_mesh 0

/-! ## Skeleton loader (`MD5_load_mesh`) -/

/-- A line of a `joints` block that scans as
`name parent ( x y z ) ( x y z )`. -/
structure JOINTROW (F : Type) where
  name : String
  parent : Int
  location : vec3 F
  rotation : vec3 F
deriving DecidableEq, Repr

instance : Inhabited (JOINTROW F) := ⟨⟨"", 0, default, default⟩⟩

/-- The scanned lines of a `mesh` block.  `tri index a b c` holds the three
numbers in the order of the file. -/
inductive MESHLINE (F : Type) where
  | shader (s : String)
  | numverts (n : Nat)
  | vert (index : Nat) (uv : vec2 F) (start count : Nat)
  | numtris (n : Nat)
  | tri (index a b c : Nat)
  | numweights (n : Nat)
  | weight (index : Nat) (joint : Int) (bias : F) (location : vec3 F)
  | other
deriving DecidableEq, Repr

/-- The scanned lines of a `.md5mesh` file.  A block holds the lines up to its
closing brace; the lines of a `joints` block that do not scan are left out. -/
inductive MD5LINE (F : Type) where
  | MD5Version (v : Int)
  | numJoints (n : Nat)
  | numMeshes (n : Nat)
  | joints (rows : List (JOINTROW F))
  | mesh (lines : List (MESHLINE F))
  | other
deriving Repr

/-- Outcome of one line of a loader: go on with the next line, or
`goto cleanup`. -/
inductive LOADSTEP (σ : Type) where
  | next (s : σ)
  | cleanup (s : σ)

/-- The loop `while( line ) { ... }` of the two loaders over the lines of a
file, left at the first `goto cleanup`. -/
def load_lines {σ L : Type} (step : σ → L → LOADSTEP σ) : σ → List L → LOADSTEP σ
  | s, [] => LOADSTEP.next s
  | s, l :: ls =>
    match step s l with
    | LOADSTEP.next s1 => load_lines step s1 ls
    | LOADSTEP.cleanup s1 => LOADSTEP.cleanup s1

/-- Body of the loop over the rows of a `joints` block: the pair is the bind
pose and the counter `i`. -/
def MD5_load_mesh_joint (M : FloatLib F) (s : List (MD5JOINT F) × Nat) (row : JOINTROW F) :
    List (MD5JOINT F) × Nat :=
  let i := s.2
  let j : MD5JOINT F :=
    { name := row.name, parent := row.parent, location := row.location,
      rotation := ⟨row.rotation.x, row.rotation.y, row.rotation.z, (rd s.1 i).rotation.w⟩ }
  let j := { j with rotation := vec4_build_w M j.rotation }
  (s.1.set i j, i + 1)

/-- Body of the loop over the lines of a `mesh` block.  The local records
`md5vertex`, `md5triangle` and `md5weight` are copied whole; their fields that
are not scanned read as zero.  The indices of a triangle are scanned with
`%hu` into `indice[ 2 ]`, `indice[ 1 ]`, `indice[ 0 ]`; `n_indice` is an
`unsigned short`. -/
def MD5_load_mesh_line (m : MD5MESH F) (line : MESHLINE F) : MD5MESH F :=
  match line with
  | MESHLINE.shader s => { m with shader := s }
  | MESHLINE.numverts n => { m with n_vertex := n, md5vertex := List.replicate n default }
  | MESHLINE.vert index uv start count =>
    { m with md5vertex := m.md5vertex.set index ⟨uv, default, default, start, count⟩ }
  | MESHLINE.numtris n =>
    { m with n_triangle := n, n_indice := (n * 3) % 65536,
             md5triangle := List.replicate n default }
  | MESHLINE.tri index a b c =>
    { m with md5triangle := m.md5triangle.set index ⟨c % 65536, b % 65536, a % 65536⟩ }
  | MESHLINE.numweights n => { m with n_weight := n, md5weight := List.replicate n default }
  | MESHLINE.weight index joint bias location =>
    { m with md5weight := m.md5weight.set index ⟨joint, bias, location, default, default⟩ }
  | MESHLINE.other => m

/-- The `unsigned short` at position `i` of the triangle array seen as a flat
array of indices. -/
def triangle_short (md5triangle : List MD5TRIANGLE) (i : Nat) : Nat :=
  let t := rd md5triangle (i / 3)
  if i % 3 = 0 then t.indice0 else if i % 3 = 1 then t.indice1 else t.indice2

/-- The flat index buffer of a mesh: `n_indice` shorts copied by `memcpy`
from the triangle array. -/
def MD5_load_mesh_indice (m : MD5MESH F) : MD5MESH F :=
  { m with indice := (List.range m.n_indice).map (triangle_short m.md5triangle) }

/-- Body of the loop over the lines of a `.md5mesh` file: the pair is the MD5
and the counter `mesh_index`. -/
def MD5_load_mesh_step (M : FloatLib F) (s : MD5 F × Nat) (line : MD5LINE F) :
    LOADSTEP (MD5 F × Nat) :=
  let md5 := s.1
  let mesh_index := s.2
  match line with
  | MD5LINE.MD5Version v =>
    if v ≠ 10 then LOADSTEP.cleanup s else LOADSTEP.next s
  | MD5LINE.numJoints n =>
    LOADSTEP.next ({ md5 with n_joint := n, bind_pose := List.replicate n default }, mesh_index)
  | MD5LINE.numMeshes n =>
    LOADSTEP.next
      ({ md5 with n_mesh := n,
                  md5mesh := List.replicate n { (default : MD5MESH F) with visible := 1 } },
       mesh_index)
  | MD5LINE.joints rows =>
    LOADSTEP.next
      ({ md5 with bind_pose := (rows.foldl (MD5_load_mesh_joint M) (md5.bind_pose, 0)).1 },
       mesh_index)
  | MD5LINE.mesh lines =>
    let m := lines.foldl MD5_load_mesh_line (rd md5.md5mesh mesh_index)
    LOADSTEP.next
      ({ md5 with md5mesh := md5.md5mesh.set mesh_index (MD5_load_mesh_indice m) },
       mesh_index + 1)
  | MD5LINE.other => LOADSTEP.next s

/-- The lines that write the bind pose: `numJoints` and `joints`. -/
def joint_line : MD5LINE F → Prop
  | MD5LINE.numJoints _ => True
  | MD5LINE.joints _ => True
  | _ => False

/-- The MD5 right after `calloc` in `MD5_load_mesh`. -/
def MD5_new (name : String) : MD5 F :=
  { name := name, visible := 1, n_joint := 0, bind_pose := [], n_mesh := 0, md5mesh := [],
    n_action := 0, md5action := [], min := default, max := default, dimension := default,
    radius := 0 }

/-- Load a `.md5mesh` file (`MD5_load_mesh`).  The file is `none` when it
cannot be opened; the result is `none` for a `NULL` return. -/
def MD5_load_mesh (M : FloatLib F) (name : String) (file : Option (List (MD5LINE F))) :
    Option (MD5 F) :=
  match file with
  | none => none
  | some lines =>
    match load_lines (MD5_load_mesh_step M) (MD5_new name, 0) lines with
    | LOADSTEP.next s => some s.1
    | LOADSTEP.cleanup _ => none

/-! ## Action loader (`MD5_load_action`) -/

/-- A line of a frame that scans as six numbers: location and the X, Y, Z of
the rotation. -/
structure FRAMEROW (F : Type) where
  location : vec3 F
  rotation : vec3 F
deriving DecidableEq, Repr

/-- The scanned lines of an action file.  A `frame` holds the `n_joint` lines
that follow it, each `none` when it does not scan as six numbers. -/
inductive ACTIONLINE (F : Type) where
  | MD5Version (v : Int)
  | numFrames (n : Nat)
  | numJoints (n : Nat)
  | frameRate (r : Int)
  | frame (index : Nat) (rows : List (Option (FRAMEROW F)))
  | other
deriving Repr

/-- First loop of a `frame` block of `MD5_load_action`: joint `i` of the frame
is scanned from line `i`. -/
def MD5_load_action_scan (M : FloatLib F) (md5 : MD5 F) (rows : List (Option (FRAMEROW F)))
    (i : Nat) (md5joint : List (MD5JOINT F)) : List (MD5JOINT F) :=
  match rd rows i with
  | some row =>
    let j := rd md5joint i
    let j :=
      { j with location := row.location,
               rotation := ⟨row.rotation.x, row.rotation.y, row.rotation.z, j.rotation.w⟩ }
    let j := { j with name := (rd md5.bind_pose i).name }
    md5joint.set i { j with rotation := vec4_build_w M j.rotation }
  | none => md5joint

/-- Second loop of a `frame` block of `MD5_load_action`: joint `i` of the
frame is placed relative to its parent, in place. -/
def MD5_load_action_absolute (M : FloatLib F) (md5 : MD5 F) (i : Nat)
    (frame : List (MD5JOINT F)) : List (MD5JOINT F) :=
  if (rd md5.bind_pose i).parent > -1 then
    let md5joint := rdI frame (rd md5.bind_pose i).parent
    let location := vec3_rotate_vec4 M (rd frame i).location md5joint.rotation
    let location1 : vec3 F :=
      ⟨location.x + md5joint.location.x, location.y + md5joint.location.y,
       location.z + md5joint.location.z⟩
    let rotation := vec4_multiply_vec4 md5joint.rotation (rd frame i).rotation
    frame.set i { rd frame i with location := location1, rotation := vec4_normalize M rotation }
  else frame

/-- The joint `i` of a frame as the first loop leaves it: the scanned
location, the scanned rotation with W rebuilt, and the name of the bind-pose
joint. -/
def scanned_joint (M : FloatLib F) (md5 : MD5 F) (i : Nat) (old : MD5JOINT F)
    (row : FRAMEROW F) : MD5JOINT F :=
  { old with
    name := (rd md5.bind_pose i).name
    location := row.location
    rotation := vec4_build_w M ⟨row.rotation.x, row.rotation.y, row.rotation.z, 0⟩ }

/-- The joint `i` of a frame as the second loop leaves it, computed from the
frame `frame` reached so far. -/
def absolute_joint (M : FloatLib F) (md5 : MD5 F) (i : Nat) (frame : List (MD5JOINT F)) :
    MD5JOINT F :=
  if (rd md5.bind_pose i).parent > -1 then
    { rd frame i with
      location :=
        vec3_add (vec3_rotate_vec4 M (rd frame i).location
            (rdI frame (rd md5.bind_pose i).parent).rotation)
          (rdI frame (rd md5.bind_pose i).parent).location
      rotation :=
        vec4_normalize M
          (vec4_multiply_vec4 (rdI frame (rd md5.bind_pose i).parent).rotation
            (rd frame i).rotation) }
  else rd frame i

/-- The frame stored by a `frame` block of `MD5_load_action`. -/
def MD5_load_action_frame (M : FloatLib F) (md5 : MD5 F) (md5joint : List (MD5JOINT F))
    (rows : List (Option (FRAMEROW F))) : List (MD5JOINT F) :=
  let md5joint := whileIdx md5.n_joint (MD5_load_action_scan M md5 rows) md5joint
  whileIdx md5.n_joint (MD5_load_action_absolute M md5) md5joint

/-- Body of the loop over the lines of an action file.  The action under
construction is the last one, `md5action[ n_action - 1 ]`; memory from `malloc`
reads as zero. -/
def MD5_load_action_step (M : FloatLib F) (md5 : MD5 F) (line : ACTIONLINE F) :
    LOADSTEP (MD5 F) :=
  let k := md5.n_action - 1
  let md5action := rd md5.md5action k
  match line with
  | ACTIONLINE.MD5Version v =>
    if v ≠ 10 then LOADSTEP.cleanup md5 else LOADSTEP.next md5
  | ACTIONLINE.numFrames n =>
    LOADSTEP.next
      { md5 with
        md5action := md5.md5action.set k
          { md5action with
            n_frame := n, frame := List.replicate n (List.replicate md5.n_joint default) } }
  | ACTIONLINE.numJoints n =>
    if md5.n_joint ≠ n then LOADSTEP.cleanup md5
    else
      LOADSTEP.next
        { md5 with
          md5action := md5.md5action.set k
            { md5action with
              pose := whileIdx md5.n_joint
                (fun i pose => pose.set i { rd pose i with name := (rd md5.bind_pose i).name })
                (List.replicate md5.n_joint default) } }
  | ACTIONLINE.frameRate r =>
    LOADSTEP.next
      { md5 with md5action := md5.md5action.set k { md5action with fps := M.fdiv 1 (r : F) } }
  | ACTIONLINE.frame index rows =>
    LOADSTEP.next
      { md5 with
        md5action := md5.md5action.set k
          { md5action with
            frame := md5action.frame.set index
              (MD5_load_action_frame M md5 (rd md5action.frame index) rows) } }
  | ACTIONLINE.other => LOADSTEP.next md5

/-- A line on which the action loader gives up: an `MD5Version` other than 10
or a `numJoints` value different from the `n_joint` of the skeleton. -/
def action_line_rejected (md5 : MD5 F) : ACTIONLINE F → Prop
  | ACTIONLINE.MD5Version v => v ≠ 10
  | ACTIONLINE.numJoints n => md5.n_joint ≠ n
  | _ => False

/-- The call `realloc( xs, n * sizeof( ... ) )`: the first `n` entries are
kept and new entries read as zero. -/
def realloc {α : Type} [Inhabited α] (xs : List α) (n : Nat) : List α :=
  xs.take n ++ List.replicate (n - xs.length) default

/-- Load an action file (`MD5_load_action`): the MD5 after the call and the
returned index, `-1` on failure.  The file is `none` when it cannot be
opened. -/
def MD5_load_action (M : FloatLib F) (md5 : MD5 F) (name : String)
    (file : Option (List (ACTIONLINE F))) : MD5 F × Int :=
  match file with
  | none => (md5, -1)
  | some lines =>
    let md5 := { md5 with n_action := md5.n_action + 1 }
    let md5 := { md5 with md5action := realloc md5.md5action md5.n_action }
    let md5 :=
      { md5 with
        md5action := md5.md5action.set (md5.n_action - 1)
          { (default : MD5ACTION F) with name := name, curr_frame := 0, next_frame := 1 } }
    match load_lines (MD5_load_action_step M) md5 lines with
    | LOADSTEP.next md5 => (md5, (md5.n_action : Int) - 1)
    | LOADSTEP.cleanup md5 =>
      let md5 := { md5 with n_action := md5.n_action - 1 }
      ({ md5 with md5action := realloc md5.md5action md5.n_action }, -1)

/-- The buffer allocated by `MD5_build_vbo` (`calloc`) for a mesh: `n_vertex`
entries in each of the four arrays. -/
def MD5_build_vbo_mesh (md5mesh : MD5MESH F) : MD5MESH F :=
  { md5mesh with
    vertex_data :=
      ⟨List.replicate md5mesh.n_vertex ⟨0, 0, 0⟩, List.replicate md5mesh.n_vertex ⟨0, 0, 0⟩,
       List.replicate md5mesh.n_vertex ⟨0, 0⟩, List.replicate md5mesh.n_vertex ⟨0, 0, 0⟩⟩ }

/-- Build the vertex buffer of the mesh `mesh_index` (`MD5_build_vbo`). -/
def MD5_build_vbo (md5 : MD5 F) (mesh_index : Nat) : MD5 F :=
  { md5 with md5mesh := md5.md5mesh.set mesh_index (MD5_build_vbo_mesh (rd md5.md5mesh mesh_index)) }

/-! ## Bind-pose preprocessor (`MD5_build_bind_pose_weighted_normals_tangents`) -/

/-- The call `vec3_add( &v[ i ].normal, &v[ i ].normal, &normal )`. -/
def add_vertex_normal (vs : List (MD5VERTEX F)) (i : Nat) (normal : vec3 F) :
    List (MD5VERTEX F) :=
  vs.set i { rd vs i with normal := vec3_add (rd vs i).normal normal }

/-- The call `vec3_add( &v[ i ].tangent, &v[ i ].tangent, &tangent )`. -/
def add_vertex_tangent (vs : List (MD5VERTEX F)) (i : Nat) (tangent : vec3 F) :
    List (MD5VERTEX F) :=
  vs.set i { rd vs i with tangent := vec3_add (rd vs i).tangent tangent }

/-- The tangent computed for a triangle from its two edge vectors and the
texture coordinates of its three vertices; the division is not guarded. -/
def triangle_tangent (M : FloatLib F) (v1 v2 : vec3 F) (uv1 uv2 : vec2 F) : vec3 F :=
  let c := M.fdiv 1 (uv1.x * uv2.y - uv2.x * uv1.y)
  ⟨(v1.x * uv2.y + v2.x * uv1.y) * c,
   (v1.y * uv2.y + v2.y * uv1.y) * c,
   (v1.z * uv2.y + v2.z * uv1.y) * c⟩

/-- Body of the loop over the triangles: the face normal and the tangent are
added to the three vertices of the triangle. -/
def MD5_bind_triangle (M : FloatLib F) (vertex_array : List (vec3 F))
    (md5triangle : MD5TRIANGLE) (vs : List (MD5VERTEX F)) : List (MD5VERTEX F) :=
  let v1 := vec3_diff (rd vertex_array md5triangle.indice0) (rd vertex_array md5triangle.indice1)
  let v2 := vec3_diff (rd vertex_array md5triangle.indice0) (rd vertex_array md5triangle.indice2)
  let normal := vec3_cross v1 v2
  let normal := vec3_normalize M normal normal
  let vs := add_vertex_normal vs md5triangle.indice0 normal
  let vs := add_vertex_normal vs md5triangle.indice1 normal
  let vs := add_vertex_normal vs md5triangle.indice2 normal
  let uv1 := vec2_diff (rd vs md5triangle.indice1).uv (rd vs md5triangle.indice0).uv
  let uv2 := vec2_diff (rd vs md5triangle.indice2).uv (rd vs md5triangle.indice0).uv
  let tangent := triangle_tangent M v1 v2 uv1 uv2
  let vs := add_vertex_tangent vs md5triangle.indice0 tangent
  let vs := add_vertex_tangent vs md5triangle.indice1 tangent
  add_vertex_tangent vs md5triangle.indice2 tangent

/-- Body of the loop over the weights `k` of a vertex: the normal and the
tangent of the vertex, rotated by the conjugate of the bind-pose rotation of
the joint, are added to the weight. -/
def MD5_bind_weight (M : FloatLib F) (md5 : MD5 F) (md5vertex : MD5VERTEX F) (k : Nat)
    (ws : List (MD5WEIGHT F)) : List (MD5WEIGHT F) :=
  let md5weight := rd ws (md5vertex.start + k)
  let md5joint := rdI md5.bind_pose md5weight.joint
  let rotation := vec4_conjugate md5joint.rotation
  let normal := vec3_rotate_vec4 M md5vertex.normal rotation
  let tangent := vec3_rotate_vec4 M md5vertex.tangent rotation
  ws.set (md5vertex.start + k)
    { md5weight with
      normal := vec3_add md5weight.normal normal
      tangent := vec3_add md5weight.tangent tangent }

/-- The vertices of a mesh after the first three loops of the preprocessor:
cleared, accumulated over the triangles, normalised. -/
def MD5_bind_vertices (M : FloatLib F) (m : MD5MESH F) : List (MD5VERTEX F) :=
  let vs := whileIdx m.n_vertex
    (fun j vs => vs.set j { rd vs j with normal := ⟨0, 0, 0⟩, tangent := ⟨0, 0, 0⟩ })
    m.md5vertex
  let vs := whileIdx m.n_triangle
    (fun j vs => MD5_bind_triangle M m.vertex_data.vertex_array (rd m.md5triangle j) vs) vs
  whileIdx m.n_vertex
    (fun j vs =>
      let vs := vs.set j
        { rd vs j with normal := vec3_normalize M (rd vs j).normal (rd vs j).normal }
      vs.set j { rd vs j with tangent := vec3_normalize M (rd vs j).tangent (rd vs j).tangent })
    vs

/-- The weights of a mesh after the last three loops of the preprocessor:
cleared, accumulated over the vertices `vs`, normalised. -/
def MD5_bind_weights (M : FloatLib F) (md5 : MD5 F) (m : MD5MESH F)
    (vs : List (MD5VERTEX F)) : List (MD5WEIGHT F) :=
  let ws := whileIdx m.n_weight
    (fun j ws => ws.set j { rd ws j with normal := ⟨0, 0, 0⟩, tangent := ⟨0, 0, 0⟩ })
    m.md5weight
  let ws := whileIdx m.n_vertex
    (fun j ws => whileIdx (rd vs j).count (MD5_bind_weight M md5 (rd vs j)) ws) ws
  whileIdx m.n_weight
    (fun j ws =>
      let ws := ws.set j
        { rd ws j with normal := vec3_normalize M (rd ws j).normal (rd ws j).normal }
      ws.set j { rd ws j with tangent := vec3_normalize M (rd ws j).tangent (rd ws j).tangent })
    ws

/-- Body of the loop over the meshes of the preprocessor. -/
def MD5_bind_mesh (M : FloatLib F) (md5 : MD5 F) (m : MD5MESH F) : MD5MESH F :=
  let vs := MD5_bind_vertices M m
  { m with md5vertex := vs, md5weight := MD5_bind_weights M md5 m vs }

/-- Pre-calculate the weighted normals and tangents in bind pose
(`MD5_build_bind_pose_weighted_normals_tangents`). -/
def MD5_build_bind_pose_weighted_normals_tangents (M : FloatLib F) (md5 : MD5 F) : MD5 F :=
  whileIdx md5.n_mesh
    (fun i md5 => { md5 with md5mesh := md5.md5mesh.set i (MD5_bind_mesh M md5 (rd md5.md5mesh i)) })
    md5

/-! ## Bounds and build (`MD5_update_bound_mesh`, `MD5_build`) -/

/-- Body of the loop over the vertices in `MD5_update_bound_mesh`. -/
def MD5_update_bound_vertex (v : vec3 F) (md5 : MD5 F) : MD5 F :=
  let md5 := if v.x < md5.min.x then { md5 with min := { md5.min with x := v.x } } else md5
  let md5 := if v.y < md5.min.y then { md5 with min := { md5.min with y := v.y } } else md5
  let md5 := if v.z < md5.min.z then { md5 with min := { md5.min with z := v.z } } else md5
  let md5 := if v.x > md5.max.x then { md5 with max := { md5.max with x := v.x } } else md5
  let md5 := if v.y > md5.max.y then { md5 with max := { md5.max with y := v.y } } else md5
  if v.z > md5.max.z then { md5 with max := { md5.max with z := v.z } } else md5

/-- Bounding box and bounding sphere of the current vertex positions
(`MD5_update_bound_mesh`). -/
def MD5_update_bound_mesh (md5 : MD5 F) : MD5 F :=
  let md5 :=
    { md5 with
      min := ⟨99999999 / 1000, 99999999 / 1000, 99999999 / 1000⟩
      max := ⟨-(99999999 / 1000), -(99999999 / 1000), -(99999999 / 1000)⟩ }
  let md5 := whileIdx md5.n_mesh
    (fun i md5 =>
      let md5mesh := rd md5.md5mesh i
      whileIdx md5mesh.n_vertex
        (fun j md5 => MD5_update_bound_vertex (rd md5mesh.vertex_data.vertex_array j) md5) md5)
    md5
  let md5 := { md5 with dimension := vec3_diff md5.max md5.min }
  let md5 :=
    { md5 with
      radius := if md5.dimension.x > md5.dimension.y then md5.dimension.x else md5.dimension.y }
  { md5 with
    radius :=
      if md5.radius > md5.dimension.z then md5.radius * (1 / 2) else md5.dimension.z * (1 / 2) }

/-- Build the buffers of an MD5 and evaluate its bind pose (`MD5_build`). -/
def MD5_build (M : FloatLib F) (md5 : MD5 F) : MD5 F :=
  let md5 := whileIdx md5.n_mesh (fun i md5 => MD5_build_vbo md5 i) md5
  let md5 := MD5_set_pose M md5 md5.bind_pose
  let md5 := MD5_build_bind_pose_weighted_normals_tangents M md5
  let md5 := MD5_set_pose M md5 md5.bind_pose
  MD5_update_bound_mesh md5

/-- The vertex buffer of a mesh has the size `MD5_build_vbo` gives it. -/
def vertex_data_sized (md5mesh : MD5MESH F) : Prop :=
  md5mesh.vertex_data.vertex_array.length = md5mesh.n_vertex ∧
  md5mesh.vertex_data.normal_array.length = md5mesh.n_vertex ∧
  md5mesh.vertex_data.uv_array.length = md5mesh.n_vertex ∧
  md5mesh.vertex_data.tangent_array.length = md5mesh.n_vertex

/-- The vector of the three component-wise sums of `f 0`, ..., `f (n - 1)`. -/
def vec3_sum (n : Nat) (f : Nat → vec3 F) : vec3 F :=
  ⟨Finset.sum (Finset.range n) (fun k => (f k).x),
   Finset.sum (Finset.range n) (fun k => (f k).y),
   Finset.sum (Finset.range n) (fun k => (f k).z)⟩

/-- The vector `b * (p + v)`. -/
def vec3_bias_offset (b : F) (p v : vec3 F) : vec3 F :=
  ⟨b * (p.x + v.x), b * (p.y + v.y), b * (p.z + v.z)⟩

/-- The vector `b * v`. -/
def vec3_bias (b : F) (v : vec3 F) : vec3 F :=
  ⟨b * v.x, b * v.y, b * v.z⟩

/-- Contribution of weight `k` of the vertex `v` to the position of `v`, as
the specification words it: bias times (joint location plus rotated weight
location). -/
def skin_position (M : FloatLib F) (md5mesh : MD5MESH F) (pose : List (MD5JOINT F))
    (v : MD5VERTEX F) (k : Nat) : vec3 F :=
  let w := rd md5mesh.md5weight (v.start + k)
  let joint := rdI pose w.joint
  vec3_bias_offset w.bias joint.location (vec3_rotate_vec4 M w.location joint.rotation)

/-- Contribution of weight `k` of the vertex `v` to the normal of `v`: bias
times rotated weight normal. -/
def skin_normal (M : FloatLib F) (md5mesh : MD5MESH F) (pose : List (MD5JOINT F))
    (v : MD5VERTEX F) (k : Nat) : vec3 F :=
  let w := rd md5mesh.md5weight (v.start + k)
  let joint := rdI pose w.joint
  vec3_bias w.bias (vec3_rotate_vec4 M w.normal joint.rotation)

/-- Contribution of weight `k` of the vertex `v` to the tangent of `v`: bias
times rotated weight tangent. -/
def skin_tangent (M : FloatLib F) (md5mesh : MD5MESH F) (pose : List (MD5JOINT F))
    (v : MD5VERTEX F) (k : Nat) : vec3 F :=
  let w := rd md5mesh.md5weight (v.start + k)
  let joint := rdI pose w.joint
  vec3_bias w.bias (vec3_rotate_vec4 M w.tangent joint.rotation)

/-- Two vertex arrays agree on what the positions depend on: texture
coordinate, `start` and `count` of every vertex. -/
def same_skin_vertices (vs vs1 : List (MD5VERTEX F)) : Prop :=
  ∀ j, (rd vs1 j).uv = (rd vs j).uv ∧ (rd vs1 j).start = (rd vs j).start ∧
    (rd vs1 j).count = (rd vs j).count

/-- Two weight arrays agree on what the positions depend on: joint, bias and
location of every weight. -/
def same_skin_weights (ws ws1 : List (MD5WEIGHT F)) : Prop :=
  ∀ k, (rd ws1 k).joint = (rd ws k).joint ∧ (rd ws1 k).bias = (rd ws k).bias ∧
    (rd ws1 k).location = (rd ws k).location

/-- Two meshes differ at most in the normals and tangents of their vertices
and weights. -/
def same_but_normals_tangents (m m1 : MD5MESH F) : Prop :=
  m1.shader = m.shader ∧ m1.n_vertex = m.n_vertex ∧ m1.vertex_data = m.vertex_data ∧
    m1.n_triangle = m.n_triangle ∧ m1.md5triangle = m.md5triangle ∧
    m1.n_indice = m.n_indice ∧ m1.indice = m.indice ∧ m1.n_weight = m.n_weight ∧
    m1.visible = m.visible ∧ m1.md5vertex.length = m.md5vertex.length ∧
    m1.md5weight.length = m.md5weight.length ∧
    same_skin_vertices m.md5vertex m1.md5vertex ∧ same_skin_weights m.md5weight m1.md5weight

end Model

/-! ## Concrete inputs

Small inputs over `ℚ` on which the model is run. -/

/-- A `FloatLib` on `ℚ`: the square root is exact on quotients of perfect
squares (it is the quotient of the integer square roots); sine and arctangent
are not used by the inputs below and are set to zero. -/
def rational_lib : FloatLib ℚ :=
  ⟨fun q => (Nat.sqrt q.num.toNat : ℚ) / (Nat.sqrt q.den : ℚ), fun _ => 0, fun _ _ => 0,
   fun a b => a / b⟩

/-- A root joint at the origin. -/
def example_root : MD5JOINT ℚ := ⟨"root", -1, ⟨0, 0, 0⟩, ⟨0, 0, 0, -1⟩⟩

/-- A child of the root, one unit along X. -/
def example_child : MD5JOINT ℚ := ⟨"child", 0, ⟨1, 0, 0⟩, ⟨0, 0, 0, -1⟩⟩

/-- A mesh of three vertices and one triangle; the second vertex has two
weights whose biases are one half each. -/
def example_mesh : MD5MESH ℚ :=
  MD5_build_vbo_mesh
    { (default : MD5MESH ℚ) with
      n_vertex := 3
      md5vertex :=
        [⟨⟨0, 0⟩, default, default, 0, 1⟩, ⟨⟨1, 0⟩, default, default, 1, 2⟩,
         ⟨⟨0, 1⟩, default, default, 3, 1⟩]
      n_triangle := 1
      md5triangle := [⟨2, 1, 0⟩]
      n_indice := 3
      indice := [2, 1, 0]
      n_weight := 4
      md5weight :=
        [⟨1, 1, ⟨0, 0, 0⟩, default, default⟩, ⟨0, 1 / 2, ⟨1, 0, 0⟩, default, default⟩,
         ⟨1, 1 / 2, ⟨0, 1, 0⟩, default, default⟩, ⟨1, 1, ⟨0, 0, 1⟩, default, default⟩]
      visible := 1 }

/-- A skeleton of two joints and one mesh, without actions. -/
def example_md5 : MD5 ℚ :=
  { (MD5_new "example" : MD5 ℚ) with
    n_joint := 2, bind_pose := [example_root, example_child],
    n_mesh := 1, md5mesh := [example_mesh] }

/-- A second pose of the example skeleton: the child is moved one unit along Z. -/
def example_pose1 : List (MD5JOINT ℚ) :=
  [example_root, { example_child with location := ⟨1, 0, 1⟩ }]

/-- An action of four frames at 24 frames per second, freshly loaded. -/
def example_action : MD5ACTION ℚ :=
  { name := "walk", n_frame := 4,
    frame := [example_md5.bind_pose, example_pose1, example_md5.bind_pose, example_pose1],
    pose := [example_root, example_child],
    curr_frame := 0, next_frame := 1, state := STOP, method := MD5_METHOD_FRAME, loop := 0,
    frame_time := 0, fps := 1 / 24 }

/-- The example skeleton with the example action loaded. -/
def example_skeleton : MD5 ℚ :=
  { example_md5 with n_action := 1, md5action := [example_action] }

/-- The example skeleton while an action file is being loaded: the action
under construction has one frame allocated. -/
def example_loading : MD5 ℚ :=
  { example_md5 with
    n_action := 1
    md5action :=
      [{ (default : MD5ACTION ℚ) with
         name := "walk", next_frame := 1, n_frame := 1,
         frame := [List.replicate 2 default] }] }

/-- The two lines of a frame of the example: the child is one unit along X
from its parent. -/
def example_rows : List (Option (FRAMEROW ℚ)) :=
  [some ⟨⟨0, 0, 0⟩, ⟨0, 0, 0⟩⟩, some ⟨⟨1, 0, 0⟩, ⟨0, 0, 0⟩⟩]

/-- An action file that declares three joints, one more than the example
skeleton has. -/
def example_bad_clip : List (ACTIONLINE ℚ) :=
  [ACTIONLINE.MD5Version 10, ACTIONLINE.numFrames 2, ACTIONLINE.numJoints 3,
   ACTIONLINE.frameRate 24]

/-- A skeleton file whose first joint names the second joint as its parent. -/
def example_unordered_file : List (MD5LINE ℚ) :=
  [MD5LINE.MD5Version 10, MD5LINE.numJoints 2,
   MD5LINE.joints [⟨"child", 1, ⟨1, 0, 0⟩, ⟨0, 0, 0⟩⟩, ⟨"root", -1, ⟨0, 0, 0⟩, ⟨0, 0, 0⟩⟩]]

/-- The joints of the example skeleton as lines of a skeleton file. -/
def example_joint_rows : List (JOINTROW ℚ) :=
  [⟨"root", -1, ⟨0, 0, 0⟩, ⟨0, 0, 0⟩⟩, ⟨"child", 0, ⟨1, 0, 0⟩, ⟨0, 0, 0⟩⟩]

/-- The lines of a skeleton file after the `joints` block: one mesh of one
triangle. -/
def example_mesh_lines : List (MD5LINE ℚ) :=
  [MD5LINE.mesh
    [MESHLINE.shader "skin", MESHLINE.numverts 3,
     MESHLINE.vert 0 ⟨0, 0⟩ 0 1, MESHLINE.vert 1 ⟨1, 0⟩ 1 1, MESHLINE.vert 2 ⟨0, 1⟩ 2 1,
     MESHLINE.numtris 1, MESHLINE.tri 0 0 1 2, MESHLINE.numweights 3,
     MESHLINE.weight 0 1 1 ⟨0, 0, 0⟩, MESHLINE.weight 1 1 1 ⟨1, 0, 0⟩,
     MESHLINE.weight 2 1 1 ⟨0, 1, 0⟩]]

/-- The skeleton loaded from the example file with its joints in order. -/
def example_loaded : MD5 ℚ :=
  match MD5_load_mesh rational_lib "example"
      (some ([MD5LINE.MD5Version 10, MD5LINE.numJoints 2, MD5LINE.numMeshes 1] ++
        MD5LINE.joints example_joint_rows :: example_mesh_lines)) with
  | some md5 => md5
  | none => MD5_new "example"

/-- The example action playing without loop, frame-stepped, at its last frame,
with one frame period accumulated. -/
def example_last_frame : MD5ACTION ℚ :=
  { example_action with state := PLAY, curr_frame := 3, next_frame := 0, frame_time := 1 / 24 }

/-- The example skeleton with the action at its last frame. -/
def example_at_end : MD5 ℚ :=
  { example_md5 with n_action := 1, md5action := [example_last_frame] }

/-- The component-wise linear blend `(1 - t) * q0 + t * q1` of two
quaternions, as the documentation of `vec4_lerp` words it. -/
def vec4_linear_blend {F : Type} [LinearOrderedField F] (q0 q1 : vec4 F) (t : F) : vec4 F :=
  ⟨((1 - t) * q0.x) + (t * q1.x), ((1 - t) * q0.y) + (t * q1.y),
   ((1 - t) * q0.z) + (t * q1.z), ((1 - t) * q0.w) + (t * q1.w)⟩

/-- The position read by `MD5_update_bound_mesh` for vertex `j` of mesh `i`:
`vertex_array[ j ]` of `md5mesh[ i ]`. -/
def bound_vertex {F : Type} [LinearOrderedField F] (md5 : MD5 F) (i j : Nat) : vec3 F :=
  rd (rd md5.md5mesh i).vertex_data.vertex_array j

/-- Centre `(min + max) / 2` of the bounding box of an MD5. -/
def bound_centre {F : Type} [LinearOrderedField F] (md5 : MD5 F) : vec3 F :=
  ⟨(md5.min.x + md5.max.x) / 2, (md5.min.y + md5.max.y) / 2, (md5.min.z + md5.max.z) / 2⟩

/-- A skeleton file with one mesh block that declares 21846 triangles. -/
def example_large_file : List (MD5LINE ℚ) :=
  [MD5LINE.MD5Version 10, MD5LINE.numMeshes 1, MD5LINE.mesh [MESHLINE.numtris 21846]]

/-- A skeleton of one mesh whose three vertex positions are (0, 0, 0),
(1, 0, 0) and (1, 1, 1). -/
def example_box : MD5 ℚ :=
  { (MD5_new "box" : MD5 ℚ) with
    n_mesh := 1
    md5mesh :=
      [{ (default : MD5MESH ℚ) with
         n_vertex := 3
         md5vertex := [default, default, default]
         vertex_data :=
           ⟨[⟨0, 0, 0⟩, ⟨1, 0, 0⟩, ⟨1, 1, 1⟩], [⟨0, 0, 0⟩, ⟨0, 0, 0⟩, ⟨0, 0, 0⟩],
            [⟨0, 0⟩, ⟨0, 0⟩, ⟨0, 0⟩], [⟨0, 0, 0⟩, ⟨0, 0, 0⟩, ⟨0, 0, 0⟩]⟩
         visible := 1 }] }

/-- The example skeleton with the example action playing without loop at the
frame before its last (`curr_frame = 2`, `next_frame = 3` of 4 frames). -/
def example_near_end : MD5 ℚ :=
  { example_md5 with
    n_action := 1
    md5action := [{ example_action with state := PLAY, curr_frame := 2, next_frame := 3 }] }

/-- The MD5 after successive calls of `MD5_draw_action`, one for each elapsed
time of the list, in order. -/
def MD5_draw_action_steps {F : Type} [LinearOrderedField F] (M : FloatLib F) (dts : List F)
    (md5 : MD5 F) : MD5 F :=
  dts.foldl (fun md5 dt => (MD5_draw_action M md5 dt).1) md5

/-- The example skeleton with the example action started frame-stepped
without loop. -/
def example_played_once : MD5 ℚ :=
  { example_skeleton with md5action := [MD5_action_play example_action MD5_METHOD_FRAME 0] }

/-- An action of two frames at 24 frames per second, freshly loaded. -/
def example_clip : MD5ACTION ℚ :=
  { example_action with
    name := "nod", n_frame := 2, frame := [example_md5.bind_pose, example_pose1] }

/-- The example skeleton with the two-frame action started by
`MD5_action_play` with `MD5_METHOD_LERP` and the loop flag set. -/
def example_looping : MD5 ℚ :=
  { example_md5 with
    n_action := 1, md5action := [MD5_action_play example_clip MD5_METHOD_LERP 1] }

/-- The skeleton `example_looping` after one tick of one frame period followed
by `MD5_action_play` with `MD5_METHOD_LERP` and the loop flag cleared. -/
def example_replayed : MD5 ℚ :=
  { (MD5_draw_action rational_lib example_looping (1 / 24)).1 with
    md5action :=
      (MD5_draw_action rational_lib example_looping (1 / 24)).1.md5action.set 0
        (MD5_action_play
          (rd (MD5_draw_action rational_lib example_looping (1 / 24)).1.md5action 0)
          MD5_METHOD_LERP 0) }

/-- A `FloatLib` on `ℚ` that divides as `rational_lib` does, except that a
division by zero returns `r`. -/
def zero_division_lib (r : ℚ) : FloatLib ℚ :=
  { rational_lib with fdiv := fun a b => if b = 0 then r else a / b }

/-- The positions of the three corners of a triangle: (0, 0, 0), (1, 0, 0) and
(0, 1, 0). -/
def example_triangle_positions : List (vec3 ℚ) :=
  [⟨0, 0, 0⟩, ⟨1, 0, 0⟩, ⟨0, 1, 0⟩]

/-- Three vertices with the given texture coordinates and cleared normals and
tangents. -/
def example_triangle_vertices (uv0 uv1 uv2 : vec2 ℚ) : List (MD5VERTEX ℚ) :=
  [⟨uv0, ⟨0, 0, 0⟩, ⟨0, 0, 0⟩, 0, 1⟩, ⟨uv1, ⟨0, 0, 0⟩, ⟨0, 0, 0⟩, 1, 1⟩,
   ⟨uv2, ⟨0, 0, 0⟩, ⟨0, 0, 0⟩, 2, 1⟩]

/-- The UV-Jacobian tangent of a triangle as the specification words it:
`(e1 * dv2 - e2 * dv1) / (du1 * dv2 - du2 * dv1)` for the edge vectors `e1`,
`e2` and the texture differences `uv1 = (du1, dv1)`, `uv2 = (du2, dv2)`. -/
def jacobian_tangent {F : Type} [LinearOrderedField F] (e1 e2 : vec3 F) (uv1 uv2 : vec2 F) :
    vec3 F :=
  ⟨(e1.x * uv2.y - e2.x * uv1.y) / (uv1.x * uv2.y - uv2.x * uv1.y),
   (e1.y * uv2.y - e2.y * uv1.y) / (uv1.x * uv2.y - uv2.x * uv1.y),
   (e1.z * uv2.y - e2.z * uv1.y) / (uv1.x * uv2.y - uv2.x * uv1.y)⟩

/-- The determinant `uv1.x * uv2.y - uv2.x * uv1.y` by whose inverse the
preprocessor scales the tangent of a triangle. -/
def triangle_uv_determinant {F : Type} [LinearOrderedField F] (vs : List (MD5VERTEX F))
    (md5triangle : MD5TRIANGLE) : F :=
  let uv1 := vec2_diff (rd vs md5triangle.indice1).uv (rd vs md5triangle.indice0).uv
  let uv2 := vec2_diff (rd vs md5triangle.indice2).uv (rd vs md5triangle.indice0).uv
  uv1.x * uv2.y - uv2.x * uv1.y

/-- A skeleton over any scalars: one joint turned about X by the unit
quaternion (3/5, 0, 0, 4/5) and one mesh of three vertices, one triangle and
four weights on that joint; the second vertex has two weights of biases 1/2
and 1/4.  The position buffer holds the positions that `MD5_set_pose` gives in
the bind pose: (0, 0, 0), (1, 0, 0) and (0, 7/25, 24/25). -/
def example_turned_md5 (F : Type) [LinearOrderedField F] : MD5 F :=
  { (MD5_new "turned" : MD5 F) with
    n_joint := 1
    bind_pose := [⟨"root", -1, ⟨0, 0, 0⟩, ⟨3 / 5, 0, 0, 4 / 5⟩⟩]
    n_mesh := 1
    md5mesh :=
      [{ (default : MD5MESH F) with
          n_vertex := 3
          md5vertex :=
            [⟨⟨1, 0⟩, default, default, 0, 1⟩, ⟨⟨0, 1⟩, default, default, 1, 2⟩,
             ⟨⟨0, 0⟩, default, default, 3, 1⟩]
          n_triangle := 1
          md5triangle := [⟨2, 1, 0⟩]
          n_indice := 3
          indice := [2, 1, 0]
          n_weight := 4
          md5weight :=
            [⟨0, 1, ⟨0, 0, 0⟩, default, default⟩, ⟨0, 1 / 2, ⟨4 / 3, 0, 0⟩, default, default⟩,
             ⟨0, 1 / 4, ⟨4 / 3, 0, 0⟩, default, default⟩, ⟨0, 1, ⟨0, 1, 0⟩, default, default⟩]
          vertex_data :=
            ⟨[⟨0, 0, 0⟩, ⟨1, 0, 0⟩, ⟨0, 7 / 25, 24 / 25⟩], List.replicate 3 ⟨0, 0, 0⟩,
             [⟨1, 0⟩, ⟨0, 1⟩, ⟨0, 0⟩], List.replicate 3 ⟨0, 0, 0⟩⟩
          visible := 1 }] }

/-- Whether a tick of elapsed time `dt` is an advancing tick of the action
`i`: the action is playing and the accumulated time reaches one frame period
(`md5action->frame_time >= md5action->fps` after
`md5action->frame_time += time_step`). -/
def tick_advances {F : Type} [LinearOrderedField F] (md5 : MD5 F) (i : Nat) (dt : F) : Bool :=
  decide ((rd md5.md5action i).state = PLAY ∧
    (rd md5.md5action i).fps ≤ (rd md5.md5action i).frame_time + dt)

/-- The number of advancing ticks of the action `i` in the calls of
`MD5_draw_action` with the elapsed times of the list, in order. -/
def advancing_ticks {F : Type} [LinearOrderedField F] (M : FloatLib F) (i : Nat) :
    List F → MD5 F → Nat
  | [], _ => 0
  | dt :: dts, md5 =>
    (if tick_advances md5 i dt then 1 else 0) +
      advancing_ticks M i dts (MD5_draw_action M md5 dt).1

/-- The example skeleton with the two-frame action started frame-stepped
without loop. -/
def example_clip_once : MD5 ℚ :=
  { example_skeleton with md5action := [MD5_action_play example_clip MD5_METHOD_FRAME 0] }

/-! ## Reference semantics of the quaternion operations

The Hamilton product and the rotation `q * v * conj q` are taken from the
quaternion algebra of Mathlib; the functions of `vector.cpp` are compared with
them. -/

/-- The quaternion with the components of a `vec4`: `w` is the real part. -/
def vec4_quaternion {F : Type} [LinearOrderedField F] (v : vec4 F) : Quaternion F :=
  ⟨v.w, v.x, v.y, v.z⟩

/-- The pure quaternion of a 3D vector. -/
def vec3_quaternion {F : Type} [LinearOrderedField F] (v : vec3 F) : Quaternion F :=
  ⟨0, v.x, v.y, v.z⟩

/-- Hamilton product `a * b` of two quaternions held as `vec4`, `a` the left
factor. -/
def hamilton_product {F : Type} [LinearOrderedField F] (a b : vec4 F) : vec4 F :=
  ⟨(vec4_quaternion a * vec4_quaternion b).imI, (vec4_quaternion a * vec4_quaternion b).imJ,
   (vec4_quaternion a * vec4_quaternion b).imK, (vec4_quaternion a * vec4_quaternion b).re⟩

/-- The vector part of `q * v * conj q`: the rotation of `v` by `q` when `q` is
a unit quaternion. -/
def quaternion_rotate {F : Type} [LinearOrderedField F] (q : vec4 F) (v : vec3 F) : vec3 F :=
  ⟨(vec4_quaternion q * vec3_quaternion v * star (vec4_quaternion q)).imI,
   (vec4_quaternion q * vec3_quaternion v * star (vec4_quaternion q)).imJ,
   (vec4_quaternion q * vec3_quaternion v * star (vec4_quaternion q)).imK⟩

/-- The factor `1 / |q|` of a quaternion, 0 for a quaternion of length 0. -/
def unit_factor {F : Type} [LinearOrderedField F] (M : FloatLib F) (q : vec4 F) : F :=
  if M.sqrtf (vec4_dot q) ≠ 0 then 1 / M.sqrtf (vec4_dot q) else 0

/-- The quaternion `b * v`. -/
def vec4_bias {F : Type} [LinearOrderedField F] (b : F) (v : vec4 F) : vec4 F :=
  ⟨b * v.x, b * v.y, b * v.z, b * v.w⟩

/-- The example pose with its root turned about Z by the unit quaternion
(0, 0, 3/5, 4/5). -/
def example_turned_pose : List (MD5JOINT ℚ) :=
  [{ example_root with rotation := ⟨0, 0, 3 / 5, 4 / 5⟩ }, example_child]

/-- The example skeleton with a normal and a tangent on the weights of its
second vertex. -/
def example_shaded_md5 : MD5 ℚ :=
  { example_md5 with
    md5mesh :=
      [{ example_mesh with
         md5weight :=
           [⟨1, 1, ⟨0, 0, 0⟩, default, default⟩,
            ⟨0, 1 / 2, ⟨1, 0, 0⟩, ⟨1, 0, 0⟩, ⟨0, 1, 0⟩⟩,
            ⟨1, 1 / 2, ⟨0, 1, 0⟩, ⟨0, 0, 1⟩, ⟨0, 1, 0⟩⟩,
            ⟨1, 1, ⟨0, 0, 1⟩, default, default⟩] }] }

/-- The two lines of a frame with a turned root: the root is scanned with the
rotation (3/5, 0, 0), the child one unit along Y from its parent. -/
def example_turned_rows : List (Option (FRAMEROW ℚ)) :=
  [some ⟨⟨0, 0, 0⟩, ⟨3 / 5, 0, 0⟩⟩, some ⟨⟨0, 1, 0⟩, ⟨0, 0, 0⟩⟩]

/-- The example action with the second pose as its working pose. -/
def example_moved_action : MD5ACTION ℚ := { example_action with pose := example_pose1 }

/-- The bytes of the frames of the example action, IEEE single precision with
the low byte first (`1.0f` is 00 00 80 3F, `-1.0f` is 00 00 80 BF): the root is
the same in every frame, the child is at (1, 0, 0) in the even frames and at
(1, 0, 1) in the odd frames. -/
def example_frame_bytes : FRAMEBYTES :=
  { location := fun f i =>
      if i = 0 then List.replicate 12 0
      else if f % 2 = 0 then [0, 0, 128, 63] ++ List.replicate 8 0
      else [0, 0, 128, 63, 0, 0, 0, 0, 0, 0, 128, 63]
    rotation := fun _ _ => List.replicate 12 0 ++ [0, 0, 128, 191] }

/-- The same frames with the X of the root location stored as `-0.0f`
(00 00 00 80) in the odd frames. -/
def example_signed_zero_bytes : FRAMEBYTES :=
  { example_frame_bytes with
    location := fun f i =>
      if i = 0 ∧ f % 2 = 1 then [0, 0, 0, 128] ++ List.replicate 8 0
      else example_frame_bytes.location f i }

/-! ## Lemmas on arrays and loops -/

section Lemmas

variable {F : Type} [LinearOrderedField F]

theorem whileIdx_succ {σ : Type} (n : Nat) (body : Nat → σ → σ) (s : σ) :
    whileIdx (n + 1) body s = body n (whileIdx n body s) := rfl

theorem rd_set_self {α : Type} [Inhabited α] (xs : List α) (i : Nat) (a : α)
    (h : i < xs.length) : rd (xs.set i a) i = a := by
  simp [rd, List.getD_eq_getElem?_getD, List.getElem?_set, h]

theorem rd_set_ne {α : Type} [Inhabited α] (xs : List α) (i j : Nat) (a : α)
    (h : i ≠ j) : rd (xs.set i a) j = rd xs j := by
  simp [rd, List.getD_eq_getElem?_getD, List.getElem?_set, h]

theorem rd_replicate {α : Type} [Inhabited α] (n i : Nat) (a : α) (h : i < n) :
    rd (List.replicate n a) i = a := by
  simp [rd, List.getD_eq_getElem?_getD, List.getElem?_replicate, h]

theorem rd_eq_getElem {α : Type} [Inhabited α] (xs : List α) (i : Nat) (h : i < xs.length) :
    rd xs i = xs[i] := by
  simp [rd, List.getD_eq_getElem?_getD, List.getElem?_eq_getElem h]

theorem list_ext_rd {α : Type} [Inhabited α] (xs ys : List α) (hl : xs.length = ys.length)
    (h : ∀ i, i < xs.length → rd xs i = rd ys i) : xs = ys := by
  apply List.ext_getElem hl
  intro i h1 h2
  have := h i h1
  rwa [rd_eq_getElem xs i h1, rd_eq_getElem ys i h2] at this

theorem memset_vec3_sized (xs : List (vec3 F)) (n : Nat) (h : xs.length = n) :
    memset_vec3 xs n = List.replicate n ⟨0, 0, 0⟩ := by
  simp [memset_vec3, h]

theorem whileIdx_proj {σ τ : Type} (p : σ → τ) (body : Nat → σ → σ) (body1 : Nat → τ → τ)
    (h : ∀ i s, p (body i s) = body1 i (p s)) (n : Nat) (s : σ) :
    p (whileIdx n body s) = whileIdx n body1 (p s) := by
  induction n with
  | zero => rfl
  | succ n ih => rw [whileIdx_succ, whileIdx_succ, h, ih]

theorem whileIdx_inv {σ : Type} (P : σ → Prop) (body : Nat → σ → σ)
    (h : ∀ i s, P s → P (body i s)) (n : Nat) (s : σ) (hs : P s) :
    P (whileIdx n body s) := by
  induction n with
  | zero => exact hs
  | succ n ih => rw [whileIdx_succ]; exact h n _ ih

theorem whileIdx_set_length {α : Type} [Inhabited α] (f : Nat → List α → α) (n : Nat)
    (xs : List α) :
    (whileIdx n (fun i xs => xs.set i (f i xs)) xs).length = xs.length := by
  induction n with
  | zero => rfl
  | succ n ih => rw [whileIdx_succ, List.length_set, ih]

theorem whileIdx_set_rd {α : Type} [Inhabited α] (f : Nat → α → α) (n : Nat) (xs : List α)
    (j : Nat) :
    rd (whileIdx n (fun i xs => xs.set i (f i (rd xs i))) xs) j =
      if j < n ∧ j < xs.length then f j (rd xs j) else rd xs j := by
  induction n with
  | zero => simp [whileIdx]
  | succ n ih =>
    rw [whileIdx_succ]
    have hlen := whileIdx_set_length (fun i xs => f i (rd xs i)) n xs
    by_cases hjn : n = j
    · subst hjn
      by_cases hl : n < xs.length
      · rw [rd_set_self _ _ _ (by rw [hlen]; exact hl), ih]
        simp [hl]
      · rw [List.set_eq_of_length_le (by rw [hlen]; omega), ih]
        simp [hl]
    · rw [rd_set_ne _ _ _ _ hjn, ih]
      have : (j < n + 1) ↔ (j < n) := by omega
      simp [this]

theorem set_set_rd {α : Type} [Inhabited α] (xs : List α) (j : Nat) (a : α) (g : α → α) :
    (xs.set j a).set j (g (rd (xs.set j a) j)) = xs.set j (g a) := by
  by_cases h : j < xs.length
  · rw [rd_set_self _ _ _ h, List.set_set]
  · rw [List.set_eq_of_length_le (l := xs) (by omega), List.set_eq_of_length_le (by omega),
      List.set_eq_of_length_le (by omega)]

theorem set_rd_self {α : Type} [Inhabited α] (xs : List α) (j : Nat) :
    xs.set j (rd xs j) = xs := by
  by_cases h : j < xs.length
  · apply List.ext_getElem (by simp)
    intro i h1 h2
    by_cases hij : j = i
    · subst hij; simp [rd_eq_getElem _ _ h]
    · simp [List.getElem_set, hij]
  · exact List.set_eq_of_length_le (by omega)

/-! ## Pose evaluator: the loops compute the weighted sums -/

theorem vec3_sum_zero (f : Nat → vec3 F) : vec3_sum 0 f = ⟨0, 0, 0⟩ := by
  simp [vec3_sum]

theorem vec3_add_zero (v : vec3 F) : vec3_add v ⟨0, 0, 0⟩ = v := by
  simp [vec3_add]

theorem vec3_zero_add (v : vec3 F) : vec3_add ⟨0, 0, 0⟩ v = v := by
  simp [vec3_add]

theorem vec3_sum_succ (n : Nat) (f : Nat → vec3 F) :
    vec3_sum (n + 1) f = vec3_add (vec3_sum n f) (f n) := by
  simp [vec3_sum, vec3_add, Finset.sum_range_succ]

theorem vec3_add_assoc (a b c : vec3 F) :
    vec3_add (vec3_add a b) c = vec3_add a (vec3_add b c) := by
  simp [vec3_add, add_assoc]

theorem set_pose_weight_eq (M : FloatLib F) (md5mesh : MD5MESH F) (pose : List (MD5JOINT F))
    (j : Nat) (v : MD5VERTEX F) (k : Nat) (d : VERTEXDATA F) :
    MD5_set_pose_weight M md5mesh pose j v k d =
      { d with
        vertex_array := d.vertex_array.set j
          (vec3_add (rd d.vertex_array j) (skin_position M md5mesh pose v k))
        normal_array := d.normal_array.set j
          (vec3_add (rd d.normal_array j) (skin_normal M md5mesh pose v k))
        tangent_array := d.tangent_array.set j
          (vec3_add (rd d.tangent_array j) (skin_tangent M md5mesh pose v k)) } := by
  unfold MD5_set_pose_weight
  simp only [vec3_add, skin_position, skin_normal, skin_tangent, vec3_bias_offset, vec3_bias]
  congr 3 <;> ring

theorem set_pose_weight_loop (M : FloatLib F) (md5mesh : MD5MESH F) (pose : List (MD5JOINT F))
    (j : Nat) (v : MD5VERTEX F) (c : Nat) (d : VERTEXDATA F) :
    whileIdx c (MD5_set_pose_weight M md5mesh pose j v) d =
      { d with
        vertex_array := d.vertex_array.set j
          (vec3_add (rd d.vertex_array j) (vec3_sum c (skin_position M md5mesh pose v)))
        normal_array := d.normal_array.set j
          (vec3_add (rd d.normal_array j) (vec3_sum c (skin_normal M md5mesh pose v)))
        tangent_array := d.tangent_array.set j
          (vec3_add (rd d.tangent_array j) (vec3_sum c (skin_tangent M md5mesh pose v))) } := by
  induction c with
  | zero =>
    simp only [whileIdx, vec3_sum_zero, vec3_add_zero, set_rd_self]
  | succ c ih =>
    rw [whileIdx_succ, ih, set_pose_weight_eq]
    simp only []
    rw [set_set_rd _ _ _ (fun u => vec3_add u (skin_position M md5mesh pose v c)),
      set_set_rd _ _ _ (fun u => vec3_add u (skin_normal M md5mesh pose v c)),
      set_set_rd _ _ _ (fun u => vec3_add u (skin_tangent M md5mesh pose v c))]
    simp only [vec3_sum_succ, vec3_add_assoc]

theorem whileIdx_id {σ : Type} (n : Nat) (s : σ) : whileIdx n (fun _ s => s) s = s := by
  induction n with
  | zero => rfl
  | succ n ih => rw [whileIdx_succ, ih]

theorem set_pose_vertex_vertex_array (M : FloatLib F) (m : MD5MESH F) (pose : List (MD5JOINT F))
    (j : Nat) (d : VERTEXDATA F) :
    (MD5_set_pose_vertex M m pose j d).vertex_array =
      d.vertex_array.set j (vec3_add (rd d.vertex_array j)
        (vec3_sum (rd m.md5vertex j).count (skin_position M m pose (rd m.md5vertex j)))) := by
  simp only [MD5_set_pose_vertex, set_pose_weight_loop]

theorem set_pose_vertex_normal_array (M : FloatLib F) (m : MD5MESH F) (pose : List (MD5JOINT F))
    (j : Nat) (d : VERTEXDATA F) :
    (MD5_set_pose_vertex M m pose j d).normal_array =
      d.normal_array.set j (vec3_add (rd d.normal_array j)
        (vec3_sum (rd m.md5vertex j).count (skin_normal M m pose (rd m.md5vertex j)))) := by
  simp only [MD5_set_pose_vertex, set_pose_weight_loop]

theorem set_pose_vertex_tangent_array (M : FloatLib F) (m : MD5MESH F) (pose : List (MD5JOINT F))
    (j : Nat) (d : VERTEXDATA F) :
    (MD5_set_pose_vertex M m pose j d).tangent_array =
      d.tangent_array.set j (vec3_add (rd d.tangent_array j)
        (vec3_sum (rd m.md5vertex j).count (skin_tangent M m pose (rd m.md5vertex j)))) := by
  simp only [MD5_set_pose_vertex, set_pose_weight_loop]

theorem set_pose_vertex_uv_array (M : FloatLib F) (m : MD5MESH F) (pose : List (MD5JOINT F))
    (j : Nat) (d : VERTEXDATA F) :
    (MD5_set_pose_vertex M m pose j d).uv_array =
      d.uv_array.set j ⟨(rd m.md5vertex j).uv.x, (rd m.md5vertex j).uv.y⟩ := by
  simp only [MD5_set_pose_vertex, set_pose_weight_loop]

/-- Positions written by `MD5_set_pose` into a mesh whose buffer has `n_vertex`
entries. -/
theorem set_pose_mesh_vertex (M : FloatLib F) (pose : List (MD5JOINT F)) (m : MD5MESH F)
    (hs : m.vertex_data.vertex_array.length = m.n_vertex) (j : Nat) (hj : j < m.n_vertex) :
    rd (MD5_set_pose_mesh M pose m).vertex_data.vertex_array j =
      vec3_sum (rd m.md5vertex j).count (skin_position M m pose (rd m.md5vertex j)) := by
  unfold MD5_set_pose_mesh
  simp only []
  rw [whileIdx_proj VERTEXDATA.vertex_array _
    (fun j xs => xs.set j (vec3_add (rd xs j)
      (vec3_sum (rd m.md5vertex j).count (skin_position M m pose (rd m.md5vertex j)))))
    (set_pose_vertex_vertex_array M m pose)]
  rw [whileIdx_set_rd (fun j u => vec3_add u
    (vec3_sum (rd m.md5vertex j).count (skin_position M m pose (rd m.md5vertex j))))]
  rw [memset_vec3_sized _ _ hs]
  simp [hj, rd_replicate, vec3_zero_add]

theorem set_pose_mesh_normal (M : FloatLib F) (pose : List (MD5JOINT F)) (m : MD5MESH F)
    (hs : m.vertex_data.normal_array.length = m.n_vertex) (j : Nat) (hj : j < m.n_vertex) :
    rd (MD5_set_pose_mesh M pose m).vertex_data.normal_array j =
      vec3_sum (rd m.md5vertex j).count (skin_normal M m pose (rd m.md5vertex j)) := by
  unfold MD5_set_pose_mesh
  simp only []
  rw [whileIdx_proj VERTEXDATA.normal_array _
    (fun j xs => xs.set j (vec3_add (rd xs j)
      (vec3_sum (rd m.md5vertex j).count (skin_normal M m pose (rd m.md5vertex j)))))
    (set_pose_vertex_normal_array M m pose)]
  rw [whileIdx_set_rd (fun j u => vec3_add u
    (vec3_sum (rd m.md5vertex j).count (skin_normal M m pose (rd m.md5vertex j))))]
  rw [memset_vec3_sized _ _ hs]
  simp [hj, rd_replicate, vec3_zero_add]

theorem set_pose_mesh_tangent (M : FloatLib F) (pose : List (MD5JOINT F)) (m : MD5MESH F)
    (hs : m.vertex_data.tangent_array.length = m.n_vertex) (j : Nat) (hj : j < m.n_vertex) :
    rd (MD5_set_pose_mesh M pose m).vertex_data.tangent_array j =
      vec3_sum (rd m.md5vertex j).count (skin_tangent M m pose (rd m.md5vertex j)) := by
  unfold MD5_set_pose_mesh
  simp only []
  rw [whileIdx_proj VERTEXDATA.tangent_array _
    (fun j xs => xs.set j (vec3_add (rd xs j)
      (vec3_sum (rd m.md5vertex j).count (skin_tangent M m pose (rd m.md5vertex j)))))
    (set_pose_vertex_tangent_array M m pose)]
  rw [whileIdx_set_rd (fun j u => vec3_add u
    (vec3_sum (rd m.md5vertex j).count (skin_tangent M m pose (rd m.md5vertex j))))]
  rw [memset_vec3_sized _ _ hs]
  simp [hj, rd_replicate, vec3_zero_add]

theorem set_pose_mesh_uv (M : FloatLib F) (pose : List (MD5JOINT F)) (m : MD5MESH F)
    (hs : m.vertex_data.uv_array.length = m.n_vertex) (j : Nat) (hj : j < m.n_vertex) :
    rd (MD5_set_pose_mesh M pose m).vertex_data.uv_array j = (rd m.md5vertex j).uv := by
  unfold MD5_set_pose_mesh
  simp only []
  rw [whileIdx_proj VERTEXDATA.uv_array _
    (fun j xs => xs.set j (⟨(rd m.md5vertex j).uv.x, (rd m.md5vertex j).uv.y⟩ : vec2 F))
    (set_pose_vertex_uv_array M m pose)]
  rw [whileIdx_set_rd (fun j _ => (⟨(rd m.md5vertex j).uv.x, (rd m.md5vertex j).uv.y⟩ : vec2 F))]
  simp [hj, hs]

/-- The meshes after `MD5_set_pose`: every mesh below `n_mesh` is evaluated. -/
theorem set_pose_md5mesh (M : FloatLib F) (md5 : MD5 F) (pose : List (MD5JOINT F)) (i : Nat) :
    rd (MD5_set_pose M md5 pose).md5mesh i =
      if i < md5.n_mesh ∧ i < md5.md5mesh.length then MD5_set_pose_mesh M pose (rd md5.md5mesh i)
      else rd md5.md5mesh i := by
  unfold MD5_set_pose
  rw [whileIdx_proj MD5.md5mesh _
    (fun i ms => ms.set i (MD5_set_pose_mesh M pose (rd ms i))) (fun _ _ => rfl)]
  rw [whileIdx_set_rd (fun _ m => MD5_set_pose_mesh M pose m)]

theorem whileIdx_set_ge {α : Type} [Inhabited α] (h : Nat → List α → α) (n : Nat)
    (xs : List α) (j : Nat) (hj : n ≤ j) :
    rd (whileIdx n (fun i xs => xs.set i (h i xs)) xs) j = rd xs j := by
  induction n with
  | zero => rfl
  | succ n ih =>
    rw [whileIdx_succ, rd_set_ne _ _ _ _ (by omega)]
    exact ih (by omega)

theorem whileIdx_set_lt {α : Type} [Inhabited α] (h : Nat → List α → α) (n : Nat)
    (xs : List α) (j : Nat) (hj : j < n) :
    rd (whileIdx n (fun i xs => xs.set i (h i xs)) xs) j =
      rd (whileIdx (j + 1) (fun i xs => xs.set i (h i xs)) xs) j := by
  induction n with
  | zero => omega
  | succ n ih =>
    by_cases hjn : j = n
    · subst hjn; rfl
    · rw [whileIdx_succ, rd_set_ne _ _ _ _ (fun e => hjn e.symm)]
      exact ih (by omega)

theorem whileIdx_set_at {α : Type} [Inhabited α] (h : Nat → List α → α) (xs : List α)
    (j : Nat) (hl : j < xs.length) :
    rd (whileIdx (j + 1) (fun i xs => xs.set i (h i xs)) xs) j =
      h j (whileIdx j (fun i xs => xs.set i (h i xs)) xs) := by
  rw [whileIdx_succ]
  exact rd_set_self _ _ _ (by rw [whileIdx_set_length]; exact hl)

/-- An entry below the current index of an in-place loop has its final value. -/
theorem whileIdx_set_frozen {α : Type} [Inhabited α] (h : Nat → List α → α) (n k : Nat)
    (xs : List α) (j : Nat) (hjk : j < k) (hkn : k ≤ n) :
    rd (whileIdx k (fun i xs => xs.set i (h i xs)) xs) j =
      rd (whileIdx n (fun i xs => xs.set i (h i xs)) xs) j := by
  rw [whileIdx_set_lt h k xs j hjk, whileIdx_set_lt h n xs j (by omega)]

/-! ## Interpolation at the boundaries -/

theorem vec3_lerp_zero (v0 v1 : vec3 F) : vec3_lerp v0 v1 0 = v0 := by
  simp [vec3_lerp]

theorem vec3_lerp_one (v0 v1 : vec3 F) : vec3_lerp v0 v1 1 = v1 := by
  simp [vec3_lerp]

theorem vec4_lerp_zero (M : FloatLib F) (v0 v1 : vec4 F) : vec4_lerp M v0 v1 0 = v0 := by
  simp [vec4_lerp]

theorem vec4_lerp_one (M : FloatLib F) (v0 v1 : vec4 F) : vec4_lerp M v0 v1 1 = v1 := by
  simp [vec4_lerp]

theorem vec4_slerp_zero (M : FloatLib F) (v0 v1 : vec4 F) : vec4_slerp M v0 v1 0 = v0 := by
  simp [vec4_slerp]

theorem vec4_slerp_one (M : FloatLib F) (v0 v1 : vec4 F) : vec4_slerp M v0 v1 1 = v1 := by
  simp [vec4_slerp]

/-- The result of `vec4_slerp` when the dot product is negative and close to
`-1`: the linear blend with the negated second quaternion. -/
theorem vec4_slerp_neg_near (M : FloatLib F) (v0 v1 : vec4 F) (t : F) (ht1 : t ≠ 1)
    (ht0 : t ≠ 0) (hc : vec4_dot_vec4 v0 v1 < 0)
    (hb : -vec4_dot_vec4 v0 v1 > 999999 / 1000000) :
    vec4_slerp M v0 v1 t =
      ⟨((1 - t) * v0.x) + (t * -v1.x), ((1 - t) * v0.y) + (t * -v1.y),
       ((1 - t) * v0.z) + (t * -v1.z), ((1 - t) * v0.w) + (t * -v1.w)⟩ := by
  unfold vec4_slerp
  simp only [if_neg ht1, if_neg ht0, if_pos hc, if_pos hb]

/-- The joint written by `MD5_blend_pose` at index `j`. -/
theorem blend_pose_rd (M : FloatLib F) (md5 : MD5 F) (final_pose pose0 pose1 : List (MD5JOINT F))
    (method : Nat) (blend : F) (j : Nat) :
    rd (MD5_blend_pose M md5 final_pose pose0 pose1 method blend) j =
      if j < md5.n_joint ∧ j < final_pose.length then
        { rd final_pose j with
          location := vec3_lerp (rd pose0 j).location (rd pose1 j).location blend
          rotation :=
            if method = MD5_METHOD_FRAME ∨ method = MD5_METHOD_LERP then
              vec4_lerp M (rd pose0 j).rotation (rd pose1 j).rotation blend
            else if method = MD5_METHOD_SLERP then
              vec4_slerp M (rd pose0 j).rotation (rd pose1 j).rotation blend
            else (rd final_pose j).rotation }
      else rd final_pose j := by
  unfold MD5_blend_pose
  exact whileIdx_set_rd
    (fun i (f : MD5JOINT F) =>
      { f with
        location := vec3_lerp (rd pose0 i).location (rd pose1 i).location blend
        rotation :=
          if method = MD5_METHOD_FRAME ∨ method = MD5_METHOD_LERP then
            vec4_lerp M (rd pose0 i).rotation (rd pose1 i).rotation blend
          else if method = MD5_METHOD_SLERP then
            vec4_slerp M (rd pose0 i).rotation (rd pose1 i).rotation blend
          else f.rotation })
    md5.n_joint final_pose j

theorem add_pose_rd (M : FloatLib F) (frame_bytes : FRAMEBYTES) (md5 : MD5 F)
    (final_pose : List (MD5JOINT F)) (action0 action1 : MD5ACTION F) (method : Nat)
    (action_weight : F) (j : Nat) :
    rd (MD5_add_pose M frame_bytes md5 final_pose action0 action1 method action_weight) j =
      if j < md5.n_joint ∧ j < final_pose.length then
        if frame_bytes.location action1.curr_frame j ≠
              frame_bytes.location action1.next_frame j ∨
            frame_bytes.rotation action1.curr_frame j ≠
              frame_bytes.rotation action1.next_frame j then
          { rd final_pose j with
            location :=
              vec3_lerp (rd action0.pose j).location (rd action1.pose j).location action_weight
            rotation :=
              if method = MD5_METHOD_FRAME ∨ method = MD5_METHOD_LERP then
                vec4_lerp M (rd action0.pose j).rotation (rd action1.pose j).rotation
                  action_weight
              else if method = MD5_METHOD_SLERP then
                vec4_slerp M (rd action0.pose j).rotation (rd action1.pose j).rotation
                  action_weight
              else (rd final_pose j).rotation }
        else
          { rd final_pose j with
            location := (rd action0.pose j).location
            rotation := (rd action0.pose j).rotation }
      else rd final_pose j := by
  have h := whileIdx_set_rd
    (fun i (f : MD5JOINT F) =>
      if frame_bytes.location action1.curr_frame i ≠
            frame_bytes.location action1.next_frame i ∨
          frame_bytes.rotation action1.curr_frame i ≠
            frame_bytes.rotation action1.next_frame i then
        { f with
          location :=
            vec3_lerp (rd action0.pose i).location (rd action1.pose i).location action_weight
          rotation :=
            if method = MD5_METHOD_FRAME ∨ method = MD5_METHOD_LERP then
              vec4_lerp M (rd action0.pose i).rotation (rd action1.pose i).rotation action_weight
            else if method = MD5_METHOD_SLERP then
              vec4_slerp M (rd action0.pose i).rotation (rd action1.pose i).rotation
                action_weight
            else f.rotation }
      else
        { f with
          location := (rd action0.pose i).location
          rotation := (rd action0.pose i).rotation })
    md5.n_joint final_pose j
  rw [← h]
  unfold MD5_add_pose
  congr 2
  funext i xs
  split <;> rfl

/-! ## The action loop of `MD5_draw_action` -/

/-- The action computed by the loop body depends on the MD5 through `n_joint`
only, and not on the incoming `update` flag. -/
theorem draw_action_body_fst (M : FloatLib F) (md5a md5b : MD5 F)
    (h : md5a.n_joint = md5b.n_joint) (dt : F) (a : MD5ACTION F) (u u1 : Nat) :
    (MD5_draw_action_body M md5a dt a u).1 = (MD5_draw_action_body M md5b dt a u1).1 := by
  have hf : ∀ b : MD5ACTION F,
      (MD5_draw_action_frame md5a b u).1 = (MD5_draw_action_frame md5b b u1).1 := by
    intro b
    unfold MD5_draw_action_frame
    rw [h]
    dsimp only
    split_ifs <;> rfl
  have hb : ∀ b : MD5ACTION F,
      (MD5_draw_action_blend M md5a b u).1 = (MD5_draw_action_blend M md5b b u1).1 := by
    intro b
    unfold MD5_draw_action_blend MD5_blend_pose
    rw [h]
    dsimp only
    split_ifs <;> rfl
  unfold MD5_draw_action_body
  dsimp only
  split_ifs <;> first | exact hf _ | exact hb _ | rfl

/-- The MD5 after `MD5_draw_action`: only the actions change, each action
below `n_action` by the loop body. -/
theorem draw_action_fst (M : FloatLib F) (md5 : MD5 F) (dt : F) :
    (MD5_draw_action M md5 dt).1 =
      { md5 with
        md5action := whileIdx md5.n_action
          (fun i xs => xs.set i (MD5_draw_action_body M md5 dt (rd xs i) 0).1) md5.md5action } := by
  have key : ∀ n : Nat,
      (whileIdx n
        (fun i (s : MD5 F × Nat) =>
          let r := MD5_draw_action_body M s.1 dt (rd s.1.md5action i) s.2
          ({ s.1 with md5action := s.1.md5action.set i r.1 }, r.2))
        (md5, 0)).1 =
      { md5 with
        md5action := whileIdx n
          (fun i xs => xs.set i (MD5_draw_action_body M md5 dt (rd xs i) 0).1) md5.md5action } := by
    intro n
    induction n with
    | zero => rfl
    | succ n ih =>
      rw [whileIdx_succ, whileIdx_succ]
      simp only [ih]
      congr 2
      exact draw_action_body_fst M _ md5 rfl dt _ _ 0
  exact key md5.n_action

theorem draw_action_rd (M : FloatLib F) (md5 : MD5 F) (dt : F) (i : Nat)
    (hi : i < md5.n_action) (hl : i < md5.md5action.length) :
    rd (MD5_draw_action M md5 dt).1.md5action i =
      (MD5_draw_action_body M md5 dt (rd md5.md5action i) 0).1 := by
  rw [draw_action_fst]
  simp only []
  rw [whileIdx_set_rd (fun _ a => (MD5_draw_action_body M md5 dt a 0).1)]
  simp [hi, hl]

theorem draw_action_n_action (M : FloatLib F) (md5 : MD5 F) (dt : F) :
    (MD5_draw_action M md5 dt).1.n_action = md5.n_action := by
  rw [draw_action_fst]

theorem draw_action_n_joint (M : FloatLib F) (md5 : MD5 F) (dt : F) :
    (MD5_draw_action M md5 dt).1.n_joint = md5.n_joint := by
  rw [draw_action_fst]

theorem draw_action_length (M : FloatLib F) (md5 : MD5 F) (dt : F) :
    (MD5_draw_action M md5 dt).1.md5action.length = md5.md5action.length := by
  rw [draw_action_fst]
  exact whileIdx_set_length (fun i xs => (MD5_draw_action_body M md5 dt (rd xs i) 0).1) _ _

/-- One advancing tick of a looping frame-stepped action whose accumulator
holds one frame period. -/
theorem frame_tick_steady (M : FloatLib F) (md5 : MD5 F) (a : MD5ACTION F) (c : Nat)
    (hstate : a.state = PLAY) (hmethod : a.method = MD5_METHOD_FRAME) (hloop : a.loop ≠ 0)
    (hn : 2 ≤ a.n_frame) (hc : c < a.n_frame) (hcurr : a.curr_frame = (c : Int))
    (htime : a.frame_time = a.fps) (hfps : 0 ≤ a.fps) (u : Nat) :
    let b := (MD5_draw_action_body M md5 a.fps a u).1
    b.state = PLAY ∧ b.method = MD5_METHOD_FRAME ∧ b.loop = a.loop ∧ b.n_frame = a.n_frame ∧
      b.fps = a.fps ∧ b.frame_time = b.fps ∧
      b.curr_frame = (((c + 1) % a.n_frame : Nat) : Int) ∧
      b.next_frame = ((((c + 1) % a.n_frame + 1) % a.n_frame : Nat) : Int) := by
  intro b
  have hge : a.frame_time + a.fps ≥ a.fps := by rw [htime]; linarith
  by_cases hw : c + 1 = a.n_frame
  · have e1 : a.curr_frame + 1 = (a.n_frame : Int) := by rw [hcurr, ← hw]; push_cast; ring
    have e2 : ¬ ((0 : Int) + 1 = (a.n_frame : Int)) := by omega
    have hb : b = { a with
        pose := memcpy_joints a.pose (rdI a.frame a.curr_frame) md5.n_joint
        curr_frame := 0, next_frame := 0 + 1, frame_time := a.frame_time + a.fps - a.fps } := by
      simp only [b, MD5_draw_action_body, MD5_draw_action_frame, hstate, hmethod, if_true, hge,
        e1, hloop, ne_eq, not_false_eq_true, e2, if_false]
    have m1 : (c + 1) % a.n_frame = 0 := by rw [hw]; exact Nat.mod_self _
    have m2 : (0 + 1) % a.n_frame = 1 := Nat.mod_eq_of_lt (by omega)
    rw [hb, m1, m2]
    simp [hstate, hmethod, htime]
  · have e1 : ¬ (a.curr_frame + 1 = (a.n_frame : Int)) := by rw [hcurr]; omega
    have m1 : (c + 1) % a.n_frame = c + 1 := Nat.mod_eq_of_lt (by omega)
    by_cases hw2 : c + 2 = a.n_frame
    · have e2 : a.curr_frame + 1 + 1 = (a.n_frame : Int) := by rw [hcurr]; omega
      have hb : b = { a with
          pose := memcpy_joints a.pose (rdI a.frame a.curr_frame) md5.n_joint
          curr_frame := a.curr_frame + 1, next_frame := 0,
          frame_time := a.frame_time + a.fps - a.fps } := by
        simp only [b, MD5_draw_action_body, MD5_draw_action_frame, hstate, hmethod, if_true, hge,
          e1, e2, if_false]
      have m2 : (c + 1 + 1) % a.n_frame = 0 := by
        rw [show c + 1 + 1 = a.n_frame by omega]; exact Nat.mod_self _
      rw [hb, m1, m2]
      simp [hstate, hmethod, htime, hcurr]
    · have e2 : ¬ (a.curr_frame + 1 + 1 = (a.n_frame : Int)) := by rw [hcurr]; omega
      have hb : b = { a with
          pose := memcpy_joints a.pose (rdI a.frame a.curr_frame) md5.n_joint
          curr_frame := a.curr_frame + 1, next_frame := a.curr_frame + 1 + 1,
          frame_time := a.frame_time + a.fps - a.fps } := by
        simp only [b, MD5_draw_action_body, MD5_draw_action_frame, hstate, hmethod, if_true, hge,
          e1, e2, if_false]
      have m2 : (c + 1 + 1) % a.n_frame = c + 1 + 1 := Nat.mod_eq_of_lt (by omega)
      rw [hb, m1, m2]
      simp [hstate, hmethod, htime, hcurr]

/-- Invariant of a looping frame-stepped action ticked by one frame period. -/
theorem frame_loop_inv (M : FloatLib F) (md5 : MD5 F) (i : Nat)
    (hi : i < md5.n_action) (hl : i < md5.md5action.length) (loop : Nat) (hloop : loop ≠ 0)
    (a : MD5ACTION F) (hn : 2 ≤ a.n_frame) (hfps : 0 < a.fps)
    (hcurr : a.curr_frame = 0) (hnext : a.next_frame = 1)
    (htime : a.frame_time = 0) (k : Nat) :
    (MD5_draw_action_times M a.fps k
        { md5 with
          md5action := md5.md5action.set i (MD5_action_play a MD5_METHOD_FRAME loop) }).n_action =
      md5.n_action ∧
    (MD5_draw_action_times M a.fps k
        { md5 with
          md5action :=
            md5.md5action.set i (MD5_action_play a MD5_METHOD_FRAME loop) }).md5action.length =
      md5.md5action.length ∧
    (rd (MD5_draw_action_times M a.fps k
        { md5 with
          md5action := md5.md5action.set i (MD5_action_play a MD5_METHOD_FRAME loop) }).md5action
      i).state = PLAY ∧
    (rd (MD5_draw_action_times M a.fps k
        { md5 with
          md5action := md5.md5action.set i (MD5_action_play a MD5_METHOD_FRAME loop) }).md5action
      i).method = MD5_METHOD_FRAME ∧
    (rd (MD5_draw_action_times M a.fps k
        { md5 with
          md5action := md5.md5action.set i (MD5_action_play a MD5_METHOD_FRAME loop) }).md5action
      i).loop ≠ 0 ∧
    (rd (MD5_draw_action_times M a.fps k
        { md5 with
          md5action := md5.md5action.set i (MD5_action_play a MD5_METHOD_FRAME loop) }).md5action
      i).n_frame = a.n_frame ∧
    (rd (MD5_draw_action_times M a.fps k
        { md5 with
          md5action := md5.md5action.set i (MD5_action_play a MD5_METHOD_FRAME loop) }).md5action
      i).fps = a.fps ∧
    (rd (MD5_draw_action_times M a.fps k
        { md5 with
          md5action := md5.md5action.set i (MD5_action_play a MD5_METHOD_FRAME loop) }).md5action
      i).frame_time = a.fps ∧
    (rd (MD5_draw_action_times M a.fps k
        { md5 with
          md5action := md5.md5action.set i (MD5_action_play a MD5_METHOD_FRAME loop) }).md5action
      i).curr_frame = ((k % a.n_frame : Nat) : Int) ∧
    (rd (MD5_draw_action_times M a.fps k
        { md5 with
          md5action := md5.md5action.set i (MD5_action_play a MD5_METHOD_FRAME loop) }).md5action
      i).next_frame = (((k + 1) % a.n_frame : Nat) : Int) := by
  generalize hplayed : ({ md5 with
    md5action := md5.md5action.set i (MD5_action_play a MD5_METHOD_FRAME loop) } : MD5 F) = played
  induction k with
  | zero =>
    have h0 : rd played.md5action i = MD5_action_play a MD5_METHOD_FRAME loop := by
      rw [← hplayed]; exact rd_set_self _ _ _ hl
    have h1 : (0 + 1) % a.n_frame = 1 := Nat.mod_eq_of_lt (by omega)
    have hp : MD5_action_play a MD5_METHOD_FRAME loop =
        { a with method := MD5_METHOD_FRAME, loop := loop, state := PLAY,
                 frame_time := a.fps } := by
      simp only [MD5_action_play, htime, and_self, if_true]
    have e0 : MD5_draw_action_times M a.fps 0 played = played := rfl
    rw [e0, h0, hp, h1, Nat.zero_mod]
    refine ⟨?_, ?_, rfl, rfl, hloop, rfl, rfl, rfl, ?_, ?_⟩
    · rw [← hplayed]
    · rw [← hplayed]; simp
    · simpa using hcurr
    · simpa using hnext
  | succ k ih =>
    obtain ⟨i1, i2, i3, i4, i5, i6, i7, i8, i9, i10⟩ := ih
    have hrd := draw_action_rd M (MD5_draw_action_times M a.fps k played) a.fps i
      (by rw [i1]; exact hi) (by rw [i2]; exact hl)
    have hstep := frame_tick_steady M (MD5_draw_action_times M a.fps k played)
      (rd (MD5_draw_action_times M a.fps k played).md5action i) (k % a.n_frame)
      i3 i4 i5 (by rw [i6]; exact hn) (by rw [i6]; exact Nat.mod_lt _ (by omega)) i9
      (by rw [i8, i7]) (by rw [i7]; exact le_of_lt hfps) 0
    rw [i7] at hstep
    simp only [MD5_draw_action_times]
    rw [hrd, draw_action_n_action, draw_action_length]
    obtain ⟨s1, s2, s3, s4, s5, s6, s7, s8⟩ := hstep
    rw [i6] at s7 s8
    have m7 : (k % a.n_frame + 1) % a.n_frame = (k + 1) % a.n_frame := Nat.mod_add_mod k _ 1
    rw [m7] at s7 s8
    rw [Nat.mod_add_mod] at s8
    refine ⟨i1, i2, s1, s2, ?_, ?_, ?_, ?_, s7, s8⟩
    · rw [s3]; exact i5
    · rw [s4]; exact i6
    · rw [s5]
    · rw [s6, s5]

/-! ## The frame reconstruction of `MD5_load_action` -/

theorem load_action_scan_eq (M : FloatLib F) (md5 : MD5 F) (rows : List (Option (FRAMEROW F)))
    (i : Nat) (fr : List (MD5JOINT F)) :
    MD5_load_action_scan M md5 rows i fr =
      fr.set i ((rd rows i).elim (rd fr i) (scanned_joint M md5 i (rd fr i))) := by
  unfold MD5_load_action_scan
  cases rd rows i with
  | none => exact (set_rd_self fr i).symm
  | some row => rfl

theorem load_action_absolute_eq (M : FloatLib F) (md5 : MD5 F) (i : Nat)
    (fr : List (MD5JOINT F)) :
    MD5_load_action_absolute M md5 i fr = fr.set i (absolute_joint M md5 i fr) := by
  unfold MD5_load_action_absolute absolute_joint
  split_ifs
  · rfl
  · exact (set_rd_self fr i).symm

theorem load_action_frame_eq (M : FloatLib F) (md5 : MD5 F) (fr0 : List (MD5JOINT F))
    (rows : List (Option (FRAMEROW F))) :
    MD5_load_action_frame M md5 fr0 rows =
      whileIdx md5.n_joint (fun i xs => xs.set i (absolute_joint M md5 i xs))
        (whileIdx md5.n_joint
          (fun i xs => xs.set i ((rd rows i).elim (rd xs i) (scanned_joint M md5 i (rd xs i))))
          fr0) := by
  unfold MD5_load_action_frame
  have e1 : MD5_load_action_scan M md5 rows =
      fun i xs => xs.set i ((rd rows i).elim (rd xs i) (scanned_joint M md5 i (rd xs i))) := by
    funext i xs; exact load_action_scan_eq M md5 rows i xs
  have e2 : MD5_load_action_absolute M md5 =
      fun i xs => xs.set i (absolute_joint M md5 i xs) := by
    funext i xs; exact load_action_absolute_eq M md5 i xs
  rw [e1, e2]

/-- The frame stored by a `frame` block, joint by joint: a joint without
parent holds its scanned values, a joint with a parent below it is placed
relative to the stored transform of the parent. -/
theorem load_action_frame_spec (M : FloatLib F) (md5 : MD5 F) (fr0 : List (MD5JOINT F))
    (rows : List (Option (FRAMEROW F))) (hlen : md5.n_joint ≤ fr0.length)
    (hparent : ∀ i, i < md5.n_joint → (rd md5.bind_pose i).parent < (i : Int))
    (i : Nat) (hi : i < md5.n_joint) (row : FRAMEROW F) (hrow : rd rows i = some row) :
    ((rd md5.bind_pose i).parent ≤ -1 →
        (rd (MD5_load_action_frame M md5 fr0 rows) i).location = row.location ∧
        (rd (MD5_load_action_frame M md5 fr0 rows) i).rotation =
          vec4_build_w M ⟨row.rotation.x, row.rotation.y, row.rotation.z, 0⟩) ∧
      (0 ≤ (rd md5.bind_pose i).parent →
        (rd (MD5_load_action_frame M md5 fr0 rows) i).location =
          vec3_add
            (rdI (MD5_load_action_frame M md5 fr0 rows) (rd md5.bind_pose i).parent).location
            (vec3_rotate_vec4 M row.location
              (rdI (MD5_load_action_frame M md5 fr0 rows) (rd md5.bind_pose i).parent).rotation) ∧
        (rd (MD5_load_action_frame M md5 fr0 rows) i).rotation =
          vec4_normalize M
            (vec4_multiply_vec4
              (rdI (MD5_load_action_frame M md5 fr0 rows) (rd md5.bind_pose i).parent).rotation
              (vec4_build_w M ⟨row.rotation.x, row.rotation.y, row.rotation.z, 0⟩))) := by
  rw [load_action_frame_eq]
  generalize hsc : whileIdx md5.n_joint
    (fun i xs => xs.set i ((rd rows i).elim (rd xs i) (scanned_joint M md5 i (rd xs i))))
    fr0 = scanned
  have hsl : scanned.length = fr0.length := by
    rw [← hsc]
    exact whileIdx_set_length
      (fun i xs => (rd rows i).elim (rd xs i) (scanned_joint M md5 i (rd xs i))) _ _
  have hsi : rd scanned i = scanned_joint M md5 i (rd fr0 i) row := by
    rw [← hsc, whileIdx_set_rd
      (fun i old => (rd rows i).elim old (scanned_joint M md5 i old)) md5.n_joint fr0 i]
    rw [if_pos ⟨hi, by omega⟩, hrow]
    rfl
  have hfin : rd (whileIdx md5.n_joint (fun i xs => xs.set i (absolute_joint M md5 i xs))
      scanned) i =
      absolute_joint M md5 i
        (whileIdx i (fun i xs => xs.set i (absolute_joint M md5 i xs)) scanned) := by
    rw [whileIdx_set_lt _ _ _ _ hi, whileIdx_set_at _ _ _ (by omega)]
  have hcur : rd (whileIdx i (fun i xs => xs.set i (absolute_joint M md5 i xs)) scanned) i =
      rd scanned i := whileIdx_set_ge _ _ _ _ (le_refl i)
  have hpar : 0 ≤ (rd md5.bind_pose i).parent →
      rdI (whileIdx i (fun i xs => xs.set i (absolute_joint M md5 i xs)) scanned)
          (rd md5.bind_pose i).parent =
        rdI (whileIdx md5.n_joint (fun i xs => xs.set i (absolute_joint M md5 i xs)) scanned)
          (rd md5.bind_pose i).parent := by
    intro hp
    have hlt := hparent i hi
    unfold rdI
    rw [if_pos hp, if_pos hp]
    exact whileIdx_set_frozen _ md5.n_joint i scanned _ (by omega) (le_of_lt hi)
  rw [hfin]
  generalize whileIdx i (fun i xs => xs.set i (absolute_joint M md5 i xs)) scanned = W
    at hcur hpar
  generalize whileIdx md5.n_joint (fun i xs => xs.set i (absolute_joint M md5 i xs)) scanned =
    final at hpar
  constructor
  · intro hp
    have hneg : ¬ ((rd md5.bind_pose i).parent > -1) := by omega
    unfold absolute_joint
    rw [if_neg hneg, hcur, hsi]
    exact ⟨rfl, rfl⟩
  · intro hp
    have hpos : (rd md5.bind_pose i).parent > -1 := by omega
    unfold absolute_joint
    rw [if_pos hpos, hcur, hsi, hpar hp]
    constructor
    · simp only [vec3_add, scanned_joint]
      congr 1 <;> ring
    · rfl

/-- The equations of `load_action_frame_spec` have one solution only. -/
theorem frame_equations_unique (M : FloatLib F) (md5 : MD5 F)
    (rows : List (Option (FRAMEROW F))) (g h : List (MD5JOINT F))
    (hparent : ∀ i, i < md5.n_joint → (rd md5.bind_pose i).parent < (i : Int))
    (hrows : ∀ i, i < md5.n_joint → ∃ row, rd rows i = some row)
    (hg : ∀ i, i < md5.n_joint → ∀ row, rd rows i = some row →
      ((rd md5.bind_pose i).parent ≤ -1 →
        (rd g i).location = row.location ∧
        (rd g i).rotation =
          vec4_build_w M ⟨row.rotation.x, row.rotation.y, row.rotation.z, 0⟩) ∧
      (0 ≤ (rd md5.bind_pose i).parent →
        (rd g i).location =
          vec3_add (rdI g (rd md5.bind_pose i).parent).location
            (vec3_rotate_vec4 M row.location (rdI g (rd md5.bind_pose i).parent).rotation) ∧
        (rd g i).rotation =
          vec4_normalize M
            (vec4_multiply_vec4 (rdI g (rd md5.bind_pose i).parent).rotation
              (vec4_build_w M ⟨row.rotation.x, row.rotation.y, row.rotation.z, 0⟩))))
    (hh : ∀ i, i < md5.n_joint → ∀ row, rd rows i = some row →
      ((rd md5.bind_pose i).parent ≤ -1 →
        (rd h i).location = row.location ∧
        (rd h i).rotation =
          vec4_build_w M ⟨row.rotation.x, row.rotation.y, row.rotation.z, 0⟩) ∧
      (0 ≤ (rd md5.bind_pose i).parent →
        (rd h i).location =
          vec3_add (rdI h (rd md5.bind_pose i).parent).location
            (vec3_rotate_vec4 M row.location (rdI h (rd md5.bind_pose i).parent).rotation) ∧
        (rd h i).rotation =
          vec4_normalize M
            (vec4_multiply_vec4 (rdI h (rd md5.bind_pose i).parent).rotation
              (vec4_build_w M ⟨row.rotation.x, row.rotation.y, row.rotation.z, 0⟩))))
    (i : Nat) (hi : i < md5.n_joint) :
    (rd g i).location = (rd h i).location ∧ (rd g i).rotation = (rd h i).rotation := by
  induction i using Nat.strong_induction_on with
  | _ i ih =>
    obtain ⟨row, hrow⟩ := hrows i hi
    have hgi := hg i hi row hrow
    have hhi := hh i hi row hrow
    by_cases hp : (rd md5.bind_pose i).parent ≤ -1
    · obtain ⟨g1, g2⟩ := hgi.1 hp
      obtain ⟨h1, h2⟩ := hhi.1 hp
      exact ⟨g1.trans h1.symm, g2.trans h2.symm⟩
    · have hp0 : 0 ≤ (rd md5.bind_pose i).parent := by omega
      obtain ⟨g1, g2⟩ := hgi.2 hp0
      obtain ⟨h1, h2⟩ := hhi.2 hp0
      have hlt := hparent i hi
      have hpar := ih (rd md5.bind_pose i).parent.toNat (by omega) (by omega)
      have e1 : rdI g (rd md5.bind_pose i).parent = rd g (rd md5.bind_pose i).parent.toNat := by
        unfold rdI; rw [if_pos hp0]; rfl
      have e2 : rdI h (rd md5.bind_pose i).parent = rd h (rd md5.bind_pose i).parent.toNat := by
        unfold rdI; rw [if_pos hp0]; rfl
      rw [e1] at g1 g2
      rw [e2] at h1 h2
      rw [g1, g2, h1, h2, hpar.1, hpar.2]
      exact ⟨rfl, rfl⟩

/-- The action under construction after a `frame` line. -/
theorem load_action_step_frame (M : FloatLib F) (md5 : MD5 F) (index : Nat)
    (rows : List (Option (FRAMEROW F))) :
    MD5_load_action_step M md5 (ACTIONLINE.frame index rows) =
      LOADSTEP.next
        { md5 with
          md5action := md5.md5action.set (md5.n_action - 1)
            { rd md5.md5action (md5.n_action - 1) with
              frame := (rd md5.md5action (md5.n_action - 1)).frame.set index
                (MD5_load_action_frame M md5
                  (rd (rd md5.md5action (md5.n_action - 1)).frame index) rows) } } := rfl

/-! ## Roll-back of `MD5_load_action` -/

/-- Every line of an action file leaves the MD5 as it is, but for the action
under construction. -/
theorem load_action_step_last (M : FloatLib F) (md5 : MD5 F) (line : ACTIONLINE F) :
    (action_line_rejected md5 line ∧ MD5_load_action_step M md5 line = LOADSTEP.cleanup md5) ∨
      (¬ action_line_rejected md5 line ∧
        ∃ act, MD5_load_action_step M md5 line =
          LOADSTEP.next { md5 with md5action := md5.md5action.set (md5.n_action - 1) act }) := by
  have hsame : md5 =
      { md5 with md5action :=
        md5.md5action.set (md5.n_action - 1) (rd md5.md5action (md5.n_action - 1)) } := by
    rw [set_rd_self]
  cases line with
  | MD5Version v =>
    by_cases h : v ≠ 10
    · left
      exact ⟨h, by simp only [MD5_load_action_step, if_pos h]⟩
    · right
      refine ⟨h, rd md5.md5action (md5.n_action - 1), ?_⟩
      simp only [MD5_load_action_step, if_neg h]
      rw [← hsame]
  | numFrames n => right; exact ⟨fun h => h, _, rfl⟩
  | numJoints n =>
    by_cases h : md5.n_joint ≠ n
    · left
      exact ⟨h, by simp only [MD5_load_action_step, if_pos h]⟩
    · right
      refine ⟨h,
        { rd md5.md5action (md5.n_action - 1) with
          pose := whileIdx md5.n_joint
            (fun i pose => pose.set i { rd pose i with name := (rd md5.bind_pose i).name })
            (List.replicate md5.n_joint default) }, ?_⟩
      simp only [MD5_load_action_step, if_neg h]
  | frameRate r => right; exact ⟨fun h => h, _, rfl⟩
  | frame index rows => right; exact ⟨fun h => h, _, rfl⟩
  | other =>
    right
    refine ⟨fun h => h, rd md5.md5action (md5.n_action - 1), ?_⟩
    simp only [MD5_load_action_step]
    rw [← hsame]

/-- A file with a rejected line makes the line loop end in `cleanup`, with an
MD5 that differs from the initial one in the action under construction only. -/
theorem load_action_lines_cleanup (M : FloatLib F) (lines : List (ACTIONLINE F)) :
    ∀ (md5 : MD5 F), (∃ l, l ∈ lines ∧ action_line_rejected md5 l) →
      ∃ act, load_lines (MD5_load_action_step M) md5 lines =
        LOADSTEP.cleanup { md5 with md5action := md5.md5action.set (md5.n_action - 1) act } := by
  induction lines with
  | nil =>
    intro md5 h
    obtain ⟨l, hl, _⟩ := h
    cases hl
  | cons l ls ih =>
    intro md5 h
    rcases load_action_step_last M md5 l with ⟨_, hc⟩ | ⟨hnr, act, hn⟩
    · refine ⟨rd md5.md5action (md5.n_action - 1), ?_⟩
      simp only [load_lines, hc]
      rw [set_rd_self]
    · obtain ⟨l1, hl1, hr1⟩ := h
      have hmem : l1 ∈ ls := by
        rcases List.mem_cons.mp hl1 with e | e
        · subst e; exact absurd hr1 hnr
        · exact e
      have hr2 : action_line_rejected
          ({ md5 with md5action := md5.md5action.set (md5.n_action - 1) act } : MD5 F) l1 := by
        cases l1 <;> exact hr1
      obtain ⟨act2, h2⟩ := ih _ ⟨l1, hmem, hr2⟩
      refine ⟨act2, ?_⟩
      simp only [load_lines, hn, h2, List.set_set]

theorem realloc_grow {α : Type} [Inhabited α] (xs : List α) :
    realloc xs (xs.length + 1) = xs ++ [default] := by
  simp [realloc, List.take_of_length_le]

theorem realloc_shrink_set {α : Type} [Inhabited α] (xs : List α) (a b : α) :
    realloc ((xs ++ [a]).set xs.length b) xs.length = xs := by
  simp [realloc, List.set_append_right, List.take_append_eq_append_take]

/-! ## The bind pose written by `MD5_load_mesh` -/

theorem load_lines_append {σ L : Type} (step : σ → L → LOADSTEP σ) (a b : List L) :
    ∀ s : σ, load_lines step s (a ++ b) =
      match load_lines step s a with
      | LOADSTEP.next s1 => load_lines step s1 b
      | LOADSTEP.cleanup s1 => LOADSTEP.cleanup s1 := by
  induction a with
  | nil => intro s; rfl
  | cons l ls ih =>
    intro s
    simp only [List.cons_append, load_lines]
    cases step s l with
    | next s1 => exact ih s1
    | cleanup s1 => rfl

/-- The rows of a `joints` block are written one after the other from the
counter on; the entries below the counter are left alone. -/
theorem load_mesh_joints_fold (M : FloatLib F) (rows : List (JOINTROW F)) :
    ∀ (bp : List (MD5JOINT F)) (c : Nat),
      ((rows.foldl (MD5_load_mesh_joint M) (bp, c)).1).length = bp.length ∧
      (∀ j, j < c → rd (rows.foldl (MD5_load_mesh_joint M) (bp, c)).1 j = rd bp j) ∧
      (∀ i, i < rows.length → c + i < bp.length →
        (rd (rows.foldl (MD5_load_mesh_joint M) (bp, c)).1 (c + i)).parent =
          (rd rows i).parent) := by
  induction rows with
  | nil =>
    intro bp c
    exact ⟨rfl, fun _ _ => rfl, fun i hi _ => absurd hi (Nat.not_lt_zero i)⟩
  | cons row rest ih =>
    intro bp c
    simp only [List.foldl_cons]
    obtain ⟨h1, h2, h3⟩ := ih (MD5_load_mesh_joint M (bp, c) row).1 (c + 1)
    have hl : (MD5_load_mesh_joint M (bp, c) row).1.length = bp.length := by
      simp [MD5_load_mesh_joint]
    have hc : (MD5_load_mesh_joint M (bp, c) row).2 = c + 1 := rfl
    have hpair : MD5_load_mesh_joint M (bp, c) row =
        ((MD5_load_mesh_joint M (bp, c) row).1, c + 1) := rfl
    rw [hpair]
    refine ⟨h1.trans hl, ?_, ?_⟩
    · intro j hj
      rw [h2 j (by omega)]
      simp only [MD5_load_mesh_joint]
      exact rd_set_ne _ _ _ _ (by omega)
    · intro i hi hci
      cases i with
      | zero =>
        have e := h2 c (by omega)
        simp only [Nat.add_zero]
        rw [e]
        simp only [MD5_load_mesh_joint]
        rw [rd_set_self _ _ _ (by omega)]
        rfl
      | succ i =>
        have := h3 i (by simpa using hi) (by rw [hl]; omega)
        rw [show c + (i + 1) = c + 1 + i by omega, this]
        rfl

/-- Every line of a skeleton file keeps the bind pose as long as `n_joint`. -/
theorem load_mesh_step_length (M : FloatLib F) (s s1 : MD5 F × Nat) (line : MD5LINE F)
    (h : MD5_load_mesh_step M s line = LOADSTEP.next s1)
    (hs : s.1.bind_pose.length = s.1.n_joint) : s1.1.bind_pose.length = s1.1.n_joint := by
  cases line with
  | MD5Version v =>
    simp only [MD5_load_mesh_step] at h
    split_ifs at h
    cases h; exact hs
  | numJoints n =>
    simp only [MD5_load_mesh_step] at h
    cases h; simp
  | numMeshes n =>
    simp only [MD5_load_mesh_step] at h
    cases h; exact hs
  | joints rows =>
    simp only [MD5_load_mesh_step] at h
    cases h
    exact (load_mesh_joints_fold M rows s.1.bind_pose 0).1.trans hs
  | mesh lines =>
    simp only [MD5_load_mesh_step] at h
    cases h; exact hs
  | other =>
    simp only [MD5_load_mesh_step] at h
    cases h; exact hs

theorem load_mesh_lines_length (M : FloatLib F) (lines : List (MD5LINE F)) :
    ∀ (s s1 : MD5 F × Nat), load_lines (MD5_load_mesh_step M) s lines = LOADSTEP.next s1 →
      s.1.bind_pose.length = s.1.n_joint → s1.1.bind_pose.length = s1.1.n_joint := by
  induction lines with
  | nil =>
    intro s s1 h hs
    simp only [load_lines] at h
    cases h; exact hs
  | cons l ls ih =>
    intro s s1 h hs
    simp only [load_lines] at h
    cases hstep : MD5_load_mesh_step M s l with
    | next s2 =>
      rw [hstep] at h
      exact ih s2 s1 h (load_mesh_step_length M s s2 l hstep hs)
    | cleanup s2 =>
      rw [hstep] at h
      cases h

/-- The lines other than `numJoints` and `joints` leave the bind pose alone. -/
theorem load_mesh_lines_bind_pose (M : FloatLib F) (lines : List (MD5LINE F)) :
    ∀ (s s1 : MD5 F × Nat), load_lines (MD5_load_mesh_step M) s lines = LOADSTEP.next s1 →
      (∀ l, l ∈ lines → ¬ joint_line l) →
      s1.1.bind_pose = s.1.bind_pose ∧ s1.1.n_joint = s.1.n_joint := by
  induction lines with
  | nil =>
    intro s s1 h _
    simp only [load_lines] at h
    cases h; exact ⟨rfl, rfl⟩
  | cons l ls ih =>
    intro s s1 h hl
    simp only [load_lines] at h
    have hnl := hl l (List.mem_cons_self _ _)
    cases hstep : MD5_load_mesh_step M s l with
    | next s2 =>
      rw [hstep] at h
      obtain ⟨e1, e2⟩ := ih s2 s1 h (fun l1 h1 => hl l1 (List.mem_cons_of_mem _ h1))
      have e3 : s2.1.bind_pose = s.1.bind_pose ∧ s2.1.n_joint = s.1.n_joint := by
        cases l with
        | MD5Version v =>
          simp only [MD5_load_mesh_step] at hstep
          split_ifs at hstep
          cases hstep; exact ⟨rfl, rfl⟩
        | numJoints n => exact absurd trivial hnl
        | numMeshes n =>
          simp only [MD5_load_mesh_step] at hstep
          cases hstep; exact ⟨rfl, rfl⟩
        | joints rows => exact absurd trivial hnl
        | mesh lines =>
          simp only [MD5_load_mesh_step] at hstep
          cases hstep; exact ⟨rfl, rfl⟩
        | other =>
          simp only [MD5_load_mesh_step] at hstep
          cases hstep; exact ⟨rfl, rfl⟩
      exact ⟨e1.trans e3.1, e2.trans e3.2⟩
    | cleanup s2 =>
      rw [hstep] at h
      cases h

/-! ## The preprocessor keeps what the positions depend on -/

theorem rd_set {α : Type} [Inhabited α] (xs : List α) (i j : Nat) (a : α) :
    rd (xs.set i a) j = if i = j ∧ i < xs.length then a else rd xs j := by
  by_cases h : i = j
  · subst h
    by_cases hl : i < xs.length
    · rw [rd_set_self _ _ _ hl]; simp [hl]
    · rw [List.set_eq_of_length_le (by omega)]; simp [hl]
  · rw [rd_set_ne _ _ _ _ h]; simp [h]

theorem same_skin_vertices_refl (vs : List (MD5VERTEX F)) : same_skin_vertices vs vs :=
  fun _ => ⟨rfl, rfl, rfl⟩

theorem same_skin_weights_refl (ws : List (MD5WEIGHT F)) : same_skin_weights ws ws :=
  fun _ => ⟨rfl, rfl, rfl⟩

/-- Writing a vertex with the same skin fields keeps the relation. -/
theorem same_skin_vertices_set (vs0 vs : List (MD5VERTEX F)) (i : Nat) (a : MD5VERTEX F)
    (h : same_skin_vertices vs0 vs)
    (ha : a.uv = (rd vs i).uv ∧ a.start = (rd vs i).start ∧ a.count = (rd vs i).count) :
    same_skin_vertices vs0 (vs.set i a) := by
  intro j
  rw [rd_set]
  split_ifs with hc
  · obtain ⟨e, _⟩ := hc
    subst e
    exact ⟨ha.1.trans (h i).1, ha.2.1.trans (h i).2.1, ha.2.2.trans (h i).2.2⟩
  · exact h j

theorem same_skin_weights_set (ws0 ws : List (MD5WEIGHT F)) (i : Nat) (a : MD5WEIGHT F)
    (h : same_skin_weights ws0 ws)
    (ha : a.joint = (rd ws i).joint ∧ a.bias = (rd ws i).bias ∧
      a.location = (rd ws i).location) :
    same_skin_weights ws0 (ws.set i a) := by
  intro j
  rw [rd_set]
  split_ifs with hc
  · obtain ⟨e, _⟩ := hc
    subst e
    exact ⟨ha.1.trans (h i).1, ha.2.1.trans (h i).2.1, ha.2.2.trans (h i).2.2⟩
  · exact h j

theorem bind_triangle_skin (M : FloatLib F) (vertex_array : List (vec3 F)) (t : MD5TRIANGLE)
    (vs0 vs : List (MD5VERTEX F))
    (h : same_skin_vertices vs0 vs ∧ vs.length = vs0.length) :
    same_skin_vertices vs0 (MD5_bind_triangle M vertex_array t vs) ∧
      (MD5_bind_triangle M vertex_array t vs).length = vs0.length := by
  have hn : ∀ (xs : List (MD5VERTEX F)) (i : Nat) (n : vec3 F),
      (same_skin_vertices vs0 xs ∧ xs.length = vs0.length) →
      (same_skin_vertices vs0 (add_vertex_normal xs i n) ∧
        (add_vertex_normal xs i n).length = vs0.length) := by
    intro xs i n hx
    exact ⟨same_skin_vertices_set vs0 xs i _ hx.1 ⟨rfl, rfl, rfl⟩,
      by simp [add_vertex_normal, hx.2]⟩
  have ht : ∀ (xs : List (MD5VERTEX F)) (i : Nat) (n : vec3 F),
      (same_skin_vertices vs0 xs ∧ xs.length = vs0.length) →
      (same_skin_vertices vs0 (add_vertex_tangent xs i n) ∧
        (add_vertex_tangent xs i n).length = vs0.length) := by
    intro xs i n hx
    exact ⟨same_skin_vertices_set vs0 xs i _ hx.1 ⟨rfl, rfl, rfl⟩,
      by simp [add_vertex_tangent, hx.2]⟩
  unfold MD5_bind_triangle
  exact ht _ _ _ (ht _ _ _ (ht _ _ _ (hn _ _ _ (hn _ _ _ (hn _ _ _ h)))))

theorem bind_vertices_skin (M : FloatLib F) (m : MD5MESH F) :
    same_skin_vertices m.md5vertex (MD5_bind_vertices M m) ∧
      (MD5_bind_vertices M m).length = m.md5vertex.length := by
  unfold MD5_bind_vertices
  apply whileIdx_inv
    (fun vs => same_skin_vertices m.md5vertex vs ∧ vs.length = m.md5vertex.length)
  · intro j vs hv
    refine ⟨?_, by simp [hv.2]⟩
    apply same_skin_vertices_set
    · exact same_skin_vertices_set _ _ _ _ hv.1 ⟨rfl, rfl, rfl⟩
    · simp only [rd_set]
      exact ⟨trivial, trivial, trivial⟩
  · apply whileIdx_inv
      (fun vs => same_skin_vertices m.md5vertex vs ∧ vs.length = m.md5vertex.length)
    · intro j vs hv
      exact bind_triangle_skin M _ _ _ _ hv
    · apply whileIdx_inv
        (fun vs => same_skin_vertices m.md5vertex vs ∧ vs.length = m.md5vertex.length)
      · intro j vs hv
        exact ⟨same_skin_vertices_set _ _ _ _ hv.1 ⟨rfl, rfl, rfl⟩, by simp [hv.2]⟩
      · exact ⟨same_skin_vertices_refl _, rfl⟩

theorem bind_weights_skin (M : FloatLib F) (md5 : MD5 F) (m : MD5MESH F)
    (vs : List (MD5VERTEX F)) :
    same_skin_weights m.md5weight (MD5_bind_weights M md5 m vs) ∧
      (MD5_bind_weights M md5 m vs).length = m.md5weight.length := by
  unfold MD5_bind_weights
  apply whileIdx_inv
    (fun ws => same_skin_weights m.md5weight ws ∧ ws.length = m.md5weight.length)
  · intro j ws hw
    refine ⟨?_, by simp [hw.2]⟩
    apply same_skin_weights_set
    · exact same_skin_weights_set _ _ _ _ hw.1 ⟨rfl, rfl, rfl⟩
    · simp only [rd_set]
      exact ⟨trivial, trivial, trivial⟩
  · apply whileIdx_inv
      (fun ws => same_skin_weights m.md5weight ws ∧ ws.length = m.md5weight.length)
    · intro j ws hw
      apply whileIdx_inv
        (fun ws => same_skin_weights m.md5weight ws ∧ ws.length = m.md5weight.length)
      · intro k ws1 hw1
        unfold MD5_bind_weight
        exact ⟨same_skin_weights_set _ _ _ _ hw1.1 ⟨rfl, rfl, rfl⟩, by simp [hw1.2]⟩
      · exact hw
    · apply whileIdx_inv
        (fun ws => same_skin_weights m.md5weight ws ∧ ws.length = m.md5weight.length)
      · intro j ws hw
        exact ⟨same_skin_weights_set _ _ _ _ hw.1 ⟨rfl, rfl, rfl⟩, by simp [hw.2]⟩
      · exact ⟨same_skin_weights_refl _, rfl⟩

theorem bind_mesh_same (M : FloatLib F) (md5 : MD5 F) (m : MD5MESH F) :
    same_but_normals_tangents m (MD5_bind_mesh M md5 m) := by
  unfold MD5_bind_mesh same_but_normals_tangents
  exact ⟨rfl, rfl, rfl, rfl, rfl, rfl, rfl, rfl, rfl, (bind_vertices_skin M m).2,
    (bind_weights_skin M md5 m _).2, (bind_vertices_skin M m).1, (bind_weights_skin M md5 m _).1⟩

theorem same_but_normals_tangents_refl (m : MD5MESH F) : same_but_normals_tangents m m :=
  ⟨rfl, rfl, rfl, rfl, rfl, rfl, rfl, rfl, rfl, rfl, rfl, same_skin_vertices_refl _,
    same_skin_weights_refl _⟩

theorem same_but_normals_tangents_trans (a b c : MD5MESH F)
    (h1 : same_but_normals_tangents a b) (h2 : same_but_normals_tangents b c) :
    same_but_normals_tangents a c := by
  obtain ⟨a1, a2, a3, a4, a5, a6, a7, a8, a9, a10, a11, a12, a13⟩ := h1
  obtain ⟨b1, b2, b3, b4, b5, b6, b7, b8, b9, b10, b11, b12, b13⟩ := h2
  refine ⟨b1.trans a1, b2.trans a2, b3.trans a3, b4.trans a4, b5.trans a5, b6.trans a6,
    b7.trans a7, b8.trans a8, b9.trans a9, b10.trans a10, b11.trans a11, ?_, ?_⟩
  · intro j
    exact ⟨(b12 j).1.trans (a12 j).1, (b12 j).2.1.trans (a12 j).2.1,
      (b12 j).2.2.trans (a12 j).2.2⟩
  · intro j
    exact ⟨(b13 j).1.trans (a13 j).1, (b13 j).2.1.trans (a13 j).2.1,
      (b13 j).2.2.trans (a13 j).2.2⟩

/-- The preprocessor keeps the counts, the bind pose and the number of meshes,
and changes every mesh at most in its normals and tangents. -/
theorem bind_pose_preprocess_same (M : FloatLib F) (md5 : MD5 F) :
    (MD5_build_bind_pose_weighted_normals_tangents M md5).n_mesh = md5.n_mesh ∧
      (MD5_build_bind_pose_weighted_normals_tangents M md5).n_joint = md5.n_joint ∧
      (MD5_build_bind_pose_weighted_normals_tangents M md5).bind_pose = md5.bind_pose ∧
      (MD5_build_bind_pose_weighted_normals_tangents M md5).md5mesh.length =
        md5.md5mesh.length ∧
      ∀ i, same_but_normals_tangents (rd md5.md5mesh i)
        (rd (MD5_build_bind_pose_weighted_normals_tangents M md5).md5mesh i) := by
  unfold MD5_build_bind_pose_weighted_normals_tangents
  apply whileIdx_inv
    (fun s : MD5 F => s.n_mesh = md5.n_mesh ∧ s.n_joint = md5.n_joint ∧
      s.bind_pose = md5.bind_pose ∧ s.md5mesh.length = md5.md5mesh.length ∧
      ∀ i, same_but_normals_tangents (rd md5.md5mesh i) (rd s.md5mesh i))
  · intro k s hs
    obtain ⟨h1, h2, h3, h4, h5⟩ := hs
    refine ⟨h1, h2, h3, by simp [h4], ?_⟩
    intro i
    simp only [rd_set]
    split_ifs with hc
    · obtain ⟨e, _⟩ := hc
      subst e
      exact same_but_normals_tangents_trans _ _ _ (h5 k) (bind_mesh_same M s _)
    · exact h5 i
  · exact ⟨rfl, rfl, rfl, rfl, fun i => same_but_normals_tangents_refl _⟩

/-! ## The positions depend on the skin fields only -/

theorem vec3_sum_congr (n : Nat) (f g : Nat → vec3 F) (h : ∀ k, k < n → f k = g k) :
    vec3_sum n f = vec3_sum n g := by
  unfold vec3_sum
  congr 1 <;>
    exact Finset.sum_congr rfl (fun k hk => by rw [h k (Finset.mem_range.mp hk)])

theorem memset_vec3_length (xs : List (vec3 F)) (n : Nat) :
    (memset_vec3 xs n).length = xs.length := by
  simp only [memset_vec3, List.length_append, List.length_replicate, List.length_drop]
  change min n xs.length + (xs.length - n) = xs.length
  omega

theorem set_pose_mesh_lengths (M : FloatLib F) (pose : List (MD5JOINT F)) (m : MD5MESH F) :
    (MD5_set_pose_mesh M pose m).vertex_data.vertex_array.length =
        m.vertex_data.vertex_array.length ∧
      (MD5_set_pose_mesh M pose m).vertex_data.normal_array.length =
        m.vertex_data.normal_array.length ∧
      (MD5_set_pose_mesh M pose m).vertex_data.uv_array.length =
        m.vertex_data.uv_array.length ∧
      (MD5_set_pose_mesh M pose m).vertex_data.tangent_array.length =
        m.vertex_data.tangent_array.length := by
  unfold MD5_set_pose_mesh
  simp only []
  refine ⟨?_, ?_, ?_, ?_⟩
  · rw [whileIdx_proj VERTEXDATA.vertex_array _
      (fun j xs => xs.set j (vec3_add (rd xs j)
        (vec3_sum (rd m.md5vertex j).count (skin_position M m pose (rd m.md5vertex j)))))
      (set_pose_vertex_vertex_array M m pose)]
    rw [whileIdx_set_length (fun j xs => vec3_add (rd xs j)
      (vec3_sum (rd m.md5vertex j).count (skin_position M m pose (rd m.md5vertex j))))]
    exact memset_vec3_length _ _
  · rw [whileIdx_proj VERTEXDATA.normal_array _
      (fun j xs => xs.set j (vec3_add (rd xs j)
        (vec3_sum (rd m.md5vertex j).count (skin_normal M m pose (rd m.md5vertex j)))))
      (set_pose_vertex_normal_array M m pose)]
    rw [whileIdx_set_length (fun j xs => vec3_add (rd xs j)
      (vec3_sum (rd m.md5vertex j).count (skin_normal M m pose (rd m.md5vertex j))))]
    exact memset_vec3_length _ _
  · rw [whileIdx_proj VERTEXDATA.uv_array _
      (fun j xs => xs.set j (⟨(rd m.md5vertex j).uv.x, (rd m.md5vertex j).uv.y⟩ : vec2 F))
      (set_pose_vertex_uv_array M m pose)]
    rw [whileIdx_set_length
      (fun j _ => (⟨(rd m.md5vertex j).uv.x, (rd m.md5vertex j).uv.y⟩ : vec2 F))]
  · rw [whileIdx_proj VERTEXDATA.tangent_array _
      (fun j xs => xs.set j (vec3_add (rd xs j)
        (vec3_sum (rd m.md5vertex j).count (skin_tangent M m pose (rd m.md5vertex j)))))
      (set_pose_vertex_tangent_array M m pose)]
    rw [whileIdx_set_length (fun j xs => vec3_add (rd xs j)
      (vec3_sum (rd m.md5vertex j).count (skin_tangent M m pose (rd m.md5vertex j))))]
    exact memset_vec3_length _ _

/-- The positions written by `MD5_set_pose` are the same for two meshes with
the same number of vertices, the same `start` and `count` of every vertex and
the same joint, bias and location of every weight. -/
theorem set_pose_mesh_vertex_skin (M : FloatLib F) (pose : List (MD5JOINT F))
    (m m1 : MD5MESH F) (hn : m1.n_vertex = m.n_vertex)
    (hs : m.vertex_data.vertex_array.length = m.n_vertex)
    (hs1 : m1.vertex_data.vertex_array.length = m1.n_vertex)
    (hv : ∀ j, (rd m1.md5vertex j).start = (rd m.md5vertex j).start ∧
      (rd m1.md5vertex j).count = (rd m.md5vertex j).count)
    (hw : same_skin_weights m.md5weight m1.md5weight) :
    (MD5_set_pose_mesh M pose m1).vertex_data.vertex_array =
      (MD5_set_pose_mesh M pose m).vertex_data.vertex_array := by
  apply list_ext_rd
  · rw [(set_pose_mesh_lengths M pose m1).1, (set_pose_mesh_lengths M pose m).1, hs, hs1, hn]
  · intro j hj
    rw [(set_pose_mesh_lengths M pose m1).1, hs1] at hj
    rw [set_pose_mesh_vertex M pose m1 hs1 j hj,
      set_pose_mesh_vertex M pose m hs j (by rw [← hn]; exact hj), (hv j).2]
    apply vec3_sum_congr
    intro k _
    simp only [skin_position, (hv j).1, (hw _).1, (hw _).2.1, (hw _).2.2]

/-- The positions written by `MD5_set_pose` are the same for two meshes that
differ in normals and tangents only. -/
theorem set_pose_mesh_vertex_congr (M : FloatLib F) (pose : List (MD5JOINT F))
    (m m1 : MD5MESH F) (h : same_but_normals_tangents m m1)
    (hs : m.vertex_data.vertex_array.length = m.n_vertex) :
    (MD5_set_pose_mesh M pose m1).vertex_data.vertex_array =
      (MD5_set_pose_mesh M pose m).vertex_data.vertex_array := by
  obtain ⟨_, h2, h3, _, _, _, _, _, _, _, _, h12, h13⟩ := h
  exact set_pose_mesh_vertex_skin M pose m m1 h2 hs (by rw [h3, h2]; exact hs)
    (fun j => ⟨(h12 j).2.1, (h12 j).2.2⟩) h13

/-- Evaluating a pose twice gives what evaluating it once gives. -/
theorem set_pose_mesh_idem (M : FloatLib F) (pose : List (MD5JOINT F)) (m : MD5MESH F)
    (hs : vertex_data_sized m) :
    MD5_set_pose_mesh M pose (MD5_set_pose_mesh M pose m) = MD5_set_pose_mesh M pose m := by
  obtain ⟨s1, s2, s3, s4⟩ := hs
  obtain ⟨l1, l2, l3, l4⟩ := set_pose_mesh_lengths M pose m
  obtain ⟨k1, k2, k3, k4⟩ := set_pose_mesh_lengths M pose (MD5_set_pose_mesh M pose m)
  have hn : (MD5_set_pose_mesh M pose m).n_vertex = m.n_vertex := rfl
  have hd : (MD5_set_pose_mesh M pose (MD5_set_pose_mesh M pose m)).vertex_data =
      (MD5_set_pose_mesh M pose m).vertex_data := by
    have e1 : (MD5_set_pose_mesh M pose (MD5_set_pose_mesh M pose m)).vertex_data.vertex_array =
        (MD5_set_pose_mesh M pose m).vertex_data.vertex_array := by
      apply list_ext_rd _ _ k1
      intro j hj
      rw [k1, l1, s1] at hj
      rw [set_pose_mesh_vertex M pose (MD5_set_pose_mesh M pose m) (by rw [l1, s1, hn]) j hj,
        set_pose_mesh_vertex M pose m s1 j hj]
      rfl
    have e2 : (MD5_set_pose_mesh M pose (MD5_set_pose_mesh M pose m)).vertex_data.normal_array =
        (MD5_set_pose_mesh M pose m).vertex_data.normal_array := by
      apply list_ext_rd _ _ k2
      intro j hj
      rw [k2, l2, s2] at hj
      rw [set_pose_mesh_normal M pose (MD5_set_pose_mesh M pose m) (by rw [l2, s2, hn]) j hj,
        set_pose_mesh_normal M pose m s2 j hj]
      rfl
    have e3 : (MD5_set_pose_mesh M pose (MD5_set_pose_mesh M pose m)).vertex_data.uv_array =
        (MD5_set_pose_mesh M pose m).vertex_data.uv_array := by
      apply list_ext_rd _ _ k3
      intro j hj
      rw [k3, l3, s3] at hj
      rw [set_pose_mesh_uv M pose (MD5_set_pose_mesh M pose m) (by rw [l3, s3, hn]) j hj,
        set_pose_mesh_uv M pose m s3 j hj]
      rfl
    have e4 : (MD5_set_pose_mesh M pose (MD5_set_pose_mesh M pose m)).vertex_data.tangent_array =
        (MD5_set_pose_mesh M pose m).vertex_data.tangent_array := by
      apply list_ext_rd _ _ k4
      intro j hj
      rw [k4, l4, s4] at hj
      rw [set_pose_mesh_tangent M pose (MD5_set_pose_mesh M pose m) (by rw [l4, s4, hn]) j hj,
        set_pose_mesh_tangent M pose m s4 j hj]
      rfl
    cases hv : (MD5_set_pose_mesh M pose (MD5_set_pose_mesh M pose m)).vertex_data with
    | mk a b c d =>
      cases hw : (MD5_set_pose_mesh M pose m).vertex_data with
      | mk a1 b1 c1 d1 =>
        rw [hv, hw] at e1 e2 e3 e4
        simp only [] at e1 e2 e3 e4
        rw [e1, e2, e3, e4]
  have hstruct : ∀ x : MD5MESH F, MD5_set_pose_mesh M pose x =
      { x with vertex_data := (MD5_set_pose_mesh M pose x).vertex_data } := fun _ => rfl
  rw [hstruct (MD5_set_pose_mesh M pose m), hd]

theorem set_pose_fields (M : FloatLib F) (md5 : MD5 F) (pose : List (MD5JOINT F)) :
    (MD5_set_pose M md5 pose).n_mesh = md5.n_mesh ∧
      (MD5_set_pose M md5 pose).bind_pose = md5.bind_pose ∧
      (MD5_set_pose M md5 pose).md5mesh.length = md5.md5mesh.length := by
  unfold MD5_set_pose
  apply whileIdx_inv
    (fun s : MD5 F => s.n_mesh = md5.n_mesh ∧ s.bind_pose = md5.bind_pose ∧
      s.md5mesh.length = md5.md5mesh.length)
  · intro k s hs
    exact ⟨hs.1, hs.2.1, by simp [hs.2.2]⟩
  · exact ⟨rfl, rfl, rfl⟩

theorem set_pose_mesh_sized (M : FloatLib F) (pose : List (MD5JOINT F)) (m : MD5MESH F)
    (hs : vertex_data_sized m) : vertex_data_sized (MD5_set_pose_mesh M pose m) := by
  obtain ⟨s1, s2, s3, s4⟩ := hs
  obtain ⟨l1, l2, l3, l4⟩ := set_pose_mesh_lengths M pose m
  exact ⟨l1.trans s1, l2.trans s2, l3.trans s3, l4.trans s4⟩

/-! ## Lookup by name -/

theorem first_match_some (test : Nat → Bool) (k : Nat) :
    ∀ (i r : Nat), first_match test k i = some r ↔
      (i ≤ r ∧ r < i + k ∧ test r = true ∧ ∀ j, i ≤ j → j < r → test j = false) := by
  induction k with
  | zero =>
    intro i r
    simp only [first_match]
    constructor
    · intro h; cases h
    · rintro ⟨h1, h2, _, _⟩; omega
  | succ k ih =>
    intro i r
    simp only [first_match]
    by_cases ht : test i = true
    · rw [if_pos ht]
      constructor
      · intro h
        cases h
        exact ⟨le_refl _, by omega, ht, fun j h1 h2 => by omega⟩
      · rintro ⟨h1, _, _, h4⟩
        by_cases hir : i = r
        · rw [hir]
        · have := h4 i (le_refl _) (by omega)
          rw [this] at ht
          cases ht
    · rw [if_neg ht, ih (i + 1) r]
      have hf : test i = false := by
        cases h : test i
        · rfl
        · exact absurd h ht
      constructor
      · rintro ⟨h1, h2, h3, h4⟩
        refine ⟨by omega, by omega, h3, ?_⟩
        intro j hj1 hj2
        by_cases hji : j = i
        · rw [hji]; exact hf
        · exact h4 j (by omega) hj2
      · rintro ⟨h1, h2, h3, h4⟩
        have hne : i ≠ r := by
          intro e
          rw [e] at hf
          rw [hf] at h3
          cases h3
        exact ⟨by omega, by omega, h3, fun j hj1 hj2 => h4 j (by omega) hj2⟩

theorem first_match_none (test : Nat → Bool) (k : Nat) :
    ∀ (i : Nat), first_match test k i = none ↔ ∀ j, i ≤ j → j < i + k → test j = false := by
  induction k with
  | zero =>
    intro i
    simp only [first_match, true_iff]
    intro j h1 h2
    omega
  | succ k ih =>
    intro i
    simp only [first_match]
    by_cases ht : test i = true
    · rw [if_pos ht]
      constructor
      · intro h; cases h
      · intro h
        have := h i (le_refl _) (by omega)
        rw [this] at ht
        cases ht
    · rw [if_neg ht, ih (i + 1)]
      have hf : test i = false := by
        cases h : test i
        · rfl
        · exact absurd h ht
      constructor
      · intro h j h1 h2
        by_cases hji : j = i
        · rw [hji]; exact hf
        · exact h j (by omega) (by omega)
      · intro h j h1 h2
        exact h j (by omega) (by omega)

/-- When a test implies another, the first match of the other comes no later. -/
theorem first_match_le (t1 t2 : Nat → Bool) (h : ∀ i, t1 i = true → t2 i = true)
    (n r : Nat) (h1 : first_match t1 n 0 = some r) :
    ∃ j, j ≤ r ∧ first_match t2 n 0 = some j := by
  cases h2 : first_match t2 n 0 with
  | none =>
    obtain ⟨_, hb, ht, _⟩ := (first_match_some t1 n 0 r).mp h1
    have := (first_match_none t2 n 0).mp h2 r (Nat.zero_le _) hb
    rw [h r ht] at this
    cases this
  | some j =>
    refine ⟨j, ?_, rfl⟩
    obtain ⟨_, hb, ht, _⟩ := (first_match_some t1 n 0 r).mp h1
    obtain ⟨_, _, _, hmin⟩ := (first_match_some t2 n 0 j).mp h2
    by_contra hlt
    have := hmin r (Nat.zero_le _) (by omega)
    rw [h r ht] at this
    cases this

theorem strcmp_strstr (a b : String) (h : strcmp_equal a b = true) :
    strstr_found a b = true := by
  simp only [strcmp_equal, decide_eq_true_eq] at h
  subst h
  simp only [strstr_found, decide_eq_true_eq]
  exact List.infix_refl _

/-! ## Moving one joint of a pose -/

theorem rdI_set {α : Type} [Inhabited α] (xs : List α) (J : Nat) (a : α) (q : Int)
    (hJ : J < xs.length) :
    rdI (xs.set J a) q = if q = (J : Int) then a else rdI xs q := by
  unfold rdI
  by_cases h0 : 0 ≤ q
  · rw [if_pos h0, if_pos h0]
    have e : ∀ ys : List α, ys.getD q.toNat default = rd ys q.toNat := fun _ => rfl
    rw [e, e, rd_set]
    by_cases hq : q = (J : Int)
    · subst hq
      simp [hJ]
    · have : ¬ (J = q.toNat) := by omega
      simp [this, hq]
  · rw [if_neg h0, if_neg h0]
    have : ¬ (q = (J : Int)) := by omega
    simp [this]

/-- The sum of the biases of the weights of the vertex `v` that reference the
joint `J`. -/
theorem skin_position_moved (M : FloatLib F) (m : MD5MESH F) (pose : List (MD5JOINT F))
    (J : Nat) (d : vec3 F) (hJ : J < pose.length) (v : MD5VERTEX F) (k : Nat) :
    skin_position M m
        (pose.set J { rd pose J with location := vec3_add (rd pose J).location d }) v k =
      vec3_add (skin_position M m pose v k)
        (vec3_bias
          (if (rd m.md5weight (v.start + k)).joint = (J : Int) then
            (rd m.md5weight (v.start + k)).bias else 0) d) := by
  have hrd : rdI pose (J : Int) = rd pose J := by
    unfold rdI rd
    simp
  simp only [skin_position, rdI_set _ _ _ _ hJ]
  by_cases hq : (rd m.md5weight (v.start + k)).joint = (J : Int)
  · rw [if_pos hq, if_pos hq, hq, hrd]
    simp only [vec3_bias_offset, vec3_add, vec3_bias]
    congr 1 <;> ring
  · rw [if_neg hq, if_neg hq]
    simp only [vec3_bias_offset, vec3_add, vec3_bias]
    congr 1 <;> ring

theorem skin_normal_moved (M : FloatLib F) (m : MD5MESH F) (pose : List (MD5JOINT F))
    (J : Nat) (d : vec3 F) (hJ : J < pose.length) (v : MD5VERTEX F) (k : Nat) :
    skin_normal M m
        (pose.set J { rd pose J with location := vec3_add (rd pose J).location d }) v k =
      skin_normal M m pose v k := by
  have hrd : rdI pose (J : Int) = rd pose J := by
    unfold rdI rd
    simp
  simp only [skin_normal, rdI_set _ _ _ _ hJ]
  by_cases hq : (rd m.md5weight (v.start + k)).joint = (J : Int)
  · rw [if_pos hq, hq, hrd]
  · rw [if_neg hq]

theorem skin_tangent_moved (M : FloatLib F) (m : MD5MESH F) (pose : List (MD5JOINT F))
    (J : Nat) (d : vec3 F) (hJ : J < pose.length) (v : MD5VERTEX F) (k : Nat) :
    skin_tangent M m
        (pose.set J { rd pose J with location := vec3_add (rd pose J).location d }) v k =
      skin_tangent M m pose v k := by
  have hrd : rdI pose (J : Int) = rd pose J := by
    unfold rdI rd
    simp
  simp only [skin_tangent, rdI_set _ _ _ _ hJ]
  by_cases hq : (rd m.md5weight (v.start + k)).joint = (J : Int)
  · rw [if_pos hq, hq, hrd]
  · rw [if_neg hq]

theorem vec3_sum_add_bias (n : Nat) (f : Nat → vec3 F) (b : Nat → F) (d : vec3 F) :
    vec3_sum n (fun k => vec3_add (f k) (vec3_bias (b k) d)) =
      vec3_add (vec3_sum n f) (vec3_bias (Finset.sum (Finset.range n) b) d) := by
  simp only [vec3_sum, vec3_add, vec3_bias, Finset.sum_add_distrib, Finset.sum_mul]

/-! ## One tick of a frame-stepped action -/

theorem memcpy_joints_eq (dst src : List (MD5JOINT F)) (n : Nat) (hd : dst.length = n)
    (hsrc : src.length = n) : memcpy_joints dst src n = src := by
  unfold memcpy_joints
  apply list_ext_rd
  · rw [whileIdx_set_length (fun i _ => rd src i), hd, hsrc]
  · intro j hj
    rw [whileIdx_set_length (fun i _ => rd src i)] at hj
    rw [whileIdx_set_rd (fun i _ => rd src i)]
    simp [hj, hd ▸ hj]

/-- The frame-stepped tick below one frame period: only the accumulator moves. -/
theorem frame_tick_wait (M : FloatLib F) (md5 : MD5 F) (dt : F) (a : MD5ACTION F) (u : Nat)
    (hstate : a.state = PLAY) (hmethod : a.method = MD5_METHOD_FRAME)
    (hlt : a.frame_time + dt < a.fps) :
    MD5_draw_action_body M md5 dt a u = ({ a with frame_time := a.frame_time + dt }, u) := by
  have hn : ¬ (a.frame_time + dt ≥ a.fps) := not_le.mpr hlt
  simp only [MD5_draw_action_body, MD5_draw_action_frame, hstate, hmethod, if_true, hn,
    if_false]

/-- The frame-stepped tick that advances, when the action loops or is not at
its last frame. -/
theorem frame_tick_advance (M : FloatLib F) (md5 : MD5 F) (dt : F) (a : MD5ACTION F) (u : Nat)
    (hstate : a.state = PLAY) (hmethod : a.method = MD5_METHOD_FRAME)
    (hge : a.fps ≤ a.frame_time + dt)
    (hgo : a.loop ≠ 0 ∨ a.curr_frame + 1 ≠ (a.n_frame : Int)) :
    MD5_draw_action_body M md5 dt a u =
      ({ a with
          pose := memcpy_joints a.pose (rdI a.frame a.curr_frame) md5.n_joint
          curr_frame := if a.curr_frame + 1 = (a.n_frame : Int) then 0 else a.curr_frame + 1
          next_frame :=
            if (if a.curr_frame + 1 = (a.n_frame : Int) then 0 else a.curr_frame + 1) + 1 =
                (a.n_frame : Int) then 0
            else (if a.curr_frame + 1 = (a.n_frame : Int) then 0 else a.curr_frame + 1) + 1
          frame_time := a.frame_time + dt - a.fps }, 1) := by
  have hge1 : a.frame_time + dt ≥ a.fps := hge
  by_cases hw : a.curr_frame + 1 = (a.n_frame : Int)
  · have hl : a.loop ≠ 0 := by
      rcases hgo with h | h
      · exact h
      · exact absurd hw h
    simp only [MD5_draw_action_body, MD5_draw_action_frame, hstate, hmethod, if_true, hge1, hw,
      hl, ne_eq, not_false_eq_true]
    split_ifs <;> rfl
  · simp only [MD5_draw_action_body, MD5_draw_action_frame, hstate, hmethod, if_true, hge1, hw,
      if_false]
    split_ifs <;> rfl

/-- The frame-stepped tick at the last frame of an action that does not loop:
the pose is copied and the action is stopped. -/
theorem frame_tick_stop (M : FloatLib F) (md5 : MD5 F) (dt : F) (a : MD5ACTION F) (u : Nat)
    (hstate : a.state = PLAY) (hmethod : a.method = MD5_METHOD_FRAME)
    (hge : a.fps ≤ a.frame_time + dt)
    (hloop : a.loop = 0) (hlast : a.curr_frame + 1 = (a.n_frame : Int)) :
    MD5_draw_action_body M md5 dt a u =
      ({ a with
          pose := memcpy_joints a.pose (rdI a.frame a.curr_frame) md5.n_joint
          curr_frame := 0, next_frame := 1, state := STOP, frame_time := 0 }, u) := by
  have hge1 : a.frame_time + dt ≥ a.fps := hge
  simp only [MD5_draw_action_body, MD5_draw_action_frame, hstate, hmethod, if_true, hge1,
    hlast, hloop, ne_eq, not_true_eq_false, if_false, MD5_action_stop]

/-- When no action below `k` plays, `k` iterations of the loop of
`MD5_draw_action` change nothing and leave `update` at 0. -/
theorem draw_action_idle (M : FloatLib F) (md5 : MD5 F) (dt : F) (k : Nat)
    (h : ∀ i, i < k → (rd md5.md5action i).state ≠ PLAY) :
    whileIdx k
        (fun i (s : MD5 F × Nat) =>
          let r := MD5_draw_action_body M s.1 dt (rd s.1.md5action i) s.2
          ({ s.1 with md5action := s.1.md5action.set i r.1 }, r.2))
        (md5, 0) = (md5, 0) := by
  induction k with
  | zero => rfl
  | succ k ih =>
    rw [whileIdx_succ, ih (fun i hi => h i (by omega))]
    have hk := h k (by omega)
    simp only [MD5_draw_action_body, hk, if_false, set_rd_self]

/-! ## The bounds of `MD5_update_bound_mesh` -/

theorem whileIdx_congr_inv {σ : Type} (P : σ → Prop) (body body1 : Nat → σ → σ)
    (hP : ∀ i s, P s → P (body i s)) (he : ∀ i s, P s → body i s = body1 i s)
    (n : Nat) (s : σ) (hs : P s) : whileIdx n body s = whileIdx n body1 s := by
  induction n with
  | zero => rfl
  | succ n ih =>
    rw [whileIdx_succ, whileIdx_succ, ← ih]
    exact he n _ (whileIdx_inv P body hP n s hs)

/-- A loop that lowers a value to each of `val 0`, ..., `val (n - 1)` ends at a
lower bound of them that is the initial value or one of them. -/
theorem loop_low {σ : Type} (g : σ → F) (upd : Nat → σ → σ) (val : Nat → F)
    (hupd : ∀ j s, g (upd j s) = if val j < g s then val j else g s) (n : Nat) (s0 : σ) :
    g (whileIdx n upd s0) ≤ g s0 ∧
      (∀ j, j < n → g (whileIdx n upd s0) ≤ val j) ∧
      (g (whileIdx n upd s0) = g s0 ∨ ∃ j, j < n ∧ g (whileIdx n upd s0) = val j) := by
  induction n with
  | zero =>
    exact ⟨le_refl _, fun j hj => absurd hj (Nat.not_lt_zero j), Or.inl rfl⟩
  | succ n ih =>
    obtain ⟨h1, h2, h3⟩ := ih
    rw [whileIdx_succ, hupd]
    by_cases hc : val n < g (whileIdx n upd s0)
    · rw [if_pos hc]
      refine ⟨le_trans (le_of_lt hc) h1, ?_, Or.inr ⟨n, by omega, rfl⟩⟩
      intro j hj
      by_cases hjn : j = n
      · rw [hjn]
      · exact le_trans (le_of_lt hc) (h2 j (by omega))
    · rw [if_neg hc]
      refine ⟨h1, ?_, ?_⟩
      · intro j hj
        by_cases hjn : j = n
        · rw [hjn]; exact not_lt.mp hc
        · exact h2 j (by omega)
      · rcases h3 with h | ⟨j, hj, h⟩
        · exact Or.inl h
        · exact Or.inr ⟨j, by omega, h⟩

/-- The same for two nested loops. -/
theorem double_loop_low {σ : Type} (g : σ → F) (upd : Nat → Nat → σ → σ)
    (val : Nat → Nat → F) (nv : Nat → Nat)
    (hupd : ∀ i j s, g (upd i j s) = if val i j < g s then val i j else g s)
    (n : Nat) (s0 : σ) :
    g (whileIdx n (fun i s => whileIdx (nv i) (upd i) s) s0) ≤ g s0 ∧
      (∀ i j, i < n → j < nv i →
        g (whileIdx n (fun i s => whileIdx (nv i) (upd i) s) s0) ≤ val i j) ∧
      (g (whileIdx n (fun i s => whileIdx (nv i) (upd i) s) s0) = g s0 ∨
        ∃ i j, i < n ∧ j < nv i ∧
          g (whileIdx n (fun i s => whileIdx (nv i) (upd i) s) s0) = val i j) := by
  induction n with
  | zero =>
    exact ⟨le_refl _, fun i j hi _ => absurd hi (Nat.not_lt_zero i), Or.inl rfl⟩
  | succ n ih =>
    obtain ⟨h1, h2, h3⟩ := ih
    rw [whileIdx_succ]
    obtain ⟨k1, k2, k3⟩ := loop_low g (upd n) (val n) (hupd n) (nv n)
      (whileIdx n (fun i s => whileIdx (nv i) (upd i) s) s0)
    refine ⟨le_trans k1 h1, ?_, ?_⟩
    · intro i j hi hj
      by_cases hin : i = n
      · subst hin; exact k2 j hj
      · exact le_trans k1 (h2 i j (by omega) hj)
    · rcases k3 with k | ⟨j, hj, k⟩
      · rw [k]
        rcases h3 with h | ⟨i, j, hi, hj, h⟩
        · exact Or.inl h
        · exact Or.inr ⟨i, j, by omega, hj, h⟩
      · exact Or.inr ⟨n, j, by omega, hj, k⟩

/-- The mirror image of `double_loop_low` for a value that is raised. -/
theorem double_loop_high {σ : Type} (g : σ → F) (upd : Nat → Nat → σ → σ)
    (val : Nat → Nat → F) (nv : Nat → Nat)
    (hupd : ∀ i j s, g (upd i j s) = if val i j > g s then val i j else g s)
    (n : Nat) (s0 : σ) :
    g s0 ≤ g (whileIdx n (fun i s => whileIdx (nv i) (upd i) s) s0) ∧
      (∀ i j, i < n → j < nv i →
        val i j ≤ g (whileIdx n (fun i s => whileIdx (nv i) (upd i) s) s0)) ∧
      (g (whileIdx n (fun i s => whileIdx (nv i) (upd i) s) s0) = g s0 ∨
        ∃ i j, i < n ∧ j < nv i ∧
          g (whileIdx n (fun i s => whileIdx (nv i) (upd i) s) s0) = val i j) := by
  have hneg : ∀ i j s, (fun s => -g s) (upd i j s) =
      if (fun i j => -val i j) i j < (fun s => -g s) s then (fun i j => -val i j) i j
      else (fun s => -g s) s := by
    intro i j s
    simp only [hupd, neg_lt_neg_iff]
    split_ifs <;> rfl
  obtain ⟨h1, h2, h3⟩ := double_loop_low (fun s => -g s) upd (fun i j => -val i j) nv hneg n s0
  simp only [neg_le_neg_iff, neg_inj] at h1 h2 h3
  exact ⟨h1, h2, h3⟩

theorem update_bound_vertex_eq (v : vec3 F) (s : MD5 F) :
    MD5_update_bound_vertex v s =
      { s with
        min := ⟨if v.x < s.min.x then v.x else s.min.x, if v.y < s.min.y then v.y else s.min.y,
                if v.z < s.min.z then v.z else s.min.z⟩
        max := ⟨if v.x > s.max.x then v.x else s.max.x, if v.y > s.max.y then v.y else s.max.y,
                if v.z > s.max.z then v.z else s.max.z⟩ } := by
  unfold MD5_update_bound_vertex
  by_cases h1 : v.x < s.min.x <;> by_cases h2 : v.y < s.min.y <;> by_cases h3 : v.z < s.min.z <;>
    by_cases h4 : v.x > s.max.x <;> by_cases h5 : v.y > s.max.y <;> by_cases h6 : v.z > s.max.z <;>
    simp only [h1, h2, h3, h4, h5, h6, if_true, if_false]

/-- The loops of `MD5_update_bound_mesh` read the meshes of the MD5 they
started from. -/
theorem update_bound_loop_eq (md5 : MD5 F) (n : Nat) (s0 : MD5 F)
    (h0 : s0.md5mesh = md5.md5mesh) :
    whileIdx n
        (fun i (s : MD5 F) =>
          let md5mesh := rd s.md5mesh i
          whileIdx md5mesh.n_vertex
            (fun j s => MD5_update_bound_vertex (rd md5mesh.vertex_data.vertex_array j) s) s)
        s0 =
      whileIdx n
        (fun i (s : MD5 F) =>
          whileIdx (rd md5.md5mesh i).n_vertex
            (fun j s =>
              MD5_update_bound_vertex (rd (rd md5.md5mesh i).vertex_data.vertex_array j) s) s)
        s0 := by
  apply whileIdx_congr_inv (fun s : MD5 F => s.md5mesh = md5.md5mesh)
  · intro i s hs
    simp only []
    apply whileIdx_inv (fun s : MD5 F => s.md5mesh = md5.md5mesh)
    · intro j s1 hs1
      rw [update_bound_vertex_eq]
      exact hs1
    · exact hs
  · intro i s hs
    simp only [hs]
  · exact h0

theorem half_largest (a b c : F) :
    (if (if a > b then a else b) > c then (if a > b then a else b) * (1 / 2) else c * (1 / 2)) =
      max (max a b) c / 2 := by
  have h1 : (if a > b then a else b) = max a b := by
    rcases lt_or_le b a with h | h
    · rw [if_pos h, max_eq_left (le_of_lt h)]
    · rw [if_neg (not_lt.mpr h), max_eq_right h]
  rw [h1]
  rcases lt_or_le c (max a b) with h | h
  · rw [if_pos h, max_eq_left (le_of_lt h)]; ring
  · rw [if_neg (not_lt.mpr h), max_eq_right h]; ring

theorem update_bound_loop_facts (md5 s0 : MD5 F) (n : Nat) (L : MD5 F)
    (hL : L = whileIdx n
        (fun i (s : MD5 F) =>
          whileIdx (rd md5.md5mesh i).n_vertex
            (fun j s => MD5_update_bound_vertex (bound_vertex md5 i j) s) s)
        s0) :
    (L.md5mesh = s0.md5mesh ∧ L.n_mesh = s0.n_mesh) ∧
    (∀ i j, i < n → j < (rd md5.md5mesh i).n_vertex →
      (L.min.x ≤ (bound_vertex md5 i j).x ∧ (bound_vertex md5 i j).x ≤ L.max.x) ∧
      (L.min.y ≤ (bound_vertex md5 i j).y ∧ (bound_vertex md5 i j).y ≤ L.max.y) ∧
      (L.min.z ≤ (bound_vertex md5 i j).z ∧ (bound_vertex md5 i j).z ≤ L.max.z)) ∧
    (L.min.x = s0.min.x ∨
      ∃ i j, i < n ∧ j < (rd md5.md5mesh i).n_vertex ∧ L.min.x = (bound_vertex md5 i j).x) ∧
    (L.min.y = s0.min.y ∨
      ∃ i j, i < n ∧ j < (rd md5.md5mesh i).n_vertex ∧ L.min.y = (bound_vertex md5 i j).y) ∧
    (L.min.z = s0.min.z ∨
      ∃ i j, i < n ∧ j < (rd md5.md5mesh i).n_vertex ∧ L.min.z = (bound_vertex md5 i j).z) ∧
    (L.max.x = s0.max.x ∨
      ∃ i j, i < n ∧ j < (rd md5.md5mesh i).n_vertex ∧ L.max.x = (bound_vertex md5 i j).x) ∧
    (L.max.y = s0.max.y ∨
      ∃ i j, i < n ∧ j < (rd md5.md5mesh i).n_vertex ∧ L.max.y = (bound_vertex md5 i j).y) ∧
    (L.max.z = s0.max.z ∨
      ∃ i j, i < n ∧ j < (rd md5.md5mesh i).n_vertex ∧ L.max.z = (bound_vertex md5 i j).z) := by
  have hkeep : L.md5mesh = s0.md5mesh ∧ L.n_mesh = s0.n_mesh := by
    rw [hL]
    apply whileIdx_inv (fun s : MD5 F => s.md5mesh = s0.md5mesh ∧ s.n_mesh = s0.n_mesh)
    · intro i s hs
      apply whileIdx_inv (fun s : MD5 F => s.md5mesh = s0.md5mesh ∧ s.n_mesh = s0.n_mesh)
      · intro j s1 hs1
        rw [update_bound_vertex_eq]
        exact hs1
      · exact hs
    · exact ⟨rfl, rfl⟩
  obtain ⟨_, a2, a3⟩ := double_loop_low (fun s : MD5 F => s.min.x)
    (fun i j s => MD5_update_bound_vertex (bound_vertex md5 i j) s)
    (fun i j => (bound_vertex md5 i j).x) (fun i => (rd md5.md5mesh i).n_vertex)
    (fun i j s => by simp only [update_bound_vertex_eq]) n s0
  obtain ⟨_, b2, b3⟩ := double_loop_low (fun s : MD5 F => s.min.y)
    (fun i j s => MD5_update_bound_vertex (bound_vertex md5 i j) s)
    (fun i j => (bound_vertex md5 i j).y) (fun i => (rd md5.md5mesh i).n_vertex)
    (fun i j s => by simp only [update_bound_vertex_eq]) n s0
  obtain ⟨_, c2, c3⟩ := double_loop_low (fun s : MD5 F => s.min.z)
    (fun i j s => MD5_update_bound_vertex (bound_vertex md5 i j) s)
    (fun i j => (bound_vertex md5 i j).z) (fun i => (rd md5.md5mesh i).n_vertex)
    (fun i j s => by simp only [update_bound_vertex_eq]) n s0
  obtain ⟨_, d2, d3⟩ := double_loop_high (fun s : MD5 F => s.max.x)
    (fun i j s => MD5_update_bound_vertex (bound_vertex md5 i j) s)
    (fun i j => (bound_vertex md5 i j).x) (fun i => (rd md5.md5mesh i).n_vertex)
    (fun i j s => by simp only [update_bound_vertex_eq]) n s0
  obtain ⟨_, e2, e3⟩ := double_loop_high (fun s : MD5 F => s.max.y)
    (fun i j s => MD5_update_bound_vertex (bound_vertex md5 i j) s)
    (fun i j => (bound_vertex md5 i j).y) (fun i => (rd md5.md5mesh i).n_vertex)
    (fun i j s => by simp only [update_bound_vertex_eq]) n s0
  obtain ⟨_, f2, f3⟩ := double_loop_high (fun s : MD5 F => s.max.z)
    (fun i j s => MD5_update_bound_vertex (bound_vertex md5 i j) s)
    (fun i j => (bound_vertex md5 i j).z) (fun i => (rd md5.md5mesh i).n_vertex)
    (fun i j s => by simp only [update_bound_vertex_eq]) n s0
  rw [← hL] at a2 a3 b2 b3 c2 c3 d2 d3 e2 e3 f2 f3
  exact ⟨hkeep, fun i j hi hj => ⟨⟨a2 i j hi hj, d2 i j hi hj⟩, ⟨b2 i j hi hj, e2 i j hi hj⟩,
    ⟨c2 i j hi hj, f2 i j hi hj⟩⟩, a3, b3, c3, d3, e3, f3⟩

theorem update_bound_mesh_eq (md5 : MD5 F) :
    ∃ L : MD5 F,
      L = whileIdx md5.n_mesh
        (fun i (s : MD5 F) =>
          whileIdx (rd md5.md5mesh i).n_vertex
            (fun j s => MD5_update_bound_vertex (bound_vertex md5 i j) s) s)
        { md5 with
          min := ⟨99999999 / 1000, 99999999 / 1000, 99999999 / 1000⟩
          max := ⟨-(99999999 / 1000), -(99999999 / 1000), -(99999999 / 1000)⟩ } ∧
      MD5_update_bound_mesh md5 =
        { L with
          dimension := vec3_diff L.max L.min
          radius :=
            max (max (vec3_diff L.max L.min).x (vec3_diff L.max L.min).y)
              (vec3_diff L.max L.min).z / 2 } := by
  refine ⟨_, rfl, ?_⟩
  have h := update_bound_loop_eq md5 md5.n_mesh
    { md5 with
      min := ⟨99999999 / 1000, 99999999 / 1000, 99999999 / 1000⟩
      max := ⟨-(99999999 / 1000), -(99999999 / 1000), -(99999999 / 1000)⟩ } rfl
  simp only [] at h
  unfold MD5_update_bound_mesh
  simp only []
  rw [h, half_largest]
  rfl

theorem blend_tick_eq (M : FloatLib F) (md5 : MD5 F) (dt : F) (a : MD5ACTION F) (u : Nat)
    (hstate : a.state = PLAY)
    (hmethod : a.method = MD5_METHOD_LERP ∨ a.method = MD5_METHOD_SLERP) :
    MD5_draw_action_body M md5 dt a u =
      MD5_draw_action_blend M md5 { a with frame_time := a.frame_time + dt } u := by
  have hf : a.method ≠ MD5_METHOD_FRAME := by
    rcases hmethod with h | h <;> rw [h] <;> decide
  simp only [MD5_draw_action_body, hstate, if_true, hf, if_false, hmethod]

theorem blend_tick_wait (M : FloatLib F) (md5 : MD5 F) (dt : F) (a : MD5ACTION F) (u : Nat)
    (hstate : a.state = PLAY)
    (hmethod : a.method = MD5_METHOD_LERP ∨ a.method = MD5_METHOD_SLERP)
    (ht : CLAMP (M.fdiv (a.frame_time + dt) a.fps) 0 1 < 1) :
    MD5_draw_action_body M md5 dt a u =
      ({ a with
          pose := MD5_blend_pose M md5 a.pose (rdI a.frame a.curr_frame)
            (rdI a.frame a.next_frame) a.method (CLAMP (M.fdiv (a.frame_time + dt) a.fps) 0 1)
          frame_time := a.frame_time + dt }, 1) := by
  rw [blend_tick_eq M md5 dt a u hstate hmethod]
  have hn : ¬ (CLAMP (M.fdiv (a.frame_time + dt) a.fps) 0 1 ≥ 1) := not_le.mpr ht
  simp only [MD5_draw_action_blend, hn, if_false]

theorem blend_tick_loop (M : FloatLib F) (md5 : MD5 F) (dt : F) (a : MD5ACTION F) (u : Nat)
    (hstate : a.state = PLAY)
    (hmethod : a.method = MD5_METHOD_LERP ∨ a.method = MD5_METHOD_SLERP)
    (ht : 1 ≤ CLAMP (M.fdiv (a.frame_time + dt) a.fps) 0 1) (hloop : a.loop ≠ 0) :
    MD5_draw_action_body M md5 dt a u =
      ({ a with
          pose := MD5_blend_pose M md5 a.pose (rdI a.frame a.curr_frame)
            (rdI a.frame a.next_frame) a.method (CLAMP (M.fdiv (a.frame_time + dt) a.fps) 0 1)
          curr_frame := if a.curr_frame + 1 = (a.n_frame : Int) then 0 else a.curr_frame + 1
          next_frame :=
            if (if a.curr_frame + 1 = (a.n_frame : Int) then 1 else a.curr_frame + 1 + 1) =
                (a.n_frame : Int) then 0
            else (if a.curr_frame + 1 = (a.n_frame : Int) then 1 else a.curr_frame + 1 + 1)
          frame_time := a.frame_time + dt - a.fps }, 1) := by
  rw [blend_tick_eq M md5 dt a u hstate hmethod]
  have ht1 : CLAMP (M.fdiv (a.frame_time + dt) a.fps) 0 1 ≥ 1 := ht
  simp only [MD5_draw_action_blend, ht1, if_true, hloop, ne_eq, not_false_eq_true]
  split_ifs <;> rfl

theorem blend_tick_stop (M : FloatLib F) (md5 : MD5 F) (dt : F) (a : MD5ACTION F) (u : Nat)
    (hstate : a.state = PLAY)
    (hmethod : a.method = MD5_METHOD_LERP ∨ a.method = MD5_METHOD_SLERP)
    (ht : 1 ≤ CLAMP (M.fdiv (a.frame_time + dt) a.fps) 0 1) (hloop : a.loop = 0)
    (hlast : a.curr_frame + 1 + 1 = (a.n_frame : Int)) :
    MD5_draw_action_body M md5 dt a u =
      ({ a with
          pose := MD5_blend_pose M md5 a.pose (rdI a.frame a.curr_frame)
            (rdI a.frame a.next_frame) a.method (CLAMP (M.fdiv (a.frame_time + dt) a.fps) 0 1)
          curr_frame := 0, next_frame := 1, state := STOP, frame_time := 0 }, u) := by
  rw [blend_tick_eq M md5 dt a u hstate hmethod]
  have ht1 : CLAMP (M.fdiv (a.frame_time + dt) a.fps) 0 1 ≥ 1 := ht
  simp only [MD5_draw_action_blend, ht1, if_true, hloop, ne_eq, not_true_eq_false, if_false,
    hlast, MD5_action_stop]

theorem blend_tick_go (M : FloatLib F) (md5 : MD5 F) (dt : F) (a : MD5ACTION F) (u : Nat)
    (hstate : a.state = PLAY)
    (hmethod : a.method = MD5_METHOD_LERP ∨ a.method = MD5_METHOD_SLERP)
    (ht : 1 ≤ CLAMP (M.fdiv (a.frame_time + dt) a.fps) 0 1) (hloop : a.loop = 0)
    (hgo : a.curr_frame + 1 + 1 ≠ (a.n_frame : Int)) :
    MD5_draw_action_body M md5 dt a u =
      ({ a with
          pose := MD5_blend_pose M md5 a.pose (rdI a.frame a.curr_frame)
            (rdI a.frame a.next_frame) a.method (CLAMP (M.fdiv (a.frame_time + dt) a.fps) 0 1)
          curr_frame := a.curr_frame + 1, next_frame := a.curr_frame + 1 + 1
          frame_time := a.frame_time + dt - a.fps }, 1) := by
  rw [blend_tick_eq M md5 dt a u hstate hmethod]
  have ht1 : CLAMP (M.fdiv (a.frame_time + dt) a.fps) 0 1 ≥ 1 := ht
  simp only [MD5_draw_action_blend, ht1, if_true, hloop, ne_eq, not_true_eq_false, if_false,
    hgo]

theorem slerp_far (M : FloatLib F) (q0 q1 : vec4 F) (t : F) (ht1 : t ≠ 1) (ht0 : t ≠ 0)
    (c : F) (hc : c = if vec4_dot_vec4 q0 q1 < 0 then -vec4_dot_vec4 q0 q1 else vec4_dot_vec4 q0 q1)
    (hle : c ≤ 999999 / 1000000) (p : vec4 F)
    (hp : p = if vec4_dot_vec4 q0 q1 < 0 then vec4_invert q1 else q1) :
    vec4_slerp M q0 q1 t =
      ⟨(M.sinf ((1 - t) * M.atan2f (M.sqrtf (1 - (c * c))) c) * M.fdiv 1 (M.sqrtf (1 - (c * c))) *
            q0.x) +
          (M.sinf (t * M.atan2f (M.sqrtf (1 - (c * c))) c) * M.fdiv 1 (M.sqrtf (1 - (c * c))) *
            p.x),
        (M.sinf ((1 - t) * M.atan2f (M.sqrtf (1 - (c * c))) c) * M.fdiv 1 (M.sqrtf (1 - (c * c))) *
            q0.y) +
          (M.sinf (t * M.atan2f (M.sqrtf (1 - (c * c))) c) * M.fdiv 1 (M.sqrtf (1 - (c * c))) *
            p.y),
        (M.sinf ((1 - t) * M.atan2f (M.sqrtf (1 - (c * c))) c) * M.fdiv 1 (M.sqrtf (1 - (c * c))) *
            q0.z) +
          (M.sinf (t * M.atan2f (M.sqrtf (1 - (c * c))) c) * M.fdiv 1 (M.sqrtf (1 - (c * c))) *
            p.z),
        (M.sinf ((1 - t) * M.atan2f (M.sqrtf (1 - (c * c))) c) * M.fdiv 1 (M.sqrtf (1 - (c * c))) *
            q0.w) +
          (M.sinf (t * M.atan2f (M.sqrtf (1 - (c * c))) c) * M.fdiv 1 (M.sqrtf (1 - (c * c))) *
            p.w)⟩ := by
  unfold vec4_slerp
  simp only []
  rw [if_neg ht1, if_neg ht0, ← hc, if_neg (not_lt.mpr hle), hp]
  by_cases hneg : vec4_dot_vec4 q0 q1 < 0
  · simp only [if_pos hneg, vec4_invert]
  · simp only [if_neg hneg]

theorem slerp_near (M : FloatLib F) (q0 q1 : vec4 F) (t : F) (ht1 : t ≠ 1) (ht0 : t ≠ 0)
    (c : F) (hc : c = if vec4_dot_vec4 q0 q1 < 0 then -vec4_dot_vec4 q0 q1 else vec4_dot_vec4 q0 q1)
    (hgt : c > 999999 / 1000000) (p : vec4 F)
    (hp : p = if vec4_dot_vec4 q0 q1 < 0 then vec4_invert q1 else q1) :
    vec4_slerp M q0 q1 t = vec4_linear_blend q0 p t := by
  unfold vec4_slerp vec4_linear_blend
  simp only []
  rw [if_neg ht1, if_neg ht0, ← hc, if_pos hgt, hp]
  by_cases hneg : vec4_dot_vec4 q0 q1 < 0
  · simp only [if_pos hneg, vec4_invert]
  · simp only [if_neg hneg]

theorem dot_invert (q0 q1 : vec4 F) :
    vec4_dot_vec4 q0 (vec4_invert q1) = -vec4_dot_vec4 q0 q1 := by
  unfold vec4_dot_vec4 vec4_invert
  ring

theorem invert_invert (q : vec4 F) : vec4_invert (vec4_invert q) = q := by
  unfold vec4_invert
  simp

theorem slerp_weights_unit (c t : ℝ) (hc0 : 0 ≤ c) (hc1 : c ≤ 999999 / 1000000) :
    (Real.sin ((1 - t) * Complex.arg ⟨c, Real.sqrt (1 - c * c)⟩) * (1 / Real.sqrt (1 - c * c))) *
        (Real.sin ((1 - t) * Complex.arg ⟨c, Real.sqrt (1 - c * c)⟩) *
          (1 / Real.sqrt (1 - c * c))) +
      (Real.sin (t * Complex.arg ⟨c, Real.sqrt (1 - c * c)⟩) * (1 / Real.sqrt (1 - c * c))) *
        (Real.sin (t * Complex.arg ⟨c, Real.sqrt (1 - c * c)⟩) * (1 / Real.sqrt (1 - c * c))) +
      2 * (Real.sin ((1 - t) * Complex.arg ⟨c, Real.sqrt (1 - c * c)⟩) *
          (1 / Real.sqrt (1 - c * c))) *
        (Real.sin (t * Complex.arg ⟨c, Real.sqrt (1 - c * c)⟩) * (1 / Real.sqrt (1 - c * c))) *
        c = 1 := by
  have hpos : 0 < 1 - c * c := by nlinarith
  have hs2 : Real.sqrt (1 - c * c) * Real.sqrt (1 - c * c) = 1 - c * c :=
    Real.mul_self_sqrt (le_of_lt hpos)
  have hspos : 0 < Real.sqrt (1 - c * c) := Real.sqrt_pos.2 hpos
  generalize Real.sqrt (1 - c * c) = s at hs2 hspos ⊢
  have habs : Complex.abs ⟨c, s⟩ = 1 := by
    rw [Complex.abs_apply, Complex.normSq_mk]
    rw [show c * c + s * s = 1 by linarith]
    exact Real.sqrt_one
  have hne : (⟨c, s⟩ : ℂ) ≠ 0 := by
    intro h
    rw [h] at habs
    simp at habs
  have hcos : Real.cos (Complex.arg ⟨c, s⟩) = c := by
    rw [Complex.cos_arg hne, habs]
    simp
  have hsin : Real.sin (Complex.arg ⟨c, s⟩) = s := by
    rw [Complex.sin_arg, habs]
    simp
  generalize Complex.arg ⟨c, s⟩ = o at hcos hsin ⊢
  have ho : o = (1 - t) * o + t * o := by ring
  rw [ho, Real.cos_add] at hcos
  rw [ho, Real.sin_add] at hsin
  have hA := Real.sin_sq_add_cos_sq ((1 - t) * o)
  have hB := Real.sin_sq_add_cos_sq (t * o)
  generalize Real.sin ((1 - t) * o) = a at hcos hsin hA ⊢
  generalize Real.cos ((1 - t) * o) = a1 at hcos hsin hA ⊢
  generalize Real.sin (t * o) = b at hcos hsin hB ⊢
  generalize Real.cos (t * o) = b1 at hcos hsin hB ⊢
  have key : a * a + b * b + 2 * a * b * c = s * s := by
    linear_combination (-(2 * a * b)) * hcos + (s + (a * b1 + a1 * b)) * hsin - a ^ 2 * hB -
      b ^ 2 * hA
  have hsne : s ≠ 0 := ne_of_gt hspos
  field_simp
  linear_combination key

theorem draw_action_steps_snoc (M : FloatLib F) (dts : List F) (dt : F) (md5 : MD5 F) :
    MD5_draw_action_steps M (dts ++ [dt]) md5 =
      (MD5_draw_action M (MD5_draw_action_steps M dts md5) dt).1 := by
  simp [MD5_draw_action_steps, List.foldl_append]

theorem draw_action_steps_append (M : FloatLib F) (dts more : List F) (md5 : MD5 F) :
    MD5_draw_action_steps M (dts ++ more) md5 =
      MD5_draw_action_steps M more (MD5_draw_action_steps M dts md5) := by
  simp [MD5_draw_action_steps, List.foldl_append]

theorem draw_action_steps_fields (M : FloatLib F) (dts : List F) (md5 : MD5 F) :
    (MD5_draw_action_steps M dts md5).n_action = md5.n_action ∧
      (MD5_draw_action_steps M dts md5).n_joint = md5.n_joint ∧
      (MD5_draw_action_steps M dts md5).md5action.length = md5.md5action.length := by
  induction dts using List.reverseRecOn with
  | nil => exact ⟨rfl, rfl, rfl⟩
  | append_singleton dts dt ih =>
    rw [draw_action_steps_snoc, draw_action_n_action, draw_action_n_joint, draw_action_length]
    exact ih

theorem rdI_natCast {α : Type} [Inhabited α] (xs : List α) (k : Nat) :
    rdI xs (k : Int) = rd xs k := by
  simp [rdI, rd]

/-- A tick leaves an action that is not playing as it is. -/
theorem draw_action_rest (M : FloatLib F) (md5 : MD5 F) (dt : F) (i : Nat)
    (hi : i < md5.n_action) (hl : i < md5.md5action.length)
    (h : (rd md5.md5action i).state ≠ PLAY) :
    rd (MD5_draw_action M md5 dt).1.md5action i = rd md5.md5action i := by
  rw [draw_action_rd M md5 dt i hi hl]
  simp only [MD5_draw_action_body, h, if_false]

theorem draw_action_steps_rest (M : FloatLib F) (more : List F) (md5 : MD5 F) (i : Nat)
    (hi : i < md5.n_action) (hl : i < md5.md5action.length)
    (h : (rd md5.md5action i).state ≠ PLAY) :
    rd (MD5_draw_action_steps M more md5).md5action i = rd md5.md5action i := by
  induction more using List.reverseRecOn with
  | nil => rfl
  | append_singleton more dt ih =>
    obtain ⟨f1, _, f3⟩ := draw_action_steps_fields M more md5
    rw [draw_action_steps_snoc,
      draw_action_rest M _ dt i (by rw [f1]; exact hi) (by rw [f3]; exact hl) (by rw [ih]; exact h),
      ih]

theorem example_replayed_action :
    rd example_replayed.md5action 0 = 
      MD5_action_play (MD5_draw_action_body rational_lib example_looping (1 / 24)
        (rd example_looping.md5action 0) 0).1 MD5_METHOD_LERP 0 := by
  have hlen := draw_action_length rational_lib example_looping (1 / 24)
  unfold example_replayed
  dsimp only
  rw [rd_set_self _ _ _ (by rw [hlen]; decide),
    draw_action_rd rational_lib example_looping (1 / 24) 0 (by decide) (by decide)]

theorem draw_action_single (M : FloatLib F) (md5 : MD5 F) (dt : F) (h : md5.n_action = 1) :
    MD5_draw_action M md5 dt =
      ({ md5 with
          md5action := md5.md5action.set 0 (MD5_draw_action_body M md5 dt (rd md5.md5action 0) 0).1 },
        (MD5_draw_action_body M md5 dt (rd md5.md5action 0) 0).2) := by
  unfold MD5_draw_action
  conv_lhs => rw [h]
  rfl

theorem add_vertex_normal_rd (xs : List (MD5VERTEX F)) (i j : Nat) (n : vec3 F) :
    (rd (add_vertex_normal xs i n) j).tangent = (rd xs j).tangent ∧
      (rd (add_vertex_normal xs i n) j).uv = (rd xs j).uv ∧
      (add_vertex_normal xs i n).length = xs.length := by
  unfold add_vertex_normal
  rw [rd_set, List.length_set]
  by_cases h : i = j ∧ i < xs.length
  · rw [if_pos h, h.1]
    exact ⟨rfl, rfl, rfl⟩
  · rw [if_neg h]
    exact ⟨rfl, rfl, rfl⟩

theorem add_vertex_tangent_rd (xs : List (MD5VERTEX F)) (i j : Nat) (t : vec3 F) :
    (rd (add_vertex_tangent xs i t) j).tangent =
        (if i = j ∧ i < xs.length then vec3_add (rd xs j).tangent t else (rd xs j).tangent) ∧
      (add_vertex_tangent xs i t).length = xs.length := by
  unfold add_vertex_tangent
  rw [rd_set, List.length_set]
  by_cases h : i = j ∧ i < xs.length
  · rw [if_pos h, if_pos h, h.1]
    exact ⟨rfl, rfl⟩
  · rw [if_neg h, if_neg h]
    exact ⟨rfl, rfl⟩

/-- The tangent that `MD5_bind_triangle` adds to the three vertices of a
triangle with three different indices. -/
theorem bind_triangle_tangent (M : FloatLib F) (va : List (vec3 F)) (t : MD5TRIANGLE)
    (vs : List (MD5VERTEX F)) (h0 : t.indice0 < vs.length) (h1 : t.indice1 < vs.length)
    (h2 : t.indice2 < vs.length) (d01 : t.indice0 ≠ t.indice1) (d02 : t.indice0 ≠ t.indice2)
    (d12 : t.indice1 ≠ t.indice2) (T : vec3 F)
    (hT : T = triangle_tangent M (vec3_diff (rd va t.indice0) (rd va t.indice1))
      (vec3_diff (rd va t.indice0) (rd va t.indice2))
      (vec2_diff (rd vs t.indice1).uv (rd vs t.indice0).uv)
      (vec2_diff (rd vs t.indice2).uv (rd vs t.indice0).uv)) :
    (rd (MD5_bind_triangle M va t vs) t.indice0).tangent = vec3_add (rd vs t.indice0).tangent T ∧
    (rd (MD5_bind_triangle M va t vs) t.indice1).tangent = vec3_add (rd vs t.indice1).tangent T ∧
    (rd (MD5_bind_triangle M va t vs) t.indice2).tangent = vec3_add (rd vs t.indice2).tangent T := by
  unfold MD5_bind_triangle
  simp only []
  generalize vec3_normalize M _ _ = n
  have n1 := fun j => add_vertex_normal_rd vs t.indice0 j n
  have n2 := fun j => add_vertex_normal_rd (add_vertex_normal vs t.indice0 n) t.indice1 j n
  have n3 := fun j => add_vertex_normal_rd
    (add_vertex_normal (add_vertex_normal vs t.indice0 n) t.indice1 n) t.indice2 j n
  generalize hxs : add_vertex_normal
    (add_vertex_normal (add_vertex_normal vs t.indice0 n) t.indice1 n) t.indice2 n = xs at n3 ⊢
  have huv : ∀ j, (rd xs j).uv = (rd vs j).uv := fun j => by
    rw [(n3 j).2.1, (n2 j).2.1, (n1 j).2.1]
  have htan : ∀ j, (rd xs j).tangent = (rd vs j).tangent := fun j => by
    rw [(n3 j).1, (n2 j).1, (n1 j).1]
  have hlen : xs.length = vs.length := by
    rw [(n3 0).2.2, (n2 0).2.2, (n1 0).2.2]
  rw [huv, huv, huv, ← hT]
  have t1 := fun j => add_vertex_tangent_rd xs t.indice0 j T
  have t2 := fun j => add_vertex_tangent_rd (add_vertex_tangent xs t.indice0 T) t.indice1 j T
  have t3 := fun j => add_vertex_tangent_rd
    (add_vertex_tangent (add_vertex_tangent xs t.indice0 T) t.indice1 T) t.indice2 j T
  have l1 : (add_vertex_tangent xs t.indice0 T).length = vs.length := by
    rw [(t1 0).2, hlen]
  have l2 : (add_vertex_tangent (add_vertex_tangent xs t.indice0 T) t.indice1 T).length =
      vs.length := by
    rw [(t2 0).2, l1]
  refine ⟨?_, ?_, ?_⟩
  · rw [(t3 _).1, if_neg (fun h => d02 h.1.symm), (t2 _).1, if_neg (fun h => d01 h.1.symm),
      (t1 _).1, if_pos ⟨rfl, by rw [hlen]; exact h0⟩, htan]
  · rw [(t3 _).1, if_neg (fun h => d12 h.1.symm), (t2 _).1,
      if_pos ⟨rfl, by rw [l1]; exact h1⟩, (t1 _).1, if_neg (fun h => d01 h.1), htan]
  · rw [(t3 _).1, if_pos ⟨rfl, by rw [l2]; exact h2⟩, (t2 _).1, if_neg (fun h => d12 h.1),
      (t1 _).1, if_neg (fun h => d02 h.1), htan]

/-- For a non-zero UV determinant the vector that `jacobian_tangent` gives is
the one `T` for which some `B` satisfies `e1 = du1 * T + dv1 * B` and
`e2 = du2 * T + dv2 * B`. -/
theorem jacobian_tangent_iff (e1 e2 : vec3 F) (uv1 uv2 : vec2 F) (T : vec3 F)
    (hdet : uv1.x * uv2.y - uv2.x * uv1.y ≠ 0) :
    (∃ B : vec3 F,
        e1 = ⟨uv1.x * T.x + uv1.y * B.x, uv1.x * T.y + uv1.y * B.y, uv1.x * T.z + uv1.y * B.z⟩ ∧
        e2 = ⟨uv2.x * T.x + uv2.y * B.x, uv2.x * T.y + uv2.y * B.y, uv2.x * T.z + uv2.y * B.z⟩) ↔
      T = jacobian_tangent e1 e2 uv1 uv2 := by
  constructor
  · rintro ⟨B, h1, h2⟩
    unfold jacobian_tangent
    rw [h1, h2]
    obtain ⟨tx, ty, tz⟩ := T
    simp only [vec3.mk.injEq]
    refine ⟨?_, ?_, ?_⟩ <;> field_simp <;> ring
  · intro h
    refine ⟨⟨(uv1.x * e2.x - uv2.x * e1.x) / (uv1.x * uv2.y - uv2.x * uv1.y),
      (uv1.x * e2.y - uv2.x * e1.y) / (uv1.x * uv2.y - uv2.x * uv1.y),
      (uv1.x * e2.z - uv2.x * e1.z) / (uv1.x * uv2.y - uv2.x * uv1.y)⟩, ?_, ?_⟩
    · rw [h]
      unfold jacobian_tangent
      obtain ⟨x, y, z⟩ := e1
      simp only [vec3.mk.injEq]
      refine ⟨?_, ?_, ?_⟩ <;> field_simp <;> ring
    · rw [h]
      unfold jacobian_tangent
      obtain ⟨x, y, z⟩ := e2
      simp only [vec3.mk.injEq]
      refine ⟨?_, ?_, ?_⟩ <;> field_simp <;> ring

/-! ## Rotation by unit quaternions and the bind-pose normals -/

theorem exact_sqrt_one (M : FloatLib F)
    (hs : ∀ x, 0 ≤ x → 0 ≤ M.sqrtf x ∧ M.sqrtf x * M.sqrtf x = x) : M.sqrtf 1 = 1 := by
  obtain ⟨h1, h2⟩ := hs 1 zero_le_one
  nlinarith

theorem exact_sqrt_zero (M : FloatLib F)
    (hs : ∀ x, 0 ≤ x → 0 ≤ M.sqrtf x ∧ M.sqrtf x * M.sqrtf x = x) : M.sqrtf 0 = 0 := by
  obtain ⟨_, h2⟩ := hs 0 (le_refl 0)
  exact mul_self_eq_zero.mp h2

theorem vec3_dot_nonneg (v : vec3 F) : 0 ≤ vec3_dot v := by
  unfold vec3_dot
  nlinarith [mul_self_nonneg v.x, mul_self_nonneg v.y, mul_self_nonneg v.z]

theorem vec3_dot_eq_zero (v : vec3 F) (h : vec3_dot v = 0) : v = ⟨0, 0, 0⟩ := by
  unfold vec3_dot at h
  have hx : v.x * v.x = 0 := by
    nlinarith [mul_self_nonneg v.x, mul_self_nonneg v.y, mul_self_nonneg v.z]
  have hy : v.y * v.y = 0 := by
    nlinarith [mul_self_nonneg v.x, mul_self_nonneg v.y, mul_self_nonneg v.z]
  have hz : v.z * v.z = 0 := by
    nlinarith [mul_self_nonneg v.x, mul_self_nonneg v.y, mul_self_nonneg v.z]
  obtain ⟨x, y, z⟩ := v
  simp only [vec3.mk.injEq]
  exact ⟨mul_self_eq_zero.mp hx, mul_self_eq_zero.mp hy, mul_self_eq_zero.mp hz⟩

/-- A vector normalised in place is a unit vector or the zero vector. -/
theorem normalize_unit_or_zero (M : FloatLib F)
    (hs : ∀ x, 0 ≤ x → 0 ≤ M.sqrtf x ∧ M.sqrtf x * M.sqrtf x = x) (v : vec3 F) :
    vec3_dot (vec3_normalize M v v) = 1 ∨ vec3_normalize M v v = ⟨0, 0, 0⟩ := by
  obtain ⟨_, h2⟩ := hs (vec3_dot v) (vec3_dot_nonneg v)
  unfold vec3_normalize vec3_length
  simp only []
  by_cases hl : M.sqrtf (vec3_dot v) ≠ 0
  · rw [if_pos hl]
    left
    have e : vec3_dot v = M.sqrtf (vec3_dot v) * M.sqrtf (vec3_dot v) := h2.symm
    generalize M.sqrtf (vec3_dot v) = l at hl e
    unfold vec3_dot at e ⊢
    simp only []
    field_simp
    linear_combination e
  · rw [if_neg hl]
    right
    have hl0 : M.sqrtf (vec3_dot v) = 0 := not_not.mp hl
    rw [hl0] at h2
    exact vec3_dot_eq_zero v (by linarith)

/-- Normalising a unit vector or the zero vector gives it back. -/
theorem normalize_fixed (M : FloatLib F)
    (hs : ∀ x, 0 ≤ x → 0 ≤ M.sqrtf x ∧ M.sqrtf x * M.sqrtf x = x) (v : vec3 F)
    (hv : vec3_dot v = 1 ∨ v = ⟨0, 0, 0⟩) : vec3_normalize M v v = v := by
  unfold vec3_normalize vec3_length
  simp only []
  rcases hv with h | h
  · rw [h, exact_sqrt_one M hs, if_pos one_ne_zero]
    simp
  · have hd : vec3_dot v = 0 := by rw [h]; simp [vec3_dot]
    rw [hd, exact_sqrt_zero M hs]
    simp

/-- Rotation by a unit quaternion: the product `q * v * conj q`. -/
theorem rotate_unit (M : FloatLib F) (h1 : M.sqrtf 1 = 1) (v : vec3 F) (q : vec4 F)
    (hq : vec4_dot q = 1) :
    vec3_rotate_vec4 M v q =
      ⟨(vec4_multiply_vec4 (vec4_multiply_vec3 q v) (vec4_conjugate q)).x,
       (vec4_multiply_vec4 (vec4_multiply_vec3 q v) (vec4_conjugate q)).y,
       (vec4_multiply_vec4 (vec4_multiply_vec3 q v) (vec4_conjugate q)).z⟩ := by
  have hc : vec4_dot (vec4_conjugate q) = 1 := by
    rw [← hq]
    unfold vec4_dot vec4_conjugate
    ring
  unfold vec3_rotate_vec4 vec4_normalize vec4_length
  simp only []
  rw [hc, h1, if_pos one_ne_zero]
  simp

theorem conjugate_unit (q : vec4 F) (hq : vec4_dot q = 1) : vec4_dot (vec4_conjugate q) = 1 := by
  rw [← hq]
  unfold vec4_dot vec4_conjugate
  ring

/-- Rotation by a unit quaternion keeps the squared length. -/
theorem rotate_unit_dot (M : FloatLib F) (h1 : M.sqrtf 1 = 1) (v : vec3 F) (q : vec4 F)
    (hq : vec4_dot q = 1) : vec3_dot (vec3_rotate_vec4 M v q) = vec3_dot v := by
  rw [rotate_unit M h1 v q hq]
  unfold vec4_dot at hq
  unfold vec3_dot vec4_multiply_vec4 vec4_multiply_vec3 vec4_conjugate
  simp only []
  linear_combination
    ((q.x * q.x + q.y * q.y + q.z * q.z + q.w * q.w + 1) *
      (v.x * v.x + v.y * v.y + v.z * v.z)) * hq

/-- Rotating by the conjugate of a unit quaternion and then by the quaternion
gives the vector back. -/
theorem rotate_conjugate_rotate (M : FloatLib F) (h1 : M.sqrtf 1 = 1) (v : vec3 F) (q : vec4 F)
    (hq : vec4_dot q = 1) :
    vec3_rotate_vec4 M (vec3_rotate_vec4 M v (vec4_conjugate q)) q = v := by
  rw [rotate_unit M h1 _ q hq, rotate_unit M h1 v _ (conjugate_unit q hq)]
  unfold vec4_dot at hq
  obtain ⟨x, y, z⟩ := v
  unfold vec4_multiply_vec4 vec4_multiply_vec3 vec4_conjugate
  simp only [vec3.mk.injEq]
  refine ⟨?_, ?_, ?_⟩
  · linear_combination ((q.x * q.x + q.y * q.y + q.z * q.z + q.w * q.w + 1) * x) * hq
  · linear_combination ((q.x * q.x + q.y * q.y + q.z * q.z + q.w * q.w + 1) * y) * hq
  · linear_combination ((q.x * q.x + q.y * q.y + q.z * q.z + q.w * q.w + 1) * z) * hq

/-- The round trip of the preprocessor and the pose evaluator on a unit or
zero vector. -/
theorem bind_round_trip (M : FloatLib F)
    (hs : ∀ x, 0 ≤ x → 0 ≤ M.sqrtf x ∧ M.sqrtf x * M.sqrtf x = x) (n : vec3 F)
    (hn : vec3_dot n = 1 ∨ n = ⟨0, 0, 0⟩) (q : vec4 F) (hq : vec4_dot q = 1) :
    vec3_rotate_vec4 M
        (vec3_normalize M
          (vec3_add ⟨0, 0, 0⟩ (vec3_rotate_vec4 M n (vec4_conjugate q)))
          (vec3_add ⟨0, 0, 0⟩ (vec3_rotate_vec4 M n (vec4_conjugate q)))) q = n := by
  have h1 := exact_sqrt_one M hs
  have ha : vec3_add ⟨0, 0, 0⟩ (vec3_rotate_vec4 M n (vec4_conjugate q)) =
      vec3_rotate_vec4 M n (vec4_conjugate q) := by
    unfold vec3_add
    simp
  rw [ha]
  have hu : vec3_dot (vec3_rotate_vec4 M n (vec4_conjugate q)) = 1 ∨
      vec3_rotate_vec4 M n (vec4_conjugate q) = ⟨0, 0, 0⟩ := by
    have hd := rotate_unit_dot M h1 n _ (conjugate_unit q hq)
    rcases hn with h | h
    · left; rw [hd, h]
    · right
      apply vec3_dot_eq_zero
      rw [hd, h]
      simp [vec3_dot]
  rw [normalize_fixed M hs _ hu]
  exact rotate_conjugate_rotate M h1 n q hq

theorem whileIdx_all_miss {σ β : Type} (P : σ → Prop) (val : σ → β) (step : Nat → σ → σ)
    (n : Nat) (hP : ∀ i s, P s → P (step i s))
    (hmiss : ∀ i, i < n → ∀ s, P s → val (step i s) = val s) (s : σ) (hs : P s) :
    val (whileIdx n step s) = val s := by
  induction n with
  | zero => rfl
  | succ n ih =>
    rw [whileIdx_succ, hmiss n (by omega) _ (whileIdx_inv P step hP n s hs)]
    exact ih (fun i hi => hmiss i (by omega))

/-- A loop in which exactly one iteration changes a value. -/
theorem whileIdx_single_hit {σ β : Type} (P : σ → Prop) (val : σ → β) (h : β → β)
    (step : Nat → σ → σ) (n j0 : Nat) (hj0 : j0 < n) (hP : ∀ i s, P s → P (step i s))
    (hmiss : ∀ i, i < n → i ≠ j0 → ∀ s, P s → val (step i s) = val s)
    (hhit : ∀ s, P s → val (step j0 s) = h (val s)) (s : σ) (hs : P s) :
    val (whileIdx n step s) = h (val s) := by
  induction n with
  | zero => omega
  | succ n ih =>
    rw [whileIdx_succ]
    by_cases hjn : j0 = n
    · subst hjn
      rw [hhit _ (whileIdx_inv P step hP j0 s hs),
        whileIdx_all_miss P val step j0 hP (fun i hi => hmiss i (by omega) (by omega)) s hs]
    · rw [hmiss n (by omega) (fun e => hjn e.symm) _ (whileIdx_inv P step hP n s hs)]
      exact ih (by omega) (fun i hi => hmiss i (by omega))

/-- A loop whose body writes entry `i` twice. -/
theorem whileIdx_set2_rd {α : Type} [Inhabited α] (f g : α → α) (n : Nat) (xs : List α)
    (j : Nat) :
    rd (whileIdx n (fun i xs => (xs.set i (f (rd xs i))).set i
        (g (rd (xs.set i (f (rd xs i))) i))) xs) j =
      if j < n ∧ j < xs.length then g (f (rd xs j)) else rd xs j := by
  have e : (fun i (xs : List α) => (xs.set i (f (rd xs i))).set i
      (g (rd (xs.set i (f (rd xs i))) i))) = fun i xs => xs.set i (g (f (rd xs i))) := by
    funext i xs
    exact set_set_rd xs i _ g
  rw [e]
  exact whileIdx_set_rd (fun _ a => g (f a)) n xs j

theorem bind_weight_rd (M : FloatLib F) (md5 : MD5 F) (v : MD5VERTEX F) (k : Nat)
    (ws : List (MD5WEIGHT F)) (p : Nat) :
    rd (MD5_bind_weight M md5 v k ws) p =
        (if v.start + k = p ∧ v.start + k < ws.length then
          { rd ws p with
            normal := vec3_add (rd ws p).normal
              (vec3_rotate_vec4 M v.normal (vec4_conjugate (rdI md5.bind_pose (rd ws p).joint).rotation))
            tangent := vec3_add (rd ws p).tangent
              (vec3_rotate_vec4 M v.tangent
                (vec4_conjugate (rdI md5.bind_pose (rd ws p).joint).rotation)) }
        else rd ws p) ∧
      (MD5_bind_weight M md5 v k ws).length = ws.length := by
  unfold MD5_bind_weight
  simp only []
  rw [rd_set, List.length_set]
  refine ⟨?_, rfl⟩
  by_cases h : v.start + k = p ∧ v.start + k < ws.length
  · rw [if_pos h, if_pos h, h.1]
  · rw [if_neg h, if_neg h]

/-- The weight of a vertex after the preprocessor, when no other vertex refers
to it. -/
theorem bind_weights_own (M : FloatLib F) (md5 : MD5 F) (m : MD5MESH F)
    (vs : List (MD5VERTEX F)) (j k : Nat) (hj : j < m.n_vertex) (hk : k < (rd vs j).count)
    (hp : (rd vs j).start + k < m.n_weight) (hpl : (rd vs j).start + k < m.md5weight.length)
    (hown : ∀ j1 k1, j1 < m.n_vertex → k1 < (rd vs j1).count →
      (rd vs j1).start + k1 = (rd vs j).start + k → j1 = j) :
    (rd (MD5_bind_weights M md5 m vs) ((rd vs j).start + k)).joint =
        (rd m.md5weight ((rd vs j).start + k)).joint ∧
      (rd (MD5_bind_weights M md5 m vs) ((rd vs j).start + k)).bias =
        (rd m.md5weight ((rd vs j).start + k)).bias ∧
      (rd (MD5_bind_weights M md5 m vs) ((rd vs j).start + k)).normal =
        vec3_normalize M
          (vec3_add ⟨0, 0, 0⟩ (vec3_rotate_vec4 M (rd vs j).normal
            (vec4_conjugate
              (rdI md5.bind_pose (rd m.md5weight ((rd vs j).start + k)).joint).rotation)))
          (vec3_add ⟨0, 0, 0⟩ (vec3_rotate_vec4 M (rd vs j).normal
            (vec4_conjugate
              (rdI md5.bind_pose (rd m.md5weight ((rd vs j).start + k)).joint).rotation))) ∧
      (rd (MD5_bind_weights M md5 m vs) ((rd vs j).start + k)).tangent =
        vec3_normalize M
          (vec3_add ⟨0, 0, 0⟩ (vec3_rotate_vec4 M (rd vs j).tangent
            (vec4_conjugate
              (rdI md5.bind_pose (rd m.md5weight ((rd vs j).start + k)).joint).rotation)))
          (vec3_add ⟨0, 0, 0⟩ (vec3_rotate_vec4 M (rd vs j).tangent
            (vec4_conjugate
              (rdI md5.bind_pose (rd m.md5weight ((rd vs j).start + k)).joint).rotation))) := by
  generalize hpe : (rd vs j).start + k = p at hp hpl hown ⊢
  have e : MD5_bind_weights M md5 m vs = whileIdx m.n_weight
      (fun i xs => (xs.set i ((fun w : MD5WEIGHT F =>
          { w with normal := vec3_normalize M w.normal w.normal }) (rd xs i))).set i
        ((fun w : MD5WEIGHT F => { w with tangent := vec3_normalize M w.tangent w.tangent })
          (rd (xs.set i ((fun w : MD5WEIGHT F =>
            { w with normal := vec3_normalize M w.normal w.normal }) (rd xs i))) i)))
      (whileIdx m.n_vertex
        (fun j1 ws => whileIdx (rd vs j1).count (MD5_bind_weight M md5 (rd vs j1)) ws)
        (whileIdx m.n_weight
          (fun i (ws : List (MD5WEIGHT F)) =>
            ws.set i { rd ws i with normal := ⟨0, 0, 0⟩, tangent := ⟨0, 0, 0⟩ })
          m.md5weight)) := rfl
  rw [e]
  -- first loop: the weights are cleared
  have l1 := whileIdx_set_rd
    (fun (_ : Nat) (w : MD5WEIGHT F) => { w with normal := ⟨0, 0, 0⟩, tangent := ⟨0, 0, 0⟩ })
    m.n_weight m.md5weight p
  rw [if_pos ⟨hp, hpl⟩] at l1
  have len1 := whileIdx_set_length
    (fun (i : Nat) (ws : List (MD5WEIGHT F)) =>
      ({ rd ws i with normal := ⟨0, 0, 0⟩, tangent := ⟨0, 0, 0⟩ } : MD5WEIGHT F))
    m.n_weight m.md5weight
  generalize whileIdx m.n_weight
    (fun i (ws : List (MD5WEIGHT F)) =>
      ws.set i { rd ws i with normal := ⟨0, 0, 0⟩, tangent := ⟨0, 0, 0⟩ }) m.md5weight = ws1
    at l1 len1
  -- second loop: exactly one iteration writes entry `p`
  have hP : ∀ (v : MD5VERTEX F) (k1 : Nat) (ws : List (MD5WEIGHT F)),
      ws.length = m.md5weight.length →
      (MD5_bind_weight M md5 v k1 ws).length = m.md5weight.length := by
    intro v k1 ws h
    rw [(bind_weight_rd M md5 v k1 ws 0).2, h]
  have hPin : ∀ (v : MD5VERTEX F) (c : Nat) (ws : List (MD5WEIGHT F)),
      ws.length = m.md5weight.length →
      (whileIdx c (MD5_bind_weight M md5 v) ws).length = m.md5weight.length := by
    intro v c ws h
    exact whileIdx_inv (fun ws : List (MD5WEIGHT F) => ws.length = m.md5weight.length)
      (MD5_bind_weight M md5 v) (fun i s hs => hP v i s hs) c ws h
  obtain ⟨hf, hfe⟩ : ∃ hf : MD5WEIGHT F → MD5WEIGHT F, hf = fun w =>
      { w with
        normal := vec3_add w.normal
          (vec3_rotate_vec4 M (rd vs j).normal
            (vec4_conjugate (rdI md5.bind_pose w.joint).rotation))
        tangent := vec3_add w.tangent
          (vec3_rotate_vec4 M (rd vs j).tangent
            (vec4_conjugate (rdI md5.bind_pose w.joint).rotation)) } := ⟨_, rfl⟩
  have hit : ∀ ws : List (MD5WEIGHT F), ws.length = m.md5weight.length →
      rd (whileIdx (rd vs j).count (MD5_bind_weight M md5 (rd vs j)) ws) p = hf (rd ws p) := by
    intro ws hws
    refine whileIdx_single_hit (fun ws : List (MD5WEIGHT F) => ws.length = m.md5weight.length)
      (fun ws => rd ws p) hf (MD5_bind_weight M md5 (rd vs j)) (rd vs j).count k hk
      (fun i s hs => hP _ i s hs) ?_ ?_ ws hws
    · intro k1 hk1 hne s hs
      show rd (MD5_bind_weight M md5 (rd vs j) k1 s) p = rd s p
      rw [(bind_weight_rd M md5 (rd vs j) k1 s p).1, if_neg (fun h => hne (by omega))]
    · intro s hs
      show rd (MD5_bind_weight M md5 (rd vs j) k s) p = hf (rd s p)
      rw [(bind_weight_rd M md5 (rd vs j) k s p).1, if_pos ⟨hpe, by rw [hpe, hs]; exact hpl⟩,
        hfe]
  have miss : ∀ j1, j1 < m.n_vertex → j1 ≠ j → ∀ ws : List (MD5WEIGHT F),
      ws.length = m.md5weight.length →
      rd (whileIdx (rd vs j1).count (MD5_bind_weight M md5 (rd vs j1)) ws) p = rd ws p := by
    intro j1 hj1 hne ws hws
    refine whileIdx_all_miss (fun ws : List (MD5WEIGHT F) => ws.length = m.md5weight.length)
      (fun ws => rd ws p) (MD5_bind_weight M md5 (rd vs j1)) (rd vs j1).count
      (fun i s hs => hP _ i s hs) ?_ ws hws
    intro k1 hk1 s hs
    show rd (MD5_bind_weight M md5 (rd vs j1) k1 s) p = rd s p
    rw [(bind_weight_rd M md5 (rd vs j1) k1 s p).1,
      if_neg (fun h => hne (hown j1 k1 hj1 hk1 h.1))]
  have l2 : rd (whileIdx m.n_vertex
      (fun j1 ws => whileIdx (rd vs j1).count (MD5_bind_weight M md5 (rd vs j1)) ws) ws1) p =
      hf (rd ws1 p) :=
    whileIdx_single_hit (fun ws : List (MD5WEIGHT F) => ws.length = m.md5weight.length)
      (fun ws => rd ws p) hf
      (fun j1 ws => whileIdx (rd vs j1).count (MD5_bind_weight M md5 (rd vs j1)) ws)
      m.n_vertex j hj (fun j1 ws h => hPin _ _ ws h) miss hit ws1 len1
  have len2 : (whileIdx m.n_vertex
      (fun j1 ws => whileIdx (rd vs j1).count (MD5_bind_weight M md5 (rd vs j1)) ws) ws1).length =
      m.md5weight.length :=
    whileIdx_inv (fun ws : List (MD5WEIGHT F) => ws.length = m.md5weight.length)
      _ (fun j1 ws h => hPin _ _ ws h) m.n_vertex ws1 len1
  generalize whileIdx m.n_vertex
    (fun j1 ws => whileIdx (rd vs j1).count (MD5_bind_weight M md5 (rd vs j1)) ws) ws1 = ws2
    at l2 len2 ⊢
  -- third loop: the weights are normalised
  have l3 := whileIdx_set2_rd
    (fun w : MD5WEIGHT F => { w with normal := vec3_normalize M w.normal w.normal })
    (fun w : MD5WEIGHT F => { w with tangent := vec3_normalize M w.tangent w.tangent })
    m.n_weight ws2 p
  rw [if_pos ⟨hp, by rw [len2]; exact hpl⟩] at l3
  rw [l3, l2, l1, hfe]
  exact ⟨rfl, rfl, rfl, rfl⟩

/-- After the first three loops of the preprocessor the normal and the
tangent of a vertex are unit vectors or zero. -/
theorem bind_vertices_unit (M : FloatLib F)
    (hs : ∀ x, 0 ≤ x → 0 ≤ M.sqrtf x ∧ M.sqrtf x * M.sqrtf x = x) (m : MD5MESH F) (j : Nat)
    (hj : j < m.n_vertex) (hjl : j < m.md5vertex.length) :
    (vec3_dot (rd (MD5_bind_vertices M m) j).normal = 1 ∨
        (rd (MD5_bind_vertices M m) j).normal = ⟨0, 0, 0⟩) ∧
      (vec3_dot (rd (MD5_bind_vertices M m) j).tangent = 1 ∨
        (rd (MD5_bind_vertices M m) j).tangent = ⟨0, 0, 0⟩) := by
  have e : MD5_bind_vertices M m = whileIdx m.n_vertex
      (fun i xs => (xs.set i ((fun v : MD5VERTEX F =>
          { v with normal := vec3_normalize M v.normal v.normal }) (rd xs i))).set i
        ((fun v : MD5VERTEX F => { v with tangent := vec3_normalize M v.tangent v.tangent })
          (rd (xs.set i ((fun v : MD5VERTEX F =>
            { v with normal := vec3_normalize M v.normal v.normal }) (rd xs i))) i)))
      (whileIdx m.n_triangle
        (fun j vs => MD5_bind_triangle M m.vertex_data.vertex_array (rd m.md5triangle j) vs)
        (whileIdx m.n_vertex
          (fun j (vs : List (MD5VERTEX F)) =>
            vs.set j { rd vs j with normal := ⟨0, 0, 0⟩, tangent := ⟨0, 0, 0⟩ })
          m.md5vertex)) := rfl
  have len1 := whileIdx_set_length
    (fun (i : Nat) (vs : List (MD5VERTEX F)) =>
      ({ rd vs i with normal := ⟨0, 0, 0⟩, tangent := ⟨0, 0, 0⟩ } : MD5VERTEX F))
    m.n_vertex m.md5vertex
  generalize whileIdx m.n_vertex
    (fun j (vs : List (MD5VERTEX F)) =>
      vs.set j { rd vs j with normal := ⟨0, 0, 0⟩, tangent := ⟨0, 0, 0⟩ }) m.md5vertex = vs1
    at e len1
  have len2 : (whileIdx m.n_triangle
      (fun j vs => MD5_bind_triangle M m.vertex_data.vertex_array (rd m.md5triangle j) vs)
      vs1).length = m.md5vertex.length :=
    whileIdx_inv (fun vs : List (MD5VERTEX F) => vs.length = m.md5vertex.length) _
      (fun i s hs1 => by
        show (MD5_bind_triangle M m.vertex_data.vertex_array (rd m.md5triangle i) s).length = _
        rw [(bind_triangle_skin M m.vertex_data.vertex_array (rd m.md5triangle i) s s
          ⟨same_skin_vertices_refl s, rfl⟩).2]
        exact hs1)
      m.n_triangle vs1 len1
  generalize whileIdx m.n_triangle
    (fun j vs => MD5_bind_triangle M m.vertex_data.vertex_array (rd m.md5triangle j) vs)
    vs1 = vs2 at e len2
  have l3 := whileIdx_set2_rd
    (fun v : MD5VERTEX F => { v with normal := vec3_normalize M v.normal v.normal })
    (fun v : MD5VERTEX F => { v with tangent := vec3_normalize M v.tangent v.tangent })
    m.n_vertex vs2 j
  rw [if_pos ⟨hj, by rw [len2]; exact hjl⟩] at l3
  rw [e, l3]
  exact ⟨normalize_unit_or_zero M hs _, normalize_unit_or_zero M hs _⟩

theorem vec3_sum_bias (n : Nat) (b : Nat → F) (d : vec3 F) :
    vec3_sum n (fun k => vec3_bias (b k) d) =
      vec3_bias (Finset.sum (Finset.range n) b) d := by
  unfold vec3_sum vec3_bias
  simp only [Finset.sum_mul]

theorem bind_mesh_congr (M : FloatLib F) (md5a md5b : MD5 F) (m : MD5MESH F)
    (h : md5a.bind_pose = md5b.bind_pose) : MD5_bind_mesh M md5a m = MD5_bind_mesh M md5b m := by
  unfold MD5_bind_mesh MD5_bind_weights MD5_bind_weight
  simp only [h]

/-- The mesh `i` after the preprocessor. -/
theorem preprocess_md5mesh (M : FloatLib F) (md5 : MD5 F) (i : Nat) :
    rd (MD5_build_bind_pose_weighted_normals_tangents M md5).md5mesh i =
      if i < md5.n_mesh ∧ i < md5.md5mesh.length then MD5_bind_mesh M md5 (rd md5.md5mesh i)
      else rd md5.md5mesh i := by
  unfold MD5_build_bind_pose_weighted_normals_tangents
  rw [whileIdx_congr_inv (fun s : MD5 F => s.bind_pose = md5.bind_pose)
    (fun i (s : MD5 F) =>
      { s with md5mesh := s.md5mesh.set i (MD5_bind_mesh M s (rd s.md5mesh i)) })
    (fun i (s : MD5 F) =>
      { s with md5mesh := s.md5mesh.set i (MD5_bind_mesh M md5 (rd s.md5mesh i)) })
    (fun i s hs1 => hs1)
    (fun i s hs1 => by
      show ({ s with md5mesh := s.md5mesh.set i (MD5_bind_mesh M s (rd s.md5mesh i)) } : MD5 F) = _
      rw [bind_mesh_congr M s md5 _ hs1])
    md5.n_mesh md5 rfl,
    whileIdx_proj (fun s : MD5 F => s.md5mesh) _
      (fun i xs => xs.set i (MD5_bind_mesh M md5 (rd xs i))) (fun i s => rfl)]
  exact whileIdx_set_rd (fun _ a => MD5_bind_mesh M md5 a) md5.n_mesh md5.md5mesh i

/-- The normals and tangents that `MD5_set_pose_mesh` with the bind pose gives
to a preprocessed mesh, for a vertex whose weights no other vertex refers to
and whose joints have unit rotations. -/
theorem bind_mesh_set_pose (M : FloatLib F)
    (hs : ∀ x, 0 ≤ x → 0 ≤ M.sqrtf x ∧ M.sqrtf x * M.sqrtf x = x) (md5 : MD5 F) (m : MD5MESH F)
    (j : Nat) (hj : j < m.n_vertex) (hjl : j < m.md5vertex.length)
    (hna : m.vertex_data.normal_array.length = m.n_vertex)
    (hta : m.vertex_data.tangent_array.length = m.n_vertex)
    (hw : (rd m.md5vertex j).start + (rd m.md5vertex j).count ≤ m.n_weight)
    (hwl : m.n_weight ≤ m.md5weight.length)
    (hown : ∀ j1 k1 k, j1 < m.n_vertex → k1 < (rd m.md5vertex j1).count →
      k < (rd m.md5vertex j).count →
      (rd m.md5vertex j1).start + k1 = (rd m.md5vertex j).start + k → j1 = j)
    (hunit : ∀ k, k < (rd m.md5vertex j).count →
      vec4_dot (rdI md5.bind_pose
        (rd m.md5weight ((rd m.md5vertex j).start + k)).joint).rotation = 1) :
    rd (MD5_set_pose_mesh M md5.bind_pose (MD5_bind_mesh M md5 m)).vertex_data.normal_array j =
        vec3_bias
          (Finset.sum (Finset.range (rd m.md5vertex j).count)
            (fun k => (rd m.md5weight ((rd m.md5vertex j).start + k)).bias))
          (rd (MD5_bind_mesh M md5 m).md5vertex j).normal ∧
      rd (MD5_set_pose_mesh M md5.bind_pose (MD5_bind_mesh M md5 m)).vertex_data.tangent_array j =
        vec3_bias
          (Finset.sum (Finset.range (rd m.md5vertex j).count)
            (fun k => (rd m.md5weight ((rd m.md5vertex j).start + k)).bias))
          (rd (MD5_bind_mesh M md5 m).md5vertex j).tangent := by
  obtain ⟨hskin, _⟩ := bind_vertices_skin M m
  obtain ⟨hnu, htu⟩ := bind_vertices_unit M hs m j hj hjl
  have hstart : (rd (MD5_bind_vertices M m) j).start = (rd m.md5vertex j).start := (hskin j).2.1
  have hcount : (rd (MD5_bind_vertices M m) j).count = (rd m.md5vertex j).count := (hskin j).2.2
  have hweight : ∀ k, k < (rd m.md5vertex j).count →
      skin_normal M (MD5_bind_mesh M md5 m) md5.bind_pose (rd (MD5_bind_vertices M m) j) k =
          vec3_bias (rd m.md5weight ((rd m.md5vertex j).start + k)).bias
            (rd (MD5_bind_vertices M m) j).normal ∧
        skin_tangent M (MD5_bind_mesh M md5 m) md5.bind_pose (rd (MD5_bind_vertices M m) j) k =
          vec3_bias (rd m.md5weight ((rd m.md5vertex j).start + k)).bias
            (rd (MD5_bind_vertices M m) j).tangent := by
    intro k hk
    obtain ⟨w1, w2, w3, w4⟩ := bind_weights_own M md5 m (MD5_bind_vertices M m) j k hj
      (by rw [hcount]; exact hk) (by rw [hstart]; omega) (by rw [hstart]; omega)
      (by
        intro j1 k1 hj1 hk1 he
        rw [(hskin j1).2.2] at hk1
        rw [(hskin j1).2.1, hstart] at he
        exact hown j1 k1 k hj1 hk1 hk he)
    rw [hstart] at w1 w2 w3 w4
    have hq := hunit k hk
    unfold skin_normal skin_tangent
    simp only []
    have em : (MD5_bind_mesh M md5 m).md5weight =
        MD5_bind_weights M md5 m (MD5_bind_vertices M m) := rfl
    rw [em, hstart, w1, w2, w3, w4, bind_round_trip M hs _ hnu _ hq,
      bind_round_trip M hs _ htu _ hq]
    exact ⟨rfl, rfl⟩
  have ev : (MD5_bind_mesh M md5 m).md5vertex = MD5_bind_vertices M m := rfl
  constructor
  · rw [set_pose_mesh_normal M md5.bind_pose (MD5_bind_mesh M md5 m) hna j hj, ev, hcount,
      vec3_sum_congr _ _ _ (fun k hk => (hweight k hk).1), vec3_sum_bias]
  · rw [set_pose_mesh_tangent M md5.bind_pose (MD5_bind_mesh M md5 m) hta j hj, ev, hcount,
      vec3_sum_congr _ _ _ (fun k hk => (hweight k hk).2), vec3_sum_bias]

/-! ## The quaternion operations against the quaternion algebra -/

/-- The product `vec4_multiply_vec4` is the Hamilton product, first argument on
the left. -/
theorem multiply_hamilton (a b : vec4 F) : vec4_multiply_vec4 a b = hamilton_product a b := by
  unfold vec4_multiply_vec4 hamilton_product vec4_quaternion
  simp only [Quaternion.mul_re, Quaternion.mul_imI, Quaternion.mul_imJ, Quaternion.mul_imK,
    vec4.mk.injEq]
  refine ⟨?_, ?_, ?_, trivial⟩ <;> ring

/-- The normalisation `vec4_normalize` scales by `1 / |v|`, by 0 at length 0. -/
theorem normalize_unit_factor (M : FloatLib F) (v : vec4 F) :
    vec4_normalize M v = vec4_bias (unit_factor M v) v := by
  unfold vec4_normalize vec4_length vec4_bias unit_factor
  simp only [vec4.mk.injEq]
  exact ⟨mul_comm _ _, mul_comm _ _, mul_comm _ _, mul_comm _ _⟩

/-- The rotation `vec3_rotate_vec4` is `q * v * conj q` scaled by `1 / |q|`. -/
theorem rotate_quaternion (M : FloatLib F) (v : vec3 F) (q : vec4 F) :
    vec3_rotate_vec4 M v q = vec3_bias (unit_factor M q) (quaternion_rotate q v) := by
  have hc : vec4_dot (vec4_conjugate q) = vec4_dot q := by
    unfold vec4_dot vec4_conjugate
    ring
  unfold vec3_rotate_vec4 vec4_normalize vec4_length
  simp only []
  rw [hc]
  unfold unit_factor
  generalize (if M.sqrtf (vec4_dot q) ≠ 0 then 1 / M.sqrtf (vec4_dot q) else 0) = m
  unfold vec3_bias quaternion_rotate vec4_multiply_vec4 vec4_multiply_vec3 vec4_conjugate
    vec4_quaternion vec3_quaternion
  simp only [Quaternion.mul_re, Quaternion.mul_imI, Quaternion.mul_imJ, Quaternion.mul_imK,
    Quaternion.star_re, Quaternion.star_imI, Quaternion.star_imJ, Quaternion.star_imK,
    vec3.mk.injEq]
  refine ⟨?_, ?_, ?_⟩ <;> ring

/-- The factor of a unit quaternion is 1 when the square root of 1 is 1. -/
theorem unit_factor_one (M : FloatLib F) (q : vec4 F) (hq : vec4_dot q = 1)
    (h1 : M.sqrtf 1 = 1) : unit_factor M q = 1 := by
  unfold unit_factor
  rw [hq, h1]
  simp

/-- Scaling by 1 changes nothing. -/
theorem vec3_bias_one (v : vec3 F) : vec3_bias 1 v = v := by
  unfold vec3_bias
  simp

/-- The rotation `vec3_rotate_vec4` by a unit quaternion is `q * v * conj q`. -/
theorem rotate_quaternion_unit (M : FloatLib F) (v : vec3 F) (q : vec4 F)
    (hq : vec4_dot q = 1) (h1 : M.sqrtf 1 = 1) :
    vec3_rotate_vec4 M v q = quaternion_rotate q v := by
  rw [rotate_quaternion, unit_factor_one M q hq h1, vec3_bias_one]

/-- The square root of the rational library at 16/25. -/
theorem rational_sqrt_sixteen : rational_lib.sqrtf (16 / 25) = 4 / 5 := by
  have e : ((16 : ℚ) / 25).num = 16 := by
    have h := @Rat.num_div_eq_of_coprime 16 25 (by norm_num) (by norm_num)
    simpa using h
  have d : ((16 : ℚ) / 25).den = 25 := by
    have h := @Rat.den_div_eq_of_coprime 16 25 (by norm_num) (by norm_num)
    have h2 : ((((16 : ℚ) / 25).den : ℕ) : ℤ) = 25 := by simpa using h
    exact_mod_cast h2
  have a : Nat.sqrt 16 = 4 := Nat.sqrt_eq 4
  have b : Nat.sqrt 25 = 5 := Nat.sqrt_eq 5
  show ((Nat.sqrt ((16 : ℚ) / 25).num.toNat : ℚ)) / (Nat.sqrt ((16 : ℚ) / 25).den : ℚ) = 4 / 5
  rw [e, d]
  show ((Nat.sqrt 16 : ℚ)) / (Nat.sqrt 25 : ℚ) = 4 / 5
  rw [a, b]
  norm_num

/-! ## Runs of a frame-stepped action with waiting and advancing ticks -/

theorem draw_action_steps_cons (M : FloatLib F) (dt : F) (dts : List F) (md5 : MD5 F) :
    MD5_draw_action_steps M (dt :: dts) md5 =
      MD5_draw_action_steps M dts (MD5_draw_action M md5 dt).1 := rfl

theorem advancing_ticks_snoc (M : FloatLib F) (i : Nat) (dts : List F) (dt : F) (md5 : MD5 F) :
    advancing_ticks M i (dts ++ [dt]) md5 =
      advancing_ticks M i dts md5 +
        (if tick_advances (MD5_draw_action_steps M dts md5) i dt then 1 else 0) := by
  induction dts generalizing md5 with
  | nil => simp [advancing_ticks, MD5_draw_action_steps]
  | cons d dts ih =>
    rw [List.cons_append, advancing_ticks, ih, draw_action_steps_cons, advancing_ticks]
    ring

/-- A non-looping frame-stepped action started at frame 0, after any run of
ticks of which `c` were advancing: `c` is at most `n_frame`; the pose is
`frame[ c - 1 ]`; below `n_frame` the action plays at `curr_frame = c`; at
`n_frame` it is stopped. -/
theorem frame_run_inv (M : FloatLib F) (md5 : MD5 F) (i : Nat)
    (hi : i < md5.n_action) (hl : i < md5.md5action.length) (a : MD5ACTION F)
    (ha : a = rd md5.md5action i)
    (hstate : a.state = PLAY) (hmethod : a.method = MD5_METHOD_FRAME) (hloop : a.loop = 0)
    (hcurr : a.curr_frame = 0) (hn : 1 ≤ a.n_frame)
    (hpose : a.pose.length = md5.n_joint)
    (hframes : ∀ k, k < a.n_frame → (rd a.frame k).length = md5.n_joint)
    (dts : List F) :
    (rd (MD5_draw_action_steps M dts md5).md5action i).frame = a.frame ∧
    (rd (MD5_draw_action_steps M dts md5).md5action i).n_frame = a.n_frame ∧
    (rd (MD5_draw_action_steps M dts md5).md5action i).method = MD5_METHOD_FRAME ∧
    (rd (MD5_draw_action_steps M dts md5).md5action i).loop = 0 ∧
    (rd (MD5_draw_action_steps M dts md5).md5action i).pose.length = md5.n_joint ∧
    advancing_ticks M i dts md5 ≤ a.n_frame ∧
    (0 < advancing_ticks M i dts md5 →
      (rd (MD5_draw_action_steps M dts md5).md5action i).pose =
        rd a.frame (advancing_ticks M i dts md5 - 1)) ∧
    (advancing_ticks M i dts md5 < a.n_frame →
      (rd (MD5_draw_action_steps M dts md5).md5action i).state = PLAY ∧
      (rd (MD5_draw_action_steps M dts md5).md5action i).curr_frame =
        (advancing_ticks M i dts md5 : Int)) ∧
    (advancing_ticks M i dts md5 = a.n_frame →
      (rd (MD5_draw_action_steps M dts md5).md5action i).state = STOP ∧
      (rd (MD5_draw_action_steps M dts md5).md5action i).curr_frame = 0 ∧
      (rd (MD5_draw_action_steps M dts md5).md5action i).next_frame = 1 ∧
      (rd (MD5_draw_action_steps M dts md5).md5action i).frame_time = 0) := by
  induction dts using List.reverseRecOn with
  | nil =>
    have e : rd (MD5_draw_action_steps M [] md5).md5action i = a := ha.symm
    have c0 : advancing_ticks M i [] md5 = 0 := rfl
    rw [e, c0]
    refine ⟨rfl, rfl, hmethod, hloop, hpose, Nat.zero_le _, ?_, ?_, ?_⟩
    · intro h; exact absurd h (by simp)
    · intro _; exact ⟨hstate, by simpa using hcurr⟩
    · intro h; omega
  | append_singleton dts dt ih =>
    obtain ⟨i1, i2, i4, i5, i6, ic, i7, i8, i9⟩ := ih
    obtain ⟨f1, f2, f3⟩ := draw_action_steps_fields M dts md5
    rw [advancing_ticks_snoc, draw_action_steps_snoc]
    have hadv : tick_advances (MD5_draw_action_steps M dts md5) i dt =
        decide ((rd (MD5_draw_action_steps M dts md5).md5action i).state = PLAY ∧
          (rd (MD5_draw_action_steps M dts md5).md5action i).fps ≤
            (rd (MD5_draw_action_steps M dts md5).md5action i).frame_time + dt) := rfl
    rw [hadv]
    by_cases hc : advancing_ticks M i dts md5 = a.n_frame
    · obtain ⟨s1, s2, s3, s4⟩ := i9 hc
      have hns : (rd (MD5_draw_action_steps M dts md5).md5action i).state ≠ PLAY := by
        rw [s1]; decide
      rw [draw_action_rest M _ dt i (by rw [f1]; exact hi) (by rw [f3]; exact hl) hns]
      have hd : decide ((rd (MD5_draw_action_steps M dts md5).md5action i).state = PLAY ∧
          (rd (MD5_draw_action_steps M dts md5).md5action i).fps ≤
            (rd (MD5_draw_action_steps M dts md5).md5action i).frame_time + dt) = false := by
        simp [hns]
      rw [hd]
      simp only [Bool.false_eq_true, if_false, Nat.add_zero]
      exact ⟨i1, i2, i4, i5, i6, ic, i7, i8, i9⟩
    · have hlt : advancing_ticks M i dts md5 < a.n_frame := by omega
      obtain ⟨j1, j2⟩ := i8 hlt
      rw [draw_action_rd M _ dt i (by rw [f1]; exact hi) (by rw [f3]; exact hl)]
      generalize rd (MD5_draw_action_steps M dts md5).md5action i = b
        at i1 i2 i4 i5 i6 i7 j1 j2
      generalize advancing_ticks M i dts md5 = c at ic i7 hc hlt j2
      by_cases hge : b.fps ≤ b.frame_time + dt
      · have hd : decide (b.state = PLAY ∧ b.fps ≤ b.frame_time + dt) = true := by
          simp [j1, hge]
        rw [hd]
        simp only [if_true]
        have hcopy : memcpy_joints b.pose (rdI b.frame b.curr_frame)
            (MD5_draw_action_steps M dts md5).n_joint = rd a.frame c := by
          rw [f2, j2, rdI_natCast, i1]
          exact memcpy_joints_eq _ _ _ i6 (hframes _ hlt)
        by_cases hend : c + 1 = a.n_frame
        · have hl1 : b.curr_frame + 1 = (b.n_frame : Int) := by
            rw [j2, i2, ← hend]; push_cast; ring
          rw [frame_tick_stop M _ dt b 0 j1 i4 hge i5 hl1, hcopy]
          refine ⟨i1, i2, i4, i5, hframes _ hlt, by omega, ?_, ?_, ?_⟩
          · intro _; simp
          · intro h; omega
          · intro _; exact ⟨rfl, rfl, rfl, rfl⟩
        · have hl1 : b.curr_frame + 1 ≠ (b.n_frame : Int) := by
            rw [j2, i2]
            intro h
            apply hend
            exact_mod_cast h
          rw [frame_tick_advance M _ dt b 0 j1 i4 hge (Or.inr hl1), hcopy]
          refine ⟨i1, i2, i4, i5, hframes _ hlt, by omega, ?_, ?_, ?_⟩
          · intro _; simp
          · intro _
            refine ⟨j1, ?_⟩
            show (if b.curr_frame + 1 = (b.n_frame : Int) then 0 else b.curr_frame + 1) = _
            rw [if_neg hl1, j2]; simp
          · intro h; omega
      · have hd : decide (b.state = PLAY ∧ b.fps ≤ b.frame_time + dt) = false := by
          simp [hge]
        rw [hd]
        simp only [Bool.false_eq_true, if_false, Nat.add_zero]
        rw [frame_tick_wait M _ dt b 0 j1 i4 (lt_of_not_le hge)]
        exact ⟨i1, i2, i4, i5, i6, ic, i7, fun _ => ⟨j1, j2⟩, fun h => absurd h hc⟩

/-! ## The preprocessor on the turned example -/

/-- The normal the preprocessor leaves in vertex 1 of the turned example. -/
theorem example_turned_normal :
    (rd (MD5_bind_vertices
      (⟨Real.sqrt, Real.sin, fun s c => Complex.arg ⟨c, s⟩, fun a b => a / b⟩ : FloatLib ℝ)
      (rd (example_turned_md5 ℝ).md5mesh 0)) 1).normal = ⟨0, 24 / 25, -7 / 25⟩ := by
  norm_num [example_turned_md5, MD5_bind_vertices, whileIdx, MD5_bind_triangle, rd,
    add_vertex_normal, add_vertex_tangent, vec3_diff, vec2_diff, vec3_cross, vec3_normalize,
    vec3_length, vec3_dot, vec3_add, triangle_tangent]

/-- The tangent the preprocessor leaves in vertex 1 of the turned example. -/
theorem example_turned_tangent :
    (rd (MD5_bind_vertices
      (⟨Real.sqrt, Real.sin, fun s c => Complex.arg ⟨c, s⟩, fun a b => a / b⟩ : FloatLib ℝ)
      (rd (example_turned_md5 ℝ).md5mesh 0)) 1).tangent = ⟨0, -7 / 25, -24 / 25⟩ := by
  norm_num [example_turned_md5, MD5_bind_vertices, whileIdx, MD5_bind_triangle, rd,
    add_vertex_normal, add_vertex_tangent, vec3_diff, vec2_diff, vec3_cross, vec3_normalize,
    vec3_length, vec3_dot, vec3_add, triangle_tangent]

end Lemmas

/-! ## Claims -/

section Claims

variable {F : Type} [LinearOrderedField F]

/-- C1: `MD5_set_pose` writes, for each mesh `i` and each vertex `j`, the
literal weighted sums over the weights `start`, ..., `start + count - 1` of the
vertex, with no division by the total bias: position = sum of bias * (joint
location + rotated weight location), normal = sum of bias * rotated weight
normal, tangent = sum of bias * rotated weight tangent, where rotating `p` by
the joint quaternion `q` is the vector part of the quaternion product
`q * p * conj q` scaled by `1 / |q|` (by 0 when `|q| = 0`); the texture
coordinate is copied; a vertex with `count = 0` gets the zero vectors; when the
joint rotations are unit quaternions (and `sqrtf 1 = 1`) the rotation is
`q * p * conj q` itself. -/
theorem C1_MD5_set_pose_weighted_sums (M : FloatLib F) (md5 : MD5 F) (pose : List (MD5JOINT F))
    (i j : Nat) (hi : i < md5.n_mesh) (hil : i < md5.md5mesh.length)
    (hs : vertex_data_sized (rd md5.md5mesh i)) (hj : j < (rd md5.md5mesh i).n_vertex) :
    let md5mesh := rd md5.md5mesh i
    let v := rd md5mesh.md5vertex j
    let w := fun k => rd md5mesh.md5weight (v.start + k)
    let joint := fun k => rdI pose (w k).joint
    let rotate := fun (p : vec3 F) (q : vec4 F) =>
      vec3_bias (unit_factor M q) (quaternion_rotate q p)
    let out := (rd (MD5_set_pose M md5 pose).md5mesh i).vertex_data
    rd out.vertex_array j =
        vec3_sum v.count (fun k => vec3_bias_offset (w k).bias (joint k).location
          (rotate (w k).location (joint k).rotation)) ∧
      rd out.normal_array j =
        vec3_sum v.count (fun k => vec3_bias (w k).bias
          (rotate (w k).normal (joint k).rotation)) ∧
      rd out.tangent_array j =
        vec3_sum v.count (fun k => vec3_bias (w k).bias
          (rotate (w k).tangent (joint k).rotation)) ∧
      rd out.uv_array j = v.uv ∧
      (v.count = 0 →
        rd out.vertex_array j = ⟨0, 0, 0⟩ ∧ rd out.normal_array j = ⟨0, 0, 0⟩ ∧
          rd out.tangent_array j = ⟨0, 0, 0⟩) ∧
      (M.sqrtf 1 = 1 → (∀ k, k < v.count → vec4_dot (joint k).rotation = 1) →
        rd out.vertex_array j =
          vec3_sum v.count (fun k => vec3_bias_offset (w k).bias (joint k).location
            (quaternion_rotate (joint k).rotation (w k).location)) ∧
        rd out.normal_array j =
          vec3_sum v.count (fun k => vec3_bias (w k).bias
            (quaternion_rotate (joint k).rotation (w k).normal)) ∧
        rd out.tangent_array j =
          vec3_sum v.count (fun k => vec3_bias (w k).bias
            (quaternion_rotate (joint k).rotation (w k).tangent))) := by
  intro md5mesh v w joint rotate out
  have hout : out = (MD5_set_pose_mesh M pose md5mesh).vertex_data := by
    simp only [out, set_pose_md5mesh, hi, hil, and_self, if_true, md5mesh]
  have h1 : rd (MD5_set_pose_mesh M pose md5mesh).vertex_data.vertex_array j =
      vec3_sum v.count (fun k => vec3_bias_offset (w k).bias (joint k).location
        (rotate (w k).location (joint k).rotation)) := by
    rw [set_pose_mesh_vertex M pose md5mesh hs.1 j hj]
    exact vec3_sum_congr _ _ _ (fun k _ =>
      congrArg (vec3_bias_offset (w k).bias (joint k).location) (rotate_quaternion M _ _))
  have h2 : rd (MD5_set_pose_mesh M pose md5mesh).vertex_data.normal_array j =
      vec3_sum v.count (fun k => vec3_bias (w k).bias
        (rotate (w k).normal (joint k).rotation)) := by
    rw [set_pose_mesh_normal M pose md5mesh hs.2.1 j hj]
    exact vec3_sum_congr _ _ _ (fun k _ =>
      congrArg (vec3_bias (w k).bias) (rotate_quaternion M _ _))
  have h3 : rd (MD5_set_pose_mesh M pose md5mesh).vertex_data.tangent_array j =
      vec3_sum v.count (fun k => vec3_bias (w k).bias
        (rotate (w k).tangent (joint k).rotation)) := by
    rw [set_pose_mesh_tangent M pose md5mesh hs.2.2.2 j hj]
    exact vec3_sum_congr _ _ _ (fun k _ =>
      congrArg (vec3_bias (w k).bias) (rotate_quaternion M _ _))
  have h4 := set_pose_mesh_uv M pose md5mesh hs.2.2.1 j hj
  rw [hout]
  refine ⟨h1, h2, h3, h4, ?_, ?_⟩
  · intro h0
    have hv : v.count = 0 := h0
    rw [h1, h2, h3, hv]
    simp [vec3_sum_zero]
  · intro hone hunit
    have hu : ∀ k, k < v.count → ∀ p, rotate p (joint k).rotation =
        quaternion_rotate (joint k).rotation p := by
      intro k hk p
      show vec3_bias (unit_factor M (joint k).rotation) _ = _
      rw [unit_factor_one M _ (hunit k hk) hone, vec3_bias_one]
    rw [h1, h2, h3]
    exact ⟨vec3_sum_congr _ _ _ (fun k hk =>
        congrArg (vec3_bias_offset (w k).bias (joint k).location) (hu k hk _)),
      vec3_sum_congr _ _ _ (fun k hk => congrArg (vec3_bias (w k).bias) (hu k hk _)),
      vec3_sum_congr _ _ _ (fun k hk => congrArg (vec3_bias (w k).bias) (hu k hk _))⟩

/-- C1 at a concrete input: the second vertex of the example mesh, posed with
the root turned about Z. The weight of the root at (1, 0, 0) is turned to
(7/25, 24/25, 0) and its normal (1, 0, 0) likewise. -/
theorem C1_MD5_set_pose_weighted_sums_witness :
    vertex_data_sized (rd example_shaded_md5.md5mesh 0) ∧
      rd (rd (MD5_set_pose rational_lib example_shaded_md5 example_turned_pose).md5mesh
          0).vertex_data.vertex_array 1 = ⟨16 / 25, 49 / 50, 0⟩ ∧
      rd (rd (MD5_set_pose rational_lib example_shaded_md5 example_turned_pose).md5mesh
          0).vertex_data.normal_array 1 = ⟨7 / 50, 12 / 25, 1 / 2⟩ ∧
      rd (rd (MD5_set_pose rational_lib example_shaded_md5 example_turned_pose).md5mesh
          0).vertex_data.tangent_array 1 = ⟨-12 / 25, 16 / 25, 0⟩ := by
  have h := C1_MD5_set_pose_weighted_sums rational_lib example_shaded_md5 example_turned_pose
    0 1 (by decide) (by decide) ⟨rfl, rfl, rfl, rfl⟩ (by decide)
  have h6 := h.2.2.2.2.2 (by norm_num [rational_lib]) (by
    intro k hk
    have hk2 : k < 2 := hk
    interval_cases k <;> norm_num [example_shaded_md5, example_turned_pose, example_mesh,
      MD5_build_vbo_mesh, rd, rdI, vec4_dot, example_root, example_child, example_md5, MD5_new])
  refine ⟨⟨rfl, rfl, rfl, rfl⟩, ?_, ?_, ?_⟩
  · rw [h6.1]
    have hc : (rd (rd example_shaded_md5.md5mesh 0).md5vertex 1).count = 2 := rfl
    rw [hc]
    norm_num [vec3_sum, Finset.sum_range_succ, example_shaded_md5, example_turned_pose,
      example_mesh, MD5_build_vbo_mesh, rd, rdI, example_root, example_child, example_md5,
      MD5_new, vec3_bias_offset, vec3_bias, quaternion_rotate, vec4_quaternion,
      vec3_quaternion]
  · rw [h6.2.1]
    have hc : (rd (rd example_shaded_md5.md5mesh 0).md5vertex 1).count = 2 := rfl
    rw [hc]
    norm_num [vec3_sum, Finset.sum_range_succ, example_shaded_md5, example_turned_pose,
      example_mesh, MD5_build_vbo_mesh, rd, rdI, example_root, example_child, example_md5,
      MD5_new, vec3_bias_offset, vec3_bias, quaternion_rotate, vec4_quaternion,
      vec3_quaternion]
  · rw [h6.2.2]
    have hc : (rd (rd example_shaded_md5.md5mesh 0).md5vertex 1).count = 2 := rfl
    rw [hc]
    norm_num [vec3_sum, Finset.sum_range_succ, example_shaded_md5, example_turned_pose,
      example_mesh, MD5_build_vbo_mesh, rd, rdI, example_root, example_child, example_md5,
      MD5_new, vec3_bias_offset, vec3_bias, quaternion_rotate, vec4_quaternion,
      vec3_quaternion]

/-- C2: with `MD5_METHOD_LERP` and with `MD5_METHOD_SLERP`, `MD5_blend_pose`
at `blend = 0` gives every joint exactly the location and the rotation of
`pose0`, and at `blend = 1` exactly those of `pose1`, whatever the two
quaternions are. -/
theorem C2_MD5_blend_pose_boundaries (M : FloatLib F) (md5 : MD5 F)
    (final_pose pose0 pose1 : List (MD5JOINT F)) (method : Nat)
    (hm : method = MD5_METHOD_LERP ∨ method = MD5_METHOD_SLERP)
    (i : Nat) (hi : i < md5.n_joint) (hl : i < final_pose.length) :
    (rd (MD5_blend_pose M md5 final_pose pose0 pose1 method 0) i).location =
        (rd pose0 i).location ∧
      (rd (MD5_blend_pose M md5 final_pose pose0 pose1 method 0) i).rotation =
        (rd pose0 i).rotation ∧
      (rd (MD5_blend_pose M md5 final_pose pose0 pose1 method 1) i).location =
        (rd pose1 i).location ∧
      (rd (MD5_blend_pose M md5 final_pose pose0 pose1 method 1) i).rotation =
        (rd pose1 i).rotation := by
  simp only [blend_pose_rd, hi, hl, and_self, if_true, vec3_lerp_zero, vec3_lerp_one,
    vec4_lerp_zero, vec4_lerp_one, vec4_slerp_zero, vec4_slerp_one]
  rcases hm with h | h <;> subst h <;>
    simp [MD5_METHOD_FRAME, MD5_METHOD_LERP, MD5_METHOD_SLERP]

/-- C2 at a concrete input: spherical blend of the two example poses, joint 1. -/
theorem C2_MD5_blend_pose_boundaries_witness :
    (rd (MD5_blend_pose rational_lib example_md5 example_md5.bind_pose example_md5.bind_pose
          example_pose1 MD5_METHOD_SLERP 0) 1).location = (rd example_md5.bind_pose 1).location ∧
      (rd (MD5_blend_pose rational_lib example_md5 example_md5.bind_pose example_md5.bind_pose
          example_pose1 MD5_METHOD_SLERP 1) 1).location = (rd example_pose1 1).location :=
  have h := C2_MD5_blend_pose_boundaries rational_lib example_md5 example_md5.bind_pose
    example_md5.bind_pose example_pose1 MD5_METHOD_SLERP (Or.inr rfl) 1 (by decide) (by decide)
  ⟨h.1, h.2.2.1⟩

/-- C3: when `MD5_load_action` parses a `frame` block against a skeleton in
which every joint with a parent has `parent < index`, the frame it stores in
the action under construction is the absolute pose: for every joint `i` whose
line scans, with a negative parent (in particular `-1`) the joint holds its
scanned location and its scanned rotation `raw`, whose W is rebuilt as
`-sqrt(1 - x*x - y*y - z*z)` (0 when the radicand is negative); with a parent
`p >= 0` its location is the stored location of `p` plus the scanned location
rotated by the stored rotation `q` of `p` (the vector part of the quaternion
product `q * v * conj q`, scaled by `1 / |q|`), and its rotation is the
Hamilton product (stored rotation of `p`) * `raw`, the parent on the left,
scaled to unit length.  When every line scans, these equations have no other
solution. -/
theorem C3_MD5_load_action_absolute_frame (M : FloatLib F) (md5 : MD5 F) (index : Nat)
    (rows : List (Option (FRAMEROW F)))
    (hk : md5.n_action - 1 < md5.md5action.length)
    (hidx : index < (rd md5.md5action (md5.n_action - 1)).frame.length)
    (hlen : md5.n_joint ≤ (rd (rd md5.md5action (md5.n_action - 1)).frame index).length)
    (hparent : ∀ i, i < md5.n_joint → 0 ≤ (rd md5.bind_pose i).parent →
      (rd md5.bind_pose i).parent < (i : Int)) :
    let raw := fun (row : FRAMEROW F) =>
      (⟨row.rotation.x, row.rotation.y, row.rotation.z,
        if 1 - row.rotation.x * row.rotation.x - row.rotation.y * row.rotation.y -
            row.rotation.z * row.rotation.z < 0 then 0
        else -M.sqrtf (1 - row.rotation.x * row.rotation.x - row.rotation.y * row.rotation.y -
            row.rotation.z * row.rotation.z)⟩ : vec4 F)
    let rotate := fun (v : vec3 F) (q : vec4 F) =>
      vec3_bias (unit_factor M q) (quaternion_rotate q v)
    let normalize := fun (q : vec4 F) => vec4_bias (unit_factor M q) q
    let absolute := fun (g : List (MD5JOINT F)) =>
      ∀ i, i < md5.n_joint → ∀ row, rd rows i = some row →
        ((rd md5.bind_pose i).parent ≤ -1 →
          (rd g i).location = row.location ∧ (rd g i).rotation = raw row) ∧
        (0 ≤ (rd md5.bind_pose i).parent →
          (rd g i).location =
            ⟨(rdI g (rd md5.bind_pose i).parent).location.x +
                (rotate row.location (rdI g (rd md5.bind_pose i).parent).rotation).x,
              (rdI g (rd md5.bind_pose i).parent).location.y +
                (rotate row.location (rdI g (rd md5.bind_pose i).parent).rotation).y,
              (rdI g (rd md5.bind_pose i).parent).location.z +
                (rotate row.location (rdI g (rd md5.bind_pose i).parent).rotation).z⟩ ∧
          (rd g i).rotation =
            normalize (hamilton_product (rdI g (rd md5.bind_pose i).parent).rotation (raw row)))
    ∃ md5a stored,
      MD5_load_action_step M md5 (ACTIONLINE.frame index rows) = LOADSTEP.next md5a ∧
      rd (rd md5a.md5action (md5.n_action - 1)).frame index = stored ∧
      absolute stored ∧
      ((∀ i, i < md5.n_joint → ∃ row, rd rows i = some row) →
        ∀ g : List (MD5JOINT F), absolute g →
          ∀ i, i < md5.n_joint →
            (rd g i).location = (rd stored i).location ∧
              (rd g i).rotation = (rd stored i).rotation) := by
  intro raw rotate normalize absolute
  have hpar : ∀ i, i < md5.n_joint → (rd md5.bind_pose i).parent < (i : Int) := by
    intro i hi
    by_cases h0 : 0 ≤ (rd md5.bind_pose i).parent
    · exact hparent i hi h0
    · omega
  have hraw : ∀ row : FRAMEROW F,
      vec4_build_w M ⟨row.rotation.x, row.rotation.y, row.rotation.z, 0⟩ = raw row :=
    fun _ => rfl
  have hloc : ∀ (p : MD5JOINT F) (v : vec3 F),
      vec3_add p.location (vec3_rotate_vec4 M v p.rotation) =
        ⟨p.location.x + (rotate v p.rotation).x, p.location.y + (rotate v p.rotation).y,
          p.location.z + (rotate v p.rotation).z⟩ := by
    intro p v
    rw [rotate_quaternion]
    rfl
  have hrot : ∀ (q : vec4 F) (row : FRAMEROW F),
      vec4_normalize M (vec4_multiply_vec4 q
          (vec4_build_w M ⟨row.rotation.x, row.rotation.y, row.rotation.z, 0⟩)) =
        normalize (hamilton_product q (raw row)) := by
    intro q row
    rw [hraw, multiply_hamilton, normalize_unit_factor]
  have hto : ∀ g : List (MD5JOINT F), absolute g →
      ∀ i, i < md5.n_joint → ∀ row, rd rows i = some row →
        ((rd md5.bind_pose i).parent ≤ -1 →
          (rd g i).location = row.location ∧
          (rd g i).rotation =
            vec4_build_w M ⟨row.rotation.x, row.rotation.y, row.rotation.z, 0⟩) ∧
        (0 ≤ (rd md5.bind_pose i).parent →
          (rd g i).location =
            vec3_add (rdI g (rd md5.bind_pose i).parent).location
              (vec3_rotate_vec4 M row.location (rdI g (rd md5.bind_pose i).parent).rotation) ∧
          (rd g i).rotation =
            vec4_normalize M
              (vec4_multiply_vec4 (rdI g (rd md5.bind_pose i).parent).rotation
                (vec4_build_w M ⟨row.rotation.x, row.rotation.y, row.rotation.z, 0⟩))) := by
    intro g hg i hi row hrow
    rw [hloc, hrot, hraw]
    exact hg i hi row hrow
  have hstored : absolute
      (MD5_load_action_frame M md5 (rd (rd md5.md5action (md5.n_action - 1)).frame index)
        rows) := by
    intro i hi row hrow
    have h := load_action_frame_spec M md5 _ rows hlen hpar i hi row hrow
    rw [hloc, hrot, hraw] at h
    exact h
  refine ⟨_,
    MD5_load_action_frame M md5 (rd (rd md5.md5action (md5.n_action - 1)).frame index) rows,
    load_action_step_frame M md5 index rows, ?_, hstored, ?_⟩
  · simp only []
    rw [rd_set_self _ _ _ hk]
    exact rd_set_self _ _ _ hidx
  · intro hrows g hg i hi
    exact frame_equations_unique M md5 rows g _ hpar hrows (hto g hg)
      (fun i hi row hrow => load_action_frame_spec M md5 _ rows hlen hpar i hi row hrow) i hi

/-- C3 at a concrete input: the root of the example skeleton is scanned with
the rotation (3/5, 0, 0) and gets W = -4/5; the child, scanned one unit along
Y from its parent, is stored at the offset turned about X, with the rotation
of the root times its own. -/
theorem C3_MD5_load_action_absolute_frame_witness :
    ∃ md5a stored,
      MD5_load_action_step rational_lib example_loading
          (ACTIONLINE.frame 0 example_turned_rows) = LOADSTEP.next md5a ∧
      rd (rd md5a.md5action 0).frame 0 = stored ∧
      (rd stored 0).rotation = ⟨3 / 5, 0, 0, -4 / 5⟩ ∧
      (rd stored 1).location = ⟨0, 7 / 25, -24 / 25⟩ ∧
      (rd stored 1).rotation = ⟨-3 / 5, 0, 0, 4 / 5⟩ := by
  obtain ⟨md5a, stored, h1, h2, h3, _⟩ := C3_MD5_load_action_absolute_frame rational_lib
    example_loading 0 example_turned_rows (by decide) (by decide) (by decide) (by decide)
  have r0 := (h3 0 (by decide) ⟨⟨0, 0, 0⟩, ⟨3 / 5, 0, 0⟩⟩ rfl).1 (by decide)
  have r1 := (h3 1 (by decide) ⟨⟨0, 1, 0⟩, ⟨0, 0, 0⟩⟩ rfl).2 (by decide)
  have hp : (rd example_loading.bind_pose 1).parent = 0 := rfl
  have hq : rdI stored 0 = rd stored 0 := rfl
  have s1 : rational_lib.sqrtf (16 / 25) = 4 / 5 := rational_sqrt_sixteen
  have s2 : rational_lib.sqrtf 1 = 1 := by norm_num [rational_lib]
  have e0 : (rd stored 0).rotation = ⟨3 / 5, 0, 0, -4 / 5⟩ := by
    rw [r0.2]
    norm_num [s1, s2]
  have l0 : (rd stored 0).location = ⟨0, 0, 0⟩ := r0.1
  rw [hp, hq, e0, l0] at r1
  refine ⟨md5a, stored, h1, h2, e0, ?_, ?_⟩
  · rw [r1.1]
    norm_num [vec3_bias, unit_factor, quaternion_rotate, vec4_quaternion, vec3_quaternion,
      vec4_dot, s1, s2]
  · rw [r1.2]
    norm_num [vec4_bias, unit_factor, hamilton_product, vec4_quaternion,
      vec4_dot, s1, s2]

/-- C4: when the action file holds a line that declares a `numJoints` value
different from the `n_joint` of the skeleton, or an `MD5Version` other than
10, `MD5_load_action` returns `-1` and the MD5 after the call is the MD5
before the call: `n_action` and the array of actions are unchanged, the entry
appended at the start of the call being removed again. -/
theorem C4_MD5_load_action_rollback (M : FloatLib F) (md5 : MD5 F) (name : String)
    (lines : List (ACTIONLINE F)) (hlen : md5.md5action.length = md5.n_action)
    (hbad : ∃ l, l ∈ lines ∧ action_line_rejected md5 l) :
    MD5_load_action M md5 name (some lines) = (md5, -1) := by
  unfold MD5_load_action
  simp only []
  rw [← hlen, realloc_grow, Nat.add_sub_cancel]
  obtain ⟨l, hl, hr⟩ := hbad
  have hr2 : action_line_rejected
      ({ md5 with
          n_action := md5.md5action.length + 1
          md5action := (md5.md5action ++ [default]).set md5.md5action.length
            { (default : MD5ACTION F) with name := name, curr_frame := 0, next_frame := 1 } } :
        MD5 F) l := by
    cases l <;> exact hr
  obtain ⟨act, h⟩ := load_action_lines_cleanup M lines _ ⟨l, hl, hr2⟩
  rw [h]
  simp only [Nat.add_sub_cancel, List.set_set, realloc_shrink_set]
  rw [hlen]

/-- C4 at a concrete input: a clip of three joints is rejected by the example
skeleton, which has two joints and one action loaded. -/
theorem C4_MD5_load_action_rollback_witness :
    MD5_load_action rational_lib example_skeleton "run" (some example_bad_clip) =
      (example_skeleton, -1) :=
  C4_MD5_load_action_rollback rational_lib example_skeleton "run" example_bad_clip rfl
    ⟨ACTIONLINE.numJoints 3, by simp [example_bad_clip],
      by simp [action_line_rejected, example_skeleton, example_md5]⟩

/-- C5: over the reals, `vec4_build_w` keeps X, Y, Z and sets
`w = -sqrt(max(0, 1 - x^2 - y^2 - z^2))`; when `x^2 + y^2 + z^2 <= 1` the
result has `w <= 0` and unit norm, and when `x^2 + y^2 + z^2 > 1` it has
`w = 0`. -/
theorem C5_vec4_build_w (M : FloatLib ℝ) (hM : ∀ a, M.sqrtf a = Real.sqrt a) (v : vec4 ℝ) :
    (vec4_build_w M v).x = v.x ∧ (vec4_build_w M v).y = v.y ∧ (vec4_build_w M v).z = v.z ∧
      (vec4_build_w M v).w = -Real.sqrt (max 0 (1 - v.x ^ 2 - v.y ^ 2 - v.z ^ 2)) ∧
      (v.x ^ 2 + v.y ^ 2 + v.z ^ 2 ≤ 1 →
        (vec4_build_w M v).w ≤ 0 ∧
          (vec4_build_w M v).x ^ 2 + (vec4_build_w M v).y ^ 2 + (vec4_build_w M v).z ^ 2 +
            (vec4_build_w M v).w ^ 2 = 1) ∧
      (1 < v.x ^ 2 + v.y ^ 2 + v.z ^ 2 → (vec4_build_w M v).w = 0) := by
  have hw : (vec4_build_w M v).w =
      -Real.sqrt (max 0 (1 - v.x ^ 2 - v.y ^ 2 - v.z ^ 2)) := by
    simp only [vec4_build_w, hM]
    have e : 1 - v.x * v.x - v.y * v.y - v.z * v.z = 1 - v.x ^ 2 - v.y ^ 2 - v.z ^ 2 := by ring
    rw [e]
    by_cases h : 1 - v.x ^ 2 - v.y ^ 2 - v.z ^ 2 < 0
    · rw [if_pos h, max_eq_left (le_of_lt h), Real.sqrt_zero, neg_zero]
    · rw [if_neg h, max_eq_right (not_lt.mp h)]
  refine ⟨rfl, rfl, rfl, hw, ?_, ?_⟩
  · intro h
    have h0 : 0 ≤ 1 - v.x ^ 2 - v.y ^ 2 - v.z ^ 2 := by linarith
    rw [hw, max_eq_right h0]
    refine ⟨neg_nonpos.mpr (Real.sqrt_nonneg _), ?_⟩
    have hs := Real.sq_sqrt h0
    have hx : (vec4_build_w M v).x = v.x := rfl
    have hy : (vec4_build_w M v).y = v.y := rfl
    have hz : (vec4_build_w M v).z = v.z := rfl
    rw [hx, hy, hz, neg_sq, hs]
    ring
  · intro h
    have h0 : 1 - v.x ^ 2 - v.y ^ 2 - v.z ^ 2 ≤ 0 := by linarith
    rw [hw, max_eq_left h0, Real.sqrt_zero, neg_zero]

/-- C5 at a concrete input: X = 3/5, Y = 0, Z = 0 give W = -4/5. -/
theorem C5_vec4_build_w_witness :
    (vec4_build_w (⟨Real.sqrt, Real.sin, fun _ _ => 0, fun a b => a / b⟩ : FloatLib ℝ)
        ⟨3 / 5, 0, 0, 0⟩).w ≤ 0 ∧
      (vec4_build_w (⟨Real.sqrt, Real.sin, fun _ _ => 0, fun a b => a / b⟩ : FloatLib ℝ)
        ⟨3 / 5, 0, 0, 0⟩).w =
        -Real.sqrt (max 0 (1 - (3 / 5 : ℝ) ^ 2 - (0 : ℝ) ^ 2 - (0 : ℝ) ^ 2)) :=
  have h := C5_vec4_build_w (⟨Real.sqrt, Real.sin, fun _ _ => 0, fun a b => a / b⟩ : FloatLib ℝ)
    (fun _ => rfl) ⟨3 / 5, 0, 0, 0⟩
  ⟨(h.2.2.2.2.1 (by norm_num)).1, h.2.2.2.1⟩

/-- C6: for every joint `i`, `MD5_add_pose` gives `final_pose[ i ]` exactly the
location and rotation of the working pose of `action0` when the current and
the next frame of `action1` hold the same bytes in the location and in the
rotation of the joint (the two `memcmp` calls return 0); otherwise the
location is `vec3_lerp` of the two working poses at `action_weight` and the
rotation is the blend of the chosen method (`vec4_slerp` for
`MD5_METHOD_SLERP`, `vec4_lerp` for `MD5_METHOD_FRAME` and
`MD5_METHOD_LERP`). -/
theorem C6_MD5_add_pose (M : FloatLib F) (frame_bytes : FRAMEBYTES) (md5 : MD5 F)
    (final_pose : List (MD5JOINT F)) (action0 action1 : MD5ACTION F) (method : Nat)
    (action_weight : F)
    (hm : method = MD5_METHOD_FRAME ∨ method = MD5_METHOD_LERP ∨ method = MD5_METHOD_SLERP)
    (i : Nat) (hi : i < md5.n_joint) (hl : i < final_pose.length) :
    let identical :=
      frame_bytes.location action1.curr_frame i = frame_bytes.location action1.next_frame i ∧
        frame_bytes.rotation action1.curr_frame i = frame_bytes.rotation action1.next_frame i
    let out :=
      rd (MD5_add_pose M frame_bytes md5 final_pose action0 action1 method action_weight) i
    (identical →
        out.location = (rd action0.pose i).location ∧
          out.rotation = (rd action0.pose i).rotation) ∧
      (¬ identical →
        out.location =
            vec3_lerp (rd action0.pose i).location (rd action1.pose i).location action_weight ∧
          out.rotation =
            if method = MD5_METHOD_SLERP then
              vec4_slerp M (rd action0.pose i).rotation (rd action1.pose i).rotation action_weight
            else
              vec4_lerp M (rd action0.pose i).rotation (rd action1.pose i).rotation
                action_weight) := by
  intro identical out
  have hout := add_pose_rd M frame_bytes md5 final_pose action0 action1 method action_weight i
  rw [if_pos ⟨hi, hl⟩] at hout
  constructor
  · rintro ⟨h1, h2⟩
    have hc : ¬ (frame_bytes.location action1.curr_frame i ≠
          frame_bytes.location action1.next_frame i ∨
        frame_bytes.rotation action1.curr_frame i ≠
          frame_bytes.rotation action1.next_frame i) := by
      simp [h1, h2]
    simp only [out, hout, if_neg hc, and_self]
  · intro h
    have hc : frame_bytes.location action1.curr_frame i ≠
          frame_bytes.location action1.next_frame i ∨
        frame_bytes.rotation action1.curr_frame i ≠
          frame_bytes.rotation action1.next_frame i := by
      by_contra hn
      push_neg at hn
      exact h hn
    simp only [out, hout, if_pos hc, true_and]
    rcases hm with h | h | h <;> subst h <;>
      simp [MD5_METHOD_FRAME, MD5_METHOD_LERP, MD5_METHOD_SLERP]

/-- C6 at a concrete input, the example action in its frames 0 and 1 with the
bytes of its floats: the root has the same bytes in both frames, so the pose of
`action0` passes through; the child has moved, so it is blended; and when the
root differs in the two frames only by the sign bit of a zero, it is blended
although the values are equal. -/
theorem C6_MD5_add_pose_witness :
    (rd (MD5_add_pose rational_lib example_frame_bytes example_md5 example_pose1
        example_action example_moved_action MD5_METHOD_SLERP (1 / 2)) 0).location =
        (rd example_action.pose 0).location ∧
      (rd (MD5_add_pose rational_lib example_frame_bytes example_md5 example_pose1
        example_action example_moved_action MD5_METHOD_SLERP (1 / 2)) 1).location =
        vec3_lerp (rd example_action.pose 1).location (rd example_moved_action.pose 1).location
          (1 / 2) ∧
      (rd (MD5_add_pose rational_lib example_signed_zero_bytes example_md5 example_pose1
        example_action example_moved_action MD5_METHOD_SLERP (1 / 2)) 0).location =
        vec3_lerp (rd example_action.pose 0).location (rd example_moved_action.pose 0).location
          (1 / 2) :=
  ⟨((C6_MD5_add_pose rational_lib example_frame_bytes example_md5 example_pose1 example_action
      example_moved_action MD5_METHOD_SLERP (1 / 2) (Or.inr (Or.inr rfl)) 0 (by decide)
      (by decide)).1 ⟨rfl, rfl⟩).1,
   ((C6_MD5_add_pose rational_lib example_frame_bytes example_md5 example_pose1 example_action
      example_moved_action MD5_METHOD_SLERP (1 / 2) (Or.inr (Or.inr rfl)) 1 (by decide)
      (by decide)).2 (by decide)).1,
   ((C6_MD5_add_pose rational_lib example_signed_zero_bytes example_md5 example_pose1
      example_action example_moved_action MD5_METHOD_SLERP (1 / 2) (Or.inr (Or.inr rfl)) 0
      (by decide) (by decide)).2 (by decide)).1⟩

/-- C7: for a unit quaternion `q`, `vec4_slerp` of `q` and `-q` gives `q` for
every `t` strictly between 0 and 1, `q` at `t = 0` and `-q` at `t = 1`; so for
every `t` in `[0, 1]` the result is a unit quaternion equal to `q` or to `-q`,
and is not the zero vector. -/
theorem C7_vec4_slerp_opposite (M : FloatLib F) (q : vec4 F) (hq : vec4_dot q = 1) :
    (∀ t : F, 0 < t → t < 1 → vec4_slerp M q (vec4_invert q) t = q) ∧
      vec4_slerp M q (vec4_invert q) 0 = q ∧
      vec4_slerp M q (vec4_invert q) 1 = vec4_invert q ∧
      (∀ t : F, 0 ≤ t → t ≤ 1 →
        vec4_dot (vec4_slerp M q (vec4_invert q) t) = 1 ∧
          (vec4_slerp M q (vec4_invert q) t = q ∨
            vec4_slerp M q (vec4_invert q) t = vec4_invert q) ∧
          vec4_slerp M q (vec4_invert q) t ≠ ⟨0, 0, 0, 0⟩) := by
  have hmid : ∀ t : F, 0 < t → t < 1 → vec4_slerp M q (vec4_invert q) t = q := by
    intro t h0 h1
    have hc : vec4_dot_vec4 q (vec4_invert q) = -1 := by
      have : vec4_dot_vec4 q (vec4_invert q) = -vec4_dot q := by
        simp only [vec4_dot_vec4, vec4_invert, vec4_dot]; ring
      rw [this, hq]
    have hneg : vec4_dot_vec4 q (vec4_invert q) < 0 := by rw [hc]; norm_num
    have hbig : -vec4_dot_vec4 q (vec4_invert q) > 999999 / 1000000 := by rw [hc]; norm_num
    rw [vec4_slerp_neg_near M q (vec4_invert q) t (ne_of_lt h1) (ne_of_gt h0) hneg hbig]
    cases q
    simp only [vec4_invert, vec4.mk.injEq]
    refine ⟨?_, ?_, ?_, ?_⟩ <;> ring
  have hinv : vec4_dot (vec4_invert q) = 1 := by
    rw [← hq]; simp only [vec4_dot, vec4_invert]; ring
  have hne : ∀ r : vec4 F, vec4_dot r = 1 → r ≠ ⟨0, 0, 0, 0⟩ := by
    intro r hr h0
    rw [h0] at hr
    simp [vec4_dot] at hr
  refine ⟨hmid, vec4_slerp_zero M _ _, vec4_slerp_one M _ _, ?_⟩
  intro t h0 h1
  rcases eq_or_lt_of_le h0 with h | h
  · subst h
    rw [vec4_slerp_zero]
    exact ⟨hq, Or.inl rfl, hne q hq⟩
  · rcases eq_or_lt_of_le h1 with h2 | h2
    · subst h2
      rw [vec4_slerp_one]
      exact ⟨hinv, Or.inr rfl, hne _ hinv⟩
    · rw [hmid t h h2]
      exact ⟨hq, Or.inl rfl, hne q hq⟩

/-- C7 at a concrete input: the identity rotation and `t = 1/2`. -/
theorem C7_vec4_slerp_opposite_witness :
    vec4_slerp rational_lib ⟨0, 0, 0, 1⟩ (vec4_invert ⟨0, 0, 0, 1⟩) (1 / 2) = ⟨0, 0, 0, 1⟩ :=
  (C7_vec4_slerp_opposite rational_lib ⟨0, 0, 0, 1⟩ (by norm_num [vec4_dot])).1 (1 / 2)
    (by norm_num) (by norm_num)

/-- C8: a looping frame-stepped action with at least two frames and a
positive frame period, played from `curr_frame = 0`, `next_frame = 1`,
`frame_time = 0`, is after `k` calls of `MD5_draw_action` with an elapsed time
of one frame period each at `curr_frame = k mod n_frame`,
`next_frame = (k + 1) mod n_frame`, and still in the state `PLAY`. -/
theorem C8_frame_stepped_loop (M : FloatLib F) (md5 : MD5 F) (i : Nat)
    (hi : i < md5.n_action) (hl : i < md5.md5action.length) (loop : Nat) (hloop : loop ≠ 0)
    (hn : 2 ≤ (rd md5.md5action i).n_frame) (hfps : 0 < (rd md5.md5action i).fps)
    (hcurr : (rd md5.md5action i).curr_frame = 0) (hnext : (rd md5.md5action i).next_frame = 1)
    (htime : (rd md5.md5action i).frame_time = 0) (k : Nat) :
    let a := rd md5.md5action i
    let played :=
      { md5 with md5action := md5.md5action.set i (MD5_action_play a MD5_METHOD_FRAME loop) }
    let b := rd (MD5_draw_action_times M a.fps k played).md5action i
    b.curr_frame = ((k % a.n_frame : Nat) : Int) ∧
      b.next_frame = (((k + 1) % a.n_frame : Nat) : Int) ∧ b.state = PLAY := by
  intro a played b
  obtain ⟨_, _, h3, _, _, _, _, _, h9, h10⟩ :=
    frame_loop_inv M md5 i hi hl loop hloop (rd md5.md5action i) hn hfps hcurr hnext htime k
  exact ⟨h9, h10, h3⟩

/-- C8 at a concrete input: the example action of four frames is back at
frame 0 with next frame 1 after four ticks of one frame period. -/
theorem C8_frame_stepped_loop_witness :
    (rd (MD5_draw_action_times rational_lib (1 / 24) 4
        { example_skeleton with
          md5action := [MD5_action_play example_action MD5_METHOD_FRAME 1] }).md5action
      0).curr_frame = 0 ∧
    (rd (MD5_draw_action_times rational_lib (1 / 24) 4
        { example_skeleton with
          md5action := [MD5_action_play example_action MD5_METHOD_FRAME 1] }).md5action
      0).next_frame = 1 :=
  have h := C8_frame_stepped_loop rational_lib example_skeleton 0 (by decide) (by decide) 1
    (by decide) (by decide) (by norm_num [example_skeleton, example_action, rd]) rfl rfl rfl 4
  ⟨h.1, h.2.1⟩

/-- C9 as stated fails: `MD5_load_mesh` returns a skeleton for the example
file whose joint 0 names joint 1 as its parent. -/
theorem C9_MD5_load_mesh_parent_order_counterexample :
    ¬ (∀ (file : List (MD5LINE ℚ)) (md5 : MD5 ℚ),
        MD5_load_mesh rational_lib "example" (some file) = some md5 →
        ∀ i, i < md5.n_joint → 0 ≤ (rd md5.bind_pose i).parent →
          (rd md5.bind_pose i).parent < (i : Int)) := by
  intro h
  have h0 := h example_unordered_file _ rfl 0 (by decide) (by decide)
  revert h0
  decide

/-- C9, amended: `MD5_load_mesh` stores the parent index of each line of the
`joints` block as written, without checking it.  For a skeleton returned from
a file whose `joints` block has `n_joint` lines, is followed by no other
`numJoints` or `joints` line, and has on every line at position `i` with a
parent `p >= 0` the order `p < i`, every bind-pose joint `i` with parent
`p >= 0` satisfies `p < i`. -/
theorem C9_MD5_load_mesh_parent_order_amended (M : FloatLib F) (name : String)
    (pre post : List (MD5LINE F)) (rows : List (JOINTROW F)) (md5 : MD5 F)
    (hload : MD5_load_mesh M name (some (pre ++ MD5LINE.joints rows :: post)) = some md5)
    (hpost : ∀ l, l ∈ post → ¬ joint_line l)
    (hrows : rows.length = md5.n_joint)
    (hord : ∀ i, i < rows.length → 0 ≤ (rd rows i).parent → (rd rows i).parent < (i : Int)) :
    (∀ i, i < md5.n_joint → (rd md5.bind_pose i).parent = (rd rows i).parent) ∧
      (∀ i, i < md5.n_joint → 0 ≤ (rd md5.bind_pose i).parent →
        (rd md5.bind_pose i).parent < (i : Int)) := by
  have hpar : ∀ i, i < md5.n_joint → (rd md5.bind_pose i).parent = (rd rows i).parent := by
    simp only [MD5_load_mesh] at hload
    rw [load_lines_append] at hload
    cases hpre : load_lines (MD5_load_mesh_step M) (MD5_new name, 0) pre with
    | cleanup s1 =>
      rw [hpre] at hload
      simp at hload
    | next s1 =>
      rw [hpre] at hload
      simp only [load_lines, MD5_load_mesh_step] at hload
      have hlen1 := load_mesh_lines_length M pre _ s1 hpre rfl
      cases hpost2 : load_lines (MD5_load_mesh_step M)
          ({ s1.1 with
              bind_pose := (rows.foldl (MD5_load_mesh_joint M) (s1.1.bind_pose, 0)).1 }, s1.2)
          post with
      | cleanup s3 =>
        rw [hpost2] at hload
        simp at hload
      | next s3 =>
        rw [hpost2] at hload
        simp only [Option.some.injEq] at hload
        obtain ⟨e1, e2⟩ := load_mesh_lines_bind_pose M post _ s3 hpost2 hpost
        simp only [] at e1 e2
        intro i hi
        rw [← hload, e1]
        rw [← hload, e2] at hi
        have hf := (load_mesh_joints_fold M rows s1.1.bind_pose 0).2.2 i
          (by rw [hrows, ← hload, e2]; exact hi) (by rw [Nat.zero_add, hlen1]; exact hi)
        rw [Nat.zero_add] at hf
        exact hf
  refine ⟨hpar, ?_⟩
  intro i hi h0
  rw [hpar i hi] at h0 ⊢
  exact hord i (by rw [hrows]; exact hi) h0

/-- C9, amended, at a concrete input: the example file with its joints in
order. -/
theorem C9_MD5_load_mesh_parent_order_amended_witness :
    MD5_load_mesh rational_lib "example"
        (some ([MD5LINE.MD5Version 10, MD5LINE.numJoints 2, MD5LINE.numMeshes 1] ++
          MD5LINE.joints example_joint_rows :: example_mesh_lines)) = some example_loaded ∧
      (∀ i, i < example_loaded.n_joint → 0 ≤ (rd example_loaded.bind_pose i).parent →
        (rd example_loaded.bind_pose i).parent < (i : Int)) :=
  ⟨rfl,
   (C9_MD5_load_mesh_parent_order_amended rational_lib "example"
      [MD5LINE.MD5Version 10, MD5LINE.numJoints 2, MD5LINE.numMeshes 1] example_mesh_lines
      example_joint_rows example_loaded rfl
      (by simp [example_mesh_lines, joint_line]) rfl (by decide)).2⟩

/-- C10: the positions that `MD5_set_pose` writes for the bind pose after
`MD5_build_bind_pose_weighted_normals_tangents` are exactly those it wrote for
the bind pose before; the preprocessor keeps the bind pose and changes a mesh
at most in the normals and tangents of its vertices and weights; the positions
written for a pose are the same for any mesh of as many vertices with the same
`start` and `count` of every vertex and the same joint, bias and location of
every weight; and evaluating a pose a second time changes nothing. -/
theorem C10_bind_pose_positions_kept (M : FloatLib F) (md5 : MD5 F) (i : Nat)
    (hi : i < md5.n_mesh) (hil : i < md5.md5mesh.length)
    (hs : vertex_data_sized (rd md5.md5mesh i)) :
    let before := MD5_set_pose M md5 md5.bind_pose
    let prepared := MD5_build_bind_pose_weighted_normals_tangents M before
    let after := MD5_set_pose M prepared prepared.bind_pose
    (rd after.md5mesh i).vertex_data.vertex_array =
        (rd before.md5mesh i).vertex_data.vertex_array ∧
      prepared.bind_pose = md5.bind_pose ∧
      same_but_normals_tangents (rd before.md5mesh i) (rd prepared.md5mesh i) ∧
      (∀ (pose : List (MD5JOINT F)) (m1 : MD5MESH F),
        m1.n_vertex = (rd md5.md5mesh i).n_vertex →
        m1.vertex_data.vertex_array.length = m1.n_vertex →
        (∀ j, (rd m1.md5vertex j).start = (rd (rd md5.md5mesh i).md5vertex j).start ∧
          (rd m1.md5vertex j).count = (rd (rd md5.md5mesh i).md5vertex j).count) →
        same_skin_weights (rd md5.md5mesh i).md5weight m1.md5weight →
        (MD5_set_pose_mesh M pose m1).vertex_data.vertex_array =
          (MD5_set_pose_mesh M pose (rd md5.md5mesh i)).vertex_data.vertex_array) ∧
      (∀ pose : List (MD5JOINT F),
        rd (MD5_set_pose M (MD5_set_pose M md5 pose) pose).md5mesh i =
          rd (MD5_set_pose M md5 pose).md5mesh i) := by
  intro before prepared after
  obtain ⟨f1, f2, f3⟩ := set_pose_fields M md5 md5.bind_pose
  obtain ⟨p1, _, p3, p4, p5⟩ := bind_pose_preprocess_same M before
  have hB : rd before.md5mesh i = MD5_set_pose_mesh M md5.bind_pose (rd md5.md5mesh i) := by
    simp only [before, set_pose_md5mesh, hi, hil, and_self, if_true]
  have hbind : prepared.bind_pose = md5.bind_pose := p3.trans f2
  have hA : rd after.md5mesh i =
      MD5_set_pose_mesh M md5.bind_pose (rd prepared.md5mesh i) := by
    have h1 : i < prepared.n_mesh := by rw [p1, f1]; exact hi
    have h2 : i < prepared.md5mesh.length := by rw [p4, f3]; exact hil
    simp only [after, set_pose_md5mesh, h1, h2, and_self, if_true, hbind]
  have hBs := set_pose_mesh_sized M md5.bind_pose (rd md5.md5mesh i) hs
  refine ⟨?_, hbind, p5 i, ?_, ?_⟩
  · rw [hA, set_pose_mesh_vertex_congr M md5.bind_pose (rd before.md5mesh i)
      (rd prepared.md5mesh i) (p5 i) (by rw [hB]; exact hBs.1), hB,
      set_pose_mesh_idem M md5.bind_pose (rd md5.md5mesh i) hs]
  · intro pose m1 h1 h2 h3 h4
    exact set_pose_mesh_vertex_skin M pose (rd md5.md5mesh i) m1 h1 hs.1 h2 h3 h4
  · intro pose
    obtain ⟨g1, _, g3⟩ := set_pose_fields M md5 pose
    have h1 : i < (MD5_set_pose M md5 pose).n_mesh := by rw [g1]; exact hi
    have h2 : i < (MD5_set_pose M md5 pose).md5mesh.length := by rw [g3]; exact hil
    rw [set_pose_md5mesh M (MD5_set_pose M md5 pose) pose i, if_pos ⟨h1, h2⟩,
      set_pose_md5mesh M md5 pose i, if_pos ⟨hi, hil⟩]
    exact set_pose_mesh_idem M pose _ hs

/-- C10 at a concrete input: the example skeleton. -/
theorem C10_bind_pose_positions_kept_witness :
    (rd (MD5_set_pose rational_lib
          (MD5_build_bind_pose_weighted_normals_tangents rational_lib
            (MD5_set_pose rational_lib example_md5 example_md5.bind_pose))
          (MD5_build_bind_pose_weighted_normals_tangents rational_lib
            (MD5_set_pose rational_lib example_md5 example_md5.bind_pose)).bind_pose).md5mesh
        0).vertex_data.vertex_array =
      (rd (MD5_set_pose rational_lib example_md5 example_md5.bind_pose).md5mesh
        0).vertex_data.vertex_array :=
  (C10_bind_pose_positions_kept rational_lib example_md5 0 (by decide) (by decide)
    ⟨rfl, rfl, rfl, rfl⟩).1

/-- C11: when the pose `P1` is the pose `P` with the location of the joint `J`
moved by `d`, `MD5_set_pose` with `P1` gives every vertex the position it has
with `P` plus `d` times the sum of the biases of those weights of the vertex
that reference `J`, and the same normal, tangent and texture coordinate; a
vertex whose weights referencing `J` have biases summing to 1 moves by `d`. -/
theorem C11_MD5_set_pose_joint_moved (M : FloatLib F) (md5 : MD5 F)
    (pose : List (MD5JOINT F)) (J : Nat) (d : vec3 F) (hJ : J < pose.length)
    (i j : Nat) (hi : i < md5.n_mesh) (hil : i < md5.md5mesh.length)
    (hs : vertex_data_sized (rd md5.md5mesh i)) (hj : j < (rd md5.md5mesh i).n_vertex) :
    let md5mesh := rd md5.md5mesh i
    let v := rd md5mesh.md5vertex j
    let bias_J := Finset.sum (Finset.range v.count)
      (fun k => if (rd md5mesh.md5weight (v.start + k)).joint = (J : Int) then
        (rd md5mesh.md5weight (v.start + k)).bias else 0)
    let pose1 := pose.set J { rd pose J with location := vec3_add (rd pose J).location d }
    let out := (rd (MD5_set_pose M md5 pose).md5mesh i).vertex_data
    let out1 := (rd (MD5_set_pose M md5 pose1).md5mesh i).vertex_data
    rd out1.vertex_array j = vec3_add (rd out.vertex_array j) (vec3_bias bias_J d) ∧
      rd out1.normal_array j = rd out.normal_array j ∧
      rd out1.tangent_array j = rd out.tangent_array j ∧
      rd out1.uv_array j = rd out.uv_array j ∧
      (bias_J = 1 → rd out1.vertex_array j = vec3_add (rd out.vertex_array j) d) := by
  intro md5mesh v bias_J pose1 out out1
  have hout : out = (MD5_set_pose_mesh M pose md5mesh).vertex_data := by
    simp only [out, set_pose_md5mesh, hi, hil, and_self, if_true, md5mesh]
  have hout1 : out1 = (MD5_set_pose_mesh M pose1 md5mesh).vertex_data := by
    simp only [out1, set_pose_md5mesh, hi, hil, and_self, if_true, md5mesh]
  have hpos : rd out1.vertex_array j =
      vec3_add (rd out.vertex_array j) (vec3_bias bias_J d) := by
    rw [hout, hout1, set_pose_mesh_vertex M pose1 md5mesh hs.1 j hj,
      set_pose_mesh_vertex M pose md5mesh hs.1 j hj]
    rw [← vec3_sum_add_bias]
    apply vec3_sum_congr
    intro k _
    exact skin_position_moved M md5mesh pose J d hJ _ k
  refine ⟨hpos, ?_, ?_, ?_, ?_⟩
  · rw [hout, hout1, set_pose_mesh_normal M pose1 md5mesh hs.2.1 j hj,
      set_pose_mesh_normal M pose md5mesh hs.2.1 j hj]
    apply vec3_sum_congr
    intro k _
    exact skin_normal_moved M md5mesh pose J d hJ _ k
  · rw [hout, hout1, set_pose_mesh_tangent M pose1 md5mesh hs.2.2.2 j hj,
      set_pose_mesh_tangent M pose md5mesh hs.2.2.2 j hj]
    apply vec3_sum_congr
    intro k _
    exact skin_tangent_moved M md5mesh pose J d hJ _ k
  · rw [hout, hout1, set_pose_mesh_uv M pose1 md5mesh hs.2.2.1 j hj,
      set_pose_mesh_uv M pose md5mesh hs.2.2.1 j hj]
  · intro h1
    rw [hpos, h1]
    simp [vec3_bias]

/-- C11 at a concrete input: the first vertex of the example mesh is weighted
to the child joint with bias 1; moving the child by (0, 0, 1) moves it by
(0, 0, 1). -/
theorem C11_MD5_set_pose_joint_moved_witness :
    rd (rd (MD5_set_pose rational_lib example_md5
          (example_md5.bind_pose.set 1
            { rd example_md5.bind_pose 1 with
              location := vec3_add (rd example_md5.bind_pose 1).location ⟨0, 0, 1⟩ })).md5mesh
        0).vertex_data.vertex_array 0 =
      vec3_add
        (rd (rd (MD5_set_pose rational_lib example_md5 example_md5.bind_pose).md5mesh
          0).vertex_data.vertex_array 0) ⟨0, 0, 1⟩ :=
  (C11_MD5_set_pose_joint_moved rational_lib example_md5 example_md5.bind_pose 1 ⟨0, 0, 1⟩
    (by decide) 0 0 (by decide) (by decide) ⟨rfl, rfl, rfl, rfl⟩ (by decide)).2.2.2.2
    (by simp [example_md5, example_mesh, MD5_build_vbo_mesh, rd])

/-- C12: `MD5_action_stop` sets `curr_frame = 0`, `next_frame = 1`,
`state = STOP`, `frame_time = 0` and leaves every other field as it is, and
stopping twice is stopping once; `MD5_action_pause` changes `state` only, to
`PAUSE`. -/
theorem C12_MD5_action_stop_pause (a : MD5ACTION F) :
    MD5_action_stop a =
        { a with curr_frame := 0, next_frame := 1, state := STOP, frame_time := 0 } ∧
      (MD5_action_stop a).method = a.method ∧ (MD5_action_stop a).loop = a.loop ∧
      (MD5_action_stop a).fps = a.fps ∧ (MD5_action_stop a).frame = a.frame ∧
      (MD5_action_stop a).n_frame = a.n_frame ∧ (MD5_action_stop a).pose = a.pose ∧
      (MD5_action_stop a).name = a.name ∧
      MD5_action_stop (MD5_action_stop a) = MD5_action_stop a ∧
      MD5_action_pause a = { a with state := PAUSE } ∧
      (MD5_action_pause a).curr_frame = a.curr_frame ∧
      (MD5_action_pause a).next_frame = a.next_frame ∧
      (MD5_action_pause a).frame_time = a.frame_time :=
  ⟨rfl, rfl, rfl, rfl, rfl, rfl, rfl, rfl, rfl, rfl, rfl, rfl, rfl⟩

/-- C13: `MD5_action_play` sets `state = PLAY`, records the method and the loop
flag, and leaves the frame indices and every other field but `frame_time` as
they are; with `MD5_METHOD_FRAME` the new `frame_time` is `fps` when the old
one was zero and the old one otherwise; with any other method (`MD5_METHOD_LERP`
and `MD5_METHOD_SLERP` among them) `frame_time` is unchanged. -/
theorem C13_MD5_action_play (a : MD5ACTION F) (method loop : Nat) :
    (MD5_action_play a method loop).state = PLAY ∧
      (MD5_action_play a method loop).method = method ∧
      (MD5_action_play a method loop).loop = loop ∧
      (MD5_action_play a method loop).curr_frame = a.curr_frame ∧
      (MD5_action_play a method loop).next_frame = a.next_frame ∧
      (MD5_action_play a method loop).fps = a.fps ∧
      (MD5_action_play a method loop).frame = a.frame ∧
      (MD5_action_play a method loop).pose = a.pose ∧
      (MD5_action_play a method loop).n_frame = a.n_frame ∧
      (MD5_action_play a method loop).name = a.name ∧
      (MD5_action_play a MD5_METHOD_FRAME loop).frame_time =
        (if a.frame_time = 0 then a.fps else a.frame_time) ∧
      (method ≠ MD5_METHOD_FRAME → (MD5_action_play a method loop).frame_time = a.frame_time) ∧
      (MD5_action_play a MD5_METHOD_LERP loop).frame_time = a.frame_time ∧
      (MD5_action_play a MD5_METHOD_SLERP loop).frame_time = a.frame_time := by
  have hother : ∀ m : Nat, m ≠ MD5_METHOD_FRAME →
      MD5_action_play a m loop = { a with method := m, loop := loop, state := PLAY } := by
    intro m hm
    simp only [MD5_action_play, hm, and_false, if_false]
  have hframe : (MD5_action_play a MD5_METHOD_FRAME loop).frame_time =
      (if a.frame_time = 0 then a.fps else a.frame_time) := by
    simp only [MD5_action_play, and_true]
    split_ifs <;> rfl
  have hfields : (MD5_action_play a method loop).state = PLAY ∧
      (MD5_action_play a method loop).method = method ∧
      (MD5_action_play a method loop).loop = loop ∧
      (MD5_action_play a method loop).curr_frame = a.curr_frame ∧
      (MD5_action_play a method loop).next_frame = a.next_frame ∧
      (MD5_action_play a method loop).fps = a.fps ∧
      (MD5_action_play a method loop).frame = a.frame ∧
      (MD5_action_play a method loop).pose = a.pose ∧
      (MD5_action_play a method loop).n_frame = a.n_frame ∧
      (MD5_action_play a method loop).name = a.name := by
    simp only [MD5_action_play]
    split_ifs <;> exact ⟨rfl, rfl, rfl, rfl, rfl, rfl, rfl, rfl, rfl, rfl⟩
  obtain ⟨f1, f2, f3, f4, f5, f6, f7, f8, f9, f10⟩ := hfields
  refine ⟨f1, f2, f3, f4, f5, f6, f7, f8, f9, f10, hframe, ?_, ?_, ?_⟩
  · intro hm; rw [hother method hm]
  · rw [hother MD5_METHOD_LERP (by decide)]
  · rw [hother MD5_METHOD_SLERP (by decide)]

/-- C15: `MD5_draw_action` leaves every action whose state is not `PLAY` as it
is, and when no action below `n_action` is in the state `PLAY` it returns 0
and changes nothing. -/
theorem C15_MD5_draw_action_idle (M : FloatLib F) (md5 : MD5 F) (dt : F) :
    (∀ i, (rd md5.md5action i).state ≠ PLAY →
        rd (MD5_draw_action M md5 dt).1.md5action i = rd md5.md5action i) ∧
      ((∀ i, i < md5.n_action → (rd md5.md5action i).state ≠ PLAY) →
        (MD5_draw_action M md5 dt).2 = 0 ∧ (MD5_draw_action M md5 dt).1 = md5) := by
  constructor
  · intro i hs
    rw [draw_action_fst]
    simp only []
    rw [whileIdx_set_rd (fun _ a => (MD5_draw_action_body M md5 dt a 0).1)]
    split_ifs
    · simp only [MD5_draw_action_body, hs, if_false]
    · rfl
  · intro h
    have e : MD5_draw_action M md5 dt = (md5, 0) := draw_action_idle M md5 dt md5.n_action h
    rw [e]
    exact ⟨rfl, rfl⟩

/-- C15 at a concrete input: the example skeleton, whose one action is
stopped. -/
theorem C15_MD5_draw_action_idle_witness :
    (MD5_draw_action rational_lib example_skeleton (1 / 24)).2 = 0 ∧
      (MD5_draw_action rational_lib example_skeleton (1 / 24)).1 = example_skeleton :=
  (C15_MD5_draw_action_idle rational_lib example_skeleton (1 / 24)).2 (by decide)

/-- C16: `MD5_get_action` returns the action of smallest index below `n_action`
whose name equals the query (`exact_name` non-zero) or contains the query
(`exact_name` zero), and `NULL` exactly when no action matches; `MD5_get_mesh`
does the same over the shader names of the meshes; so when the exact lookup
succeeds, the substring lookup succeeds as well, at an index no greater. -/
theorem C16_MD5_get_action_mesh (md5 : MD5 F) (name : String) (exact_name : Nat) :
    (∀ i, MD5_get_action md5 name exact_name = some i ↔
      (i < md5.n_action ∧
        (if exact_name ≠ 0 then (rd md5.md5action i).name = name
          else name.data <:+: (rd md5.md5action i).name.data) ∧
        ∀ j, j < i →
          ¬ (if exact_name ≠ 0 then (rd md5.md5action j).name = name
            else name.data <:+: (rd md5.md5action j).name.data))) ∧
      (MD5_get_action md5 name exact_name = none ↔
        ∀ j, j < md5.n_action →
          ¬ (if exact_name ≠ 0 then (rd md5.md5action j).name = name
            else name.data <:+: (rd md5.md5action j).name.data)) ∧
      (∀ i, MD5_get_mesh md5 name exact_name = some i ↔
        (i < md5.n_mesh ∧
          (if exact_name ≠ 0 then (rd md5.md5mesh i).shader = name
            else name.data <:+: (rd md5.md5mesh i).shader.data) ∧
          ∀ j, j < i →
            ¬ (if exact_name ≠ 0 then (rd md5.md5mesh j).shader = name
              else name.data <:+: (rd md5.md5mesh j).shader.data))) ∧
      (MD5_get_mesh md5 name exact_name = none ↔
        ∀ j, j < md5.n_mesh →
          ¬ (if exact_name ≠ 0 then (rd md5.md5mesh j).shader = name
            else name.data <:+: (rd md5.md5mesh j).shader.data)) ∧
      (exact_name ≠ 0 → ∀ i, MD5_get_action md5 name exact_name = some i →
        ∃ j, j ≤ i ∧ MD5_get_action md5 name 0 = some j) ∧
      (exact_name ≠ 0 → ∀ i, MD5_get_mesh md5 name exact_name = some i →
        ∃ j, j ≤ i ∧ MD5_get_mesh md5 name 0 = some j) := by
  have key : ∀ (names : Nat → String) (n : Nat),
      (∀ i, first_match
          (fun i => if exact_name ≠ 0 then strcmp_equal (names i) name
            else strstr_found (names i) name) n 0 = some i ↔
        (i < n ∧
          (if exact_name ≠ 0 then names i = name else name.data <:+: (names i).data) ∧
          ∀ j, j < i →
            ¬ (if exact_name ≠ 0 then names j = name else name.data <:+: (names j).data))) ∧
      (first_match
          (fun i => if exact_name ≠ 0 then strcmp_equal (names i) name
            else strstr_found (names i) name) n 0 = none ↔
        ∀ j, j < n →
          ¬ (if exact_name ≠ 0 then names j = name else name.data <:+: (names j).data)) ∧
      (exact_name ≠ 0 → ∀ i, first_match
          (fun i => if exact_name ≠ 0 then strcmp_equal (names i) name
            else strstr_found (names i) name) n 0 = some i →
        ∃ j, j ≤ i ∧ first_match
          (fun i => if (0 : Nat) ≠ 0 then strcmp_equal (names i) name
            else strstr_found (names i) name) n 0 = some j) := by
    intro names n
    have hb : ∀ i, ((if exact_name ≠ 0 then strcmp_equal (names i) name
          else strstr_found (names i) name) = true) ↔
        (if exact_name ≠ 0 then names i = name else name.data <:+: (names i).data) := by
      intro i
      by_cases he : exact_name ≠ 0
      · simp only [if_pos he, strcmp_equal, decide_eq_true_eq]
      · simp only [if_neg he, strstr_found, decide_eq_true_eq]
    have hbf : ∀ i, ((if exact_name ≠ 0 then strcmp_equal (names i) name
          else strstr_found (names i) name) = false) ↔
        ¬ (if exact_name ≠ 0 then names i = name else name.data <:+: (names i).data) := by
      intro i
      rw [← hb i]
      simp
    refine ⟨?_, ?_, ?_⟩
    · intro i
      rw [first_match_some]
      simp only [hb, hbf, Nat.zero_add, Nat.zero_le, true_and, forall_const]
    · rw [first_match_none]
      simp only [hbf, Nat.zero_add, Nat.zero_le, forall_const]
    · intro he i hi
      apply first_match_le _ _ _ n i hi
      intro r hr
      simp only [if_pos he] at hr
      simp only [ne_eq, not_true_eq_false, if_false]
      exact strcmp_strstr _ _ hr
  obtain ⟨a1, a2, a3⟩ := key (fun i => (rd md5.md5action i).name) md5.n_action
  obtain ⟨m1, m2, m3⟩ := key (fun i => (rd md5.md5mesh i).shader) md5.n_mesh
  exact ⟨a1, a2, m1, m2, a3, m3⟩

/-- C17: `vec4_lerp` is not the component-wise linear blend.  Between
(0, 0, 0, 1) and (0, 0, 0, -1) at `t = 1/2` it returns (0, 0, 0, 1) whatever
the math library is, where the linear blend is (0, 0, 0, 0), and
`MD5_blend_pose` with `MD5_METHOD_LERP` stores that rotation.  With the real
square root, sine and arc tangent, between (0, 0, 0, 1) and (1, 0, 0, 0) at
`t = 1/2` its X is `sqrt 2 / 2`, where the linear blend has `1/2`. -/
theorem C17_vec4_lerp_not_linear :
    (∀ M : FloatLib ℚ,
      vec4_lerp M ⟨0, 0, 0, 1⟩ ⟨0, 0, 0, -1⟩ (1 / 2) = ⟨0, 0, 0, 1⟩) ∧
    vec4_linear_blend (⟨0, 0, 0, 1⟩ : vec4 ℚ) ⟨0, 0, 0, -1⟩ (1 / 2) = ⟨0, 0, 0, 0⟩ ∧
    (∀ M : FloatLib ℚ,
      (rd (MD5_blend_pose M example_md5 example_md5.bind_pose
            [⟨"root", -1, ⟨0, 0, 0⟩, ⟨0, 0, 0, 1⟩⟩] [⟨"root", -1, ⟨0, 0, 0⟩, ⟨0, 0, 0, -1⟩⟩]
            MD5_METHOD_LERP (1 / 2)) 0).rotation = ⟨0, 0, 0, 1⟩) ∧
    (vec4_lerp
        (⟨Real.sqrt, Real.sin, fun s c => Complex.arg ⟨c, s⟩, fun a b => a / b⟩ : FloatLib ℝ)
        ⟨0, 0, 0, 1⟩ ⟨1, 0, 0, 0⟩ (1 / 2)).x = Real.sqrt 2 / 2 ∧
    (vec4_linear_blend (⟨0, 0, 0, 1⟩ : vec4 ℝ) ⟨1, 0, 0, 0⟩ (1 / 2)).x = 1 / 2 ∧
    Real.sqrt 2 / 2 ≠ 1 / 2 := by
  have hI : Complex.arg ⟨0, 1⟩ = Real.pi / 2 := Complex.arg_I
  refine ⟨?_, ?_, ?_, ?_, ?_, ?_⟩
  · intro M
    norm_num [vec4_lerp, vec4_dot_vec4]
  · norm_num [vec4_linear_blend]
  · intro M
    rw [blend_pose_rd]
    norm_num [example_md5, rd, MD5_METHOD_LERP, MD5_METHOD_FRAME, vec4_lerp, vec4_dot_vec4]
  · norm_num [vec4_lerp, vec4_dot_vec4, hI]
    rw [show (1 / 2 : ℝ) * (Real.pi / 2) = Real.pi / 4 by ring, Real.sin_pi_div_four]
  · norm_num [vec4_linear_blend]
  · intro h
    have h2 : Real.sqrt 2 = 1 := by linarith
    have h3 := Real.sq_sqrt (show (0 : ℝ) ≤ 2 by norm_num)
    rw [h2] at h3
    norm_num at h3

/-- C18: `MD5_update_bound_mesh` leaves the meshes as they are, and for every
vertex `j < n_vertex` of every mesh `i < n_mesh` the position it reads lies
between `min` and `max` on each axis.  When there is at least one such vertex
and every coordinate of every such position lies strictly between
`-99999.999` and `99999.999`, each component of `min` and of `max` is the
coordinate of one of these positions.  `dimension` is `max - min` and `radius`
is half of the largest of `dimension.x`, `dimension.y` and `dimension.z`. -/
theorem C18_MD5_update_bound_mesh (md5 : MD5 F) :
    ((MD5_update_bound_mesh md5).md5mesh = md5.md5mesh ∧
      (MD5_update_bound_mesh md5).n_mesh = md5.n_mesh) ∧
    (∀ i j, i < md5.n_mesh → j < (rd md5.md5mesh i).n_vertex →
      ((MD5_update_bound_mesh md5).min.x ≤ (bound_vertex md5 i j).x ∧
        (bound_vertex md5 i j).x ≤ (MD5_update_bound_mesh md5).max.x) ∧
      ((MD5_update_bound_mesh md5).min.y ≤ (bound_vertex md5 i j).y ∧
        (bound_vertex md5 i j).y ≤ (MD5_update_bound_mesh md5).max.y) ∧
      ((MD5_update_bound_mesh md5).min.z ≤ (bound_vertex md5 i j).z ∧
        (bound_vertex md5 i j).z ≤ (MD5_update_bound_mesh md5).max.z)) ∧
    ((∃ i j, i < md5.n_mesh ∧ j < (rd md5.md5mesh i).n_vertex) →
      (∀ i j, i < md5.n_mesh → j < (rd md5.md5mesh i).n_vertex →
        (-(99999999 / 1000) < (bound_vertex md5 i j).x ∧
          (bound_vertex md5 i j).x < 99999999 / 1000) ∧
        (-(99999999 / 1000) < (bound_vertex md5 i j).y ∧
          (bound_vertex md5 i j).y < 99999999 / 1000) ∧
        (-(99999999 / 1000) < (bound_vertex md5 i j).z ∧
          (bound_vertex md5 i j).z < 99999999 / 1000)) →
      (∃ i j, i < md5.n_mesh ∧ j < (rd md5.md5mesh i).n_vertex ∧
        (MD5_update_bound_mesh md5).min.x = (bound_vertex md5 i j).x) ∧
      (∃ i j, i < md5.n_mesh ∧ j < (rd md5.md5mesh i).n_vertex ∧
        (MD5_update_bound_mesh md5).min.y = (bound_vertex md5 i j).y) ∧
      (∃ i j, i < md5.n_mesh ∧ j < (rd md5.md5mesh i).n_vertex ∧
        (MD5_update_bound_mesh md5).min.z = (bound_vertex md5 i j).z) ∧
      (∃ i j, i < md5.n_mesh ∧ j < (rd md5.md5mesh i).n_vertex ∧
        (MD5_update_bound_mesh md5).max.x = (bound_vertex md5 i j).x) ∧
      (∃ i j, i < md5.n_mesh ∧ j < (rd md5.md5mesh i).n_vertex ∧
        (MD5_update_bound_mesh md5).max.y = (bound_vertex md5 i j).y) ∧
      (∃ i j, i < md5.n_mesh ∧ j < (rd md5.md5mesh i).n_vertex ∧
        (MD5_update_bound_mesh md5).max.z = (bound_vertex md5 i j).z)) ∧
    (MD5_update_bound_mesh md5).dimension =
      vec3_diff (MD5_update_bound_mesh md5).max (MD5_update_bound_mesh md5).min ∧
    (MD5_update_bound_mesh md5).radius =
      max (max (MD5_update_bound_mesh md5).dimension.x (MD5_update_bound_mesh md5).dimension.y)
        (MD5_update_bound_mesh md5).dimension.z / 2 := by
  obtain ⟨L, hL, hr⟩ := update_bound_mesh_eq md5
  obtain ⟨hkeep, hbound, ax, ay, az, bx, by1, bz⟩ := update_bound_loop_facts md5 _ _ L hL
  rw [hr]
  refine ⟨hkeep, hbound, ?_, rfl, rfl⟩
  rintro ⟨i0, j0, hi0, hj0⟩ hall
  have hb := hbound i0 j0 hi0 hj0
  have hs := hall i0 j0 hi0 hj0
  refine ⟨?_, ?_, ?_, ?_, ?_, ?_⟩
  · rcases ax with h | h
    · have h1 : L.min.x = 99999999 / 1000 := h
      have h2 := hb.1.1
      rw [h1] at h2
      exact absurd h2 (not_le.mpr hs.1.2)
    · exact h
  · rcases ay with h | h
    · have h1 : L.min.y = 99999999 / 1000 := h
      have h2 := hb.2.1.1
      rw [h1] at h2
      exact absurd h2 (not_le.mpr hs.2.1.2)
    · exact h
  · rcases az with h | h
    · have h1 : L.min.z = 99999999 / 1000 := h
      have h2 := hb.2.2.1
      rw [h1] at h2
      exact absurd h2 (not_le.mpr hs.2.2.2)
    · exact h
  · rcases bx with h | h
    · have h1 : L.max.x = -(99999999 / 1000) := h
      have h2 := hb.1.2
      rw [h1] at h2
      exact absurd h2 (not_le.mpr hs.1.1)
    · exact h
  · rcases by1 with h | h
    · have h1 : L.max.y = -(99999999 / 1000) := h
      have h2 := hb.2.1.2
      rw [h1] at h2
      exact absurd h2 (not_le.mpr hs.2.1.1)
    · exact h
  · rcases bz with h | h
    · have h1 : L.max.z = -(99999999 / 1000) := h
      have h2 := hb.2.2.2
      rw [h1] at h2
      exact absurd h2 (not_le.mpr hs.2.2.1)
    · exact h

/-- On the skeleton with positions (0, 0, 0), (1, 0, 0) and (1, 1, 1) the X of
`min` and the X of `max` are each the X of one of the three positions. -/
theorem C18_MD5_update_bound_mesh_witness :
    (∃ i j, i < example_box.n_mesh ∧ j < (rd example_box.md5mesh i).n_vertex ∧
        (MD5_update_bound_mesh example_box).min.x = (bound_vertex example_box i j).x) ∧
      (∃ i j, i < example_box.n_mesh ∧ j < (rd example_box.md5mesh i).n_vertex ∧
        (MD5_update_bound_mesh example_box).max.x = (bound_vertex example_box i j).x) :=
  have h := (C18_MD5_update_bound_mesh example_box).2.2.1 ⟨0, 0, by decide, by decide⟩
    (by
      intro i j hi hj
      have hi0 : i = 0 := by
        have : i < 1 := hi
        omega
      subst hi0
      have hj3 : j < 3 := hj
      interval_cases j <;> norm_num [bound_vertex, example_box, rd])
  ⟨h.1, h.2.2.2.1⟩

/-- C19: the radius of `MD5_update_bound_mesh` is not that of a bounding
sphere.  On the skeleton with the positions (0, 0, 0), (1, 0, 0) and (1, 1, 1)
the radius is `1/2` and the centre of the box is (1/2, 1/2, 1/2); vertex 2 of
mesh 0 is (1, 1, 1), whose squared distance to the centre is `3/4`, more than
the squared radius `1/4`. -/
theorem C19_MD5_update_bound_mesh_radius :
    (MD5_update_bound_mesh example_box).radius = 1 / 2 ∧
    bound_centre (MD5_update_bound_mesh example_box) = ⟨1 / 2, 1 / 2, 1 / 2⟩ ∧
    (0 < (MD5_update_bound_mesh example_box).n_mesh ∧
      2 < (rd (MD5_update_bound_mesh example_box).md5mesh 0).n_vertex) ∧
    bound_vertex (MD5_update_bound_mesh example_box) 0 2 = ⟨1, 1, 1⟩ ∧
    vec3_dot (vec3_diff (bound_vertex (MD5_update_bound_mesh example_box) 0 2)
        (bound_centre (MD5_update_bound_mesh example_box))) = 3 / 4 ∧
    (MD5_update_bound_mesh example_box).radius * (MD5_update_bound_mesh example_box).radius <
      vec3_dot (vec3_diff (bound_vertex (MD5_update_bound_mesh example_box) 0 2)
        (bound_centre (MD5_update_bound_mesh example_box))) := by
  have h : MD5_update_bound_mesh example_box =
      { example_box with min := ⟨0, 0, 0⟩, max := ⟨1, 1, 1⟩, dimension := ⟨1, 1, 1⟩,
                         radius := 1 / 2 } := by
    norm_num [MD5_update_bound_mesh, example_box, whileIdx, rd, MD5_update_bound_vertex,
      vec3_diff, MD5_new]
  rw [h]
  norm_num [example_box, rd, bound_centre, bound_vertex, vec3_dot, vec3_diff]

/-- C20: the index count of a loaded mesh is `3 * n_triangle` reduced modulo
65536.  A record `tri k a b c` with `k` inside the triangle array stores
(c, b, a), each reduced to 16 bits; `numtris n` sets `n_triangle = n` and
`n_indice = (n * 3) mod 65536`; the index buffer has `n_indice` entries and
its entry `3k + j` inside the buffer is `indice[ j ]` of triangle `k`.  A file
whose mesh declares 21846 triangles loads with `n_triangle = 21846`,
`n_indice = 2` and an index buffer of 2 entries, not 65538. -/
theorem C20_MD5_load_mesh_indice_count :
    (∀ (m : MD5MESH ℚ) (k a b c : Nat), k < m.md5triangle.length →
      rd (MD5_load_mesh_line m (MESHLINE.tri k a b c)).md5triangle k =
        ⟨c % 65536, b % 65536, a % 65536⟩) ∧
    (∀ (m : MD5MESH ℚ) (n : Nat),
      (MD5_load_mesh_line m (MESHLINE.numtris n)).n_triangle = n ∧
      (MD5_load_mesh_line m (MESHLINE.numtris n)).n_indice = (n * 3) % 65536) ∧
    (∀ (m : MD5MESH ℚ),
      (MD5_load_mesh_indice m).indice.length = m.n_indice ∧
      ∀ k j, j < 3 → 3 * k + j < m.n_indice →
        rd (MD5_load_mesh_indice m).indice (3 * k + j) =
          if j = 0 then (rd m.md5triangle k).indice0
          else if j = 1 then (rd m.md5triangle k).indice1 else (rd m.md5triangle k).indice2) ∧
    (∃ md5, MD5_load_mesh rational_lib "large" (some example_large_file) = some md5 ∧
      md5.n_mesh = 1 ∧ (rd md5.md5mesh 0).n_triangle = 21846 ∧
      (rd md5.md5mesh 0).n_indice = 2 ∧ (rd md5.md5mesh 0).indice.length = 2 ∧
      (rd md5.md5mesh 0).n_indice ≠ 3 * (rd md5.md5mesh 0).n_triangle) := by
  refine ⟨?_, ?_, ?_, ?_⟩
  · intro m k a b c hk
    exact rd_set_self _ _ _ hk
  · intro m n
    exact ⟨rfl, rfl⟩
  · intro m
    refine ⟨by simp [MD5_load_mesh_indice], ?_⟩
    intro k j hj hlt
    have h1 : (3 * k + j) / 3 = k := by omega
    have h2 : (3 * k + j) % 3 = j := by omega
    simp [MD5_load_mesh_indice, rd, List.getD_eq_getElem?_getD, List.getElem?_map,
      List.getElem?_range, hlt, triangle_short, h1, h2]
  · exact ⟨_, rfl, rfl, rfl, rfl, rfl, by decide⟩

/-- C21 as stated fails: the example action plays without loop at
`curr_frame = 2` of 4 frames.  A tick of one frame period in frame-stepped mode
advances it to `curr_frame = 3`, `next_frame = 0` and it keeps playing; the
same tick in `MD5_METHOD_LERP` mode, whose interpolation factor is 1, stops
it: `curr_frame = 0`, `next_frame = 1`, `state = STOP`, `frame_time = 0`. -/
theorem C21_interpolated_advance_counterexample :
    ((rd (MD5_draw_action rational_lib
          { example_near_end with
            md5action := example_near_end.md5action.set 0
              { rd example_near_end.md5action 0 with method := MD5_METHOD_FRAME } }
          (1 / 24)).1.md5action 0).curr_frame = 3 ∧
      (rd (MD5_draw_action rational_lib
          { example_near_end with
            md5action := example_near_end.md5action.set 0
              { rd example_near_end.md5action 0 with method := MD5_METHOD_FRAME } }
          (1 / 24)).1.md5action 0).next_frame = 0 ∧
      (rd (MD5_draw_action rational_lib
          { example_near_end with
            md5action := example_near_end.md5action.set 0
              { rd example_near_end.md5action 0 with method := MD5_METHOD_FRAME } }
          (1 / 24)).1.md5action 0).state = PLAY) ∧
    ((rd (MD5_draw_action rational_lib
          { example_near_end with
            md5action := example_near_end.md5action.set 0
              { rd example_near_end.md5action 0 with method := MD5_METHOD_LERP } }
          (1 / 24)).1.md5action 0).curr_frame = 0 ∧
      (rd (MD5_draw_action rational_lib
          { example_near_end with
            md5action := example_near_end.md5action.set 0
              { rd example_near_end.md5action 0 with method := MD5_METHOD_LERP } }
          (1 / 24)).1.md5action 0).next_frame = 1 ∧
      (rd (MD5_draw_action rational_lib
          { example_near_end with
            md5action := example_near_end.md5action.set 0
              { rd example_near_end.md5action 0 with method := MD5_METHOD_LERP } }
          (1 / 24)).1.md5action 0).state = STOP ∧
      (rd (MD5_draw_action rational_lib
          { example_near_end with
            md5action := example_near_end.md5action.set 0
              { rd example_near_end.md5action 0 with method := MD5_METHOD_LERP } }
          (1 / 24)).1.md5action 0).frame_time = 0) := by
  constructor
  · rw [draw_action_rd rational_lib _ (1 / 24) 0 (by decide) (by decide),
      frame_tick_advance rational_lib _ (1 / 24) _ 0 rfl rfl
        (by norm_num [example_near_end, example_action, rd])
        (Or.inr (by norm_num [example_near_end, example_action, rd]))]
    norm_num [example_near_end, example_action, rd, PLAY]
  · rw [draw_action_rd rational_lib _ (1 / 24) 0 (by decide) (by decide),
      blend_tick_stop rational_lib _ (1 / 24) _ 0 rfl (Or.inl rfl)
        (by norm_num [example_near_end, example_action, rd, CLAMP, rational_lib]) rfl
        (by norm_num [example_near_end, example_action, rd])]
    exact ⟨rfl, rfl, rfl, rfl⟩

/-- C21, amended: for a playing action with `n_frame >= 2` and
`0 <= curr_frame < n_frame`, compare the tick in `MD5_METHOD_LERP` or
`MD5_METHOD_SLERP` mode whose interpolation factor reaches 1 with the advancing
tick in frame-stepped mode from the same state.  When the action loops, or
when `curr_frame + 2 < n_frame`, both give the same `curr_frame`, `next_frame`
and `state` (it keeps playing) and both subtract one frame period from
`frame_time`.  When it does not loop and `curr_frame + 2 = n_frame`, the
interpolated tick stops the action (`curr_frame = 0`, `next_frame = 1`,
`state = STOP`, `frame_time = 0`) while the frame-stepped tick advances to the
last frame with `next_frame = 0` and keeps playing. -/
theorem C21_interpolated_advance_amended (M : FloatLib F) (md5 : MD5 F) (i : Nat) (dt : F)
    (method : Nat) (hi : i < md5.n_action) (hl : i < md5.md5action.length)
    (hstate : (rd md5.md5action i).state = PLAY)
    (hmethod : method = MD5_METHOD_LERP ∨ method = MD5_METHOD_SLERP)
    (hn : 2 ≤ (rd md5.md5action i).n_frame)
    (hc0 : 0 ≤ (rd md5.md5action i).curr_frame)
    (hc : (rd md5.md5action i).curr_frame < ((rd md5.md5action i).n_frame : Int))
    (hf : (rd md5.md5action i).fps ≤ (rd md5.md5action i).frame_time + dt)
    (ht : 1 ≤ CLAMP (M.fdiv ((rd md5.md5action i).frame_time + dt) (rd md5.md5action i).fps)
      0 1) :
    let a := rd md5.md5action i
    let f := rd (MD5_draw_action M
      { md5 with md5action := md5.md5action.set i { a with method := MD5_METHOD_FRAME } }
      dt).1.md5action i
    let b := rd (MD5_draw_action M
      { md5 with md5action := md5.md5action.set i { a with method := method } }
      dt).1.md5action i
    ((a.loop ≠ 0 ∨ a.curr_frame + 2 < (a.n_frame : Int)) →
      b.curr_frame = f.curr_frame ∧ b.next_frame = f.next_frame ∧ b.state = f.state ∧
      b.state = PLAY ∧ b.frame_time = a.frame_time + dt - a.fps ∧
      f.frame_time = a.frame_time + dt - a.fps ∧ 0 ≤ b.curr_frame ∧
      b.curr_frame < (a.n_frame : Int) ∧ 0 ≤ b.next_frame ∧ b.next_frame < (a.n_frame : Int)) ∧
    ((a.loop = 0 ∧ a.curr_frame + 2 = (a.n_frame : Int)) →
      (b.curr_frame = 0 ∧ b.next_frame = 1 ∧ b.state = STOP ∧ b.frame_time = 0) ∧
      (f.curr_frame = a.curr_frame + 1 ∧ f.next_frame = 0 ∧ f.state = PLAY ∧
        f.frame_time = a.frame_time + dt - a.fps)) := by
  intro a f b
  have hn2 : (2 : Int) ≤ (a.n_frame : Int) := by exact_mod_cast hn
  have hc0a : 0 ≤ a.curr_frame := hc0
  have hca : a.curr_frame < (a.n_frame : Int) := hc
  have hf1 : f = (MD5_draw_action_body M
      { md5 with md5action := md5.md5action.set i { a with method := MD5_METHOD_FRAME } } dt
      { a with method := MD5_METHOD_FRAME } 0).1 := by
    have h := draw_action_rd M
      { md5 with md5action := md5.md5action.set i { a with method := MD5_METHOD_FRAME } } dt i
      hi (by simpa using hl)
    rw [rd_set_self _ _ _ hl] at h
    exact h
  have hb1 : b = (MD5_draw_action_body M
      { md5 with md5action := md5.md5action.set i { a with method := method } } dt
      { a with method := method } 0).1 := by
    have h := draw_action_rd M
      { md5 with md5action := md5.md5action.set i { a with method := method } } dt i
      hi (by simpa using hl)
    rw [rd_set_self _ _ _ hl] at h
    exact h
  refine ⟨?_, ?_⟩
  · intro hgo
    have hgoF : a.loop ≠ 0 ∨ a.curr_frame + 1 ≠ (a.n_frame : Int) := by
      rcases hgo with h | h
      · exact Or.inl h
      · exact Or.inr (by omega)
    rw [frame_tick_advance M _ dt { a with method := MD5_METHOD_FRAME } 0 hstate rfl hf hgoF]
      at hf1
    by_cases hloop : a.loop = 0
    · have h2 : a.curr_frame + 2 < (a.n_frame : Int) := by
        rcases hgo with h | h
        · exact absurd hloop h
        · exact h
      rw [blend_tick_go M _ dt { a with method := method } 0 hstate hmethod ht hloop
        (by show a.curr_frame + 1 + 1 ≠ (a.n_frame : Int); omega)] at hb1
      rw [hf1, hb1]
      have e1 : ¬ (a.curr_frame + 1 = (a.n_frame : Int)) := by omega
      have e2 : ¬ (a.curr_frame + 1 + 1 = (a.n_frame : Int)) := by omega
      simp only [if_neg e1, if_neg e2]
      refine ⟨?_, ?_, ?_, ?_, ?_, ?_, ?_, ?_, ?_, ?_⟩ <;>
        first | trivial | rfl | exact hstate | omega
    · rw [blend_tick_loop M _ dt { a with method := method } 0 hstate hmethod ht hloop] at hb1
      rw [hf1, hb1]
      by_cases e1 : a.curr_frame + 1 = (a.n_frame : Int)
      · have e3 : ¬ ((1 : Int) = (a.n_frame : Int)) := by omega
        have e4 : ¬ ((0 : Int) + 1 = (a.n_frame : Int)) := by omega
        simp only [if_pos e1, if_neg e3, if_neg e4]
        refine ⟨?_, ?_, ?_, ?_, ?_, ?_, ?_, ?_, ?_, ?_⟩ <;>
          first | trivial | rfl | exact hstate | omega
      · by_cases e2 : a.curr_frame + 1 + 1 = (a.n_frame : Int)
        · simp only [if_neg e1, if_pos e2]
          refine ⟨?_, ?_, ?_, ?_, ?_, ?_, ?_, ?_, ?_, ?_⟩ <;>
            first | trivial | rfl | exact hstate | omega
        · simp only [if_neg e1, if_neg e2]
          refine ⟨?_, ?_, ?_, ?_, ?_, ?_, ?_, ?_, ?_, ?_⟩ <;>
            first | trivial | rfl | exact hstate | omega
  · rintro ⟨hloop, h2⟩
    rw [frame_tick_advance M _ dt { a with method := MD5_METHOD_FRAME } 0 hstate rfl hf
      (Or.inr (by show a.curr_frame + 1 ≠ (a.n_frame : Int); omega))] at hf1
    rw [blend_tick_stop M _ dt { a with method := method } 0 hstate hmethod ht hloop
      (by show a.curr_frame + 1 + 1 = (a.n_frame : Int); omega)] at hb1
    rw [hf1, hb1]
    have e1 : ¬ (a.curr_frame + 1 = (a.n_frame : Int)) := by omega
    have e2 : a.curr_frame + 1 + 1 = (a.n_frame : Int) := by omega
    simp only [if_neg e1, if_pos e2]
    refine ⟨⟨?_, ?_, ?_, ?_⟩, ?_, ?_, ?_, ?_⟩ <;> trivial

/-- C21, amended, at a concrete input: the example action, not looping, at
`curr_frame = 2` of 4 frames is stopped by the interpolated tick and advanced
to the last frame by the frame-stepped tick. -/
theorem C21_interpolated_advance_amended_witness :
    (rd (MD5_draw_action rational_lib
          { example_near_end with
            md5action := example_near_end.md5action.set 0
              { rd example_near_end.md5action 0 with method := MD5_METHOD_SLERP } }
          (1 / 24)).1.md5action 0).state = STOP ∧
      (rd (MD5_draw_action rational_lib
          { example_near_end with
            md5action := example_near_end.md5action.set 0
              { rd example_near_end.md5action 0 with method := MD5_METHOD_FRAME } }
          (1 / 24)).1.md5action 0).next_frame = 0 :=
  have h := (C21_interpolated_advance_amended rational_lib example_near_end 0 (1 / 24)
    MD5_METHOD_SLERP (by decide) (by decide) rfl (Or.inr rfl) (by decide) (by decide)
    (by decide)
    (by norm_num [example_near_end, example_action, rd])
    (by norm_num [example_near_end, example_action, rd, CLAMP, rational_lib])).2
    ⟨rfl, by decide⟩
  ⟨h.1.2.2.1, h.2.2.1⟩

/-- C22: the division by the UV determinant is not guarded.  For a triangle
whose determinant `uv1.x * uv2.y - uv2.x * uv1.y` is zero the tangent is the
vector `v1 * uv2.y + v2 * uv1.y` times the result of dividing 1 by 0.  On the
triangle (0, 0, 0), (1, 0, 0), (0, 1, 0) with the texture coordinates (0, 0),
(1, 1), (2, 2), whose determinant is zero, a library in which `1 / 0` is `r`
makes `MD5_bind_triangle` add (-2 r, -r, 0) to the tangent of each of the three
vertices: for `r = 1` this is (-2, -1, 0), not the zero vector. -/
theorem C22_tangent_division_unguarded :
    (∀ (M : FloatLib ℚ) (v1 v2 : vec3 ℚ) (uv1 uv2 : vec2 ℚ),
      uv1.x * uv2.y - uv2.x * uv1.y = 0 →
      triangle_tangent M v1 v2 uv1 uv2 =
        ⟨(v1.x * uv2.y + v2.x * uv1.y) * M.fdiv 1 0, (v1.y * uv2.y + v2.y * uv1.y) * M.fdiv 1 0,
         (v1.z * uv2.y + v2.z * uv1.y) * M.fdiv 1 0⟩) ∧
    (vec2_diff (⟨1, 1⟩ : vec2 ℚ) ⟨0, 0⟩).x * (vec2_diff (⟨2, 2⟩ : vec2 ℚ) ⟨0, 0⟩).y -
      (vec2_diff (⟨2, 2⟩ : vec2 ℚ) ⟨0, 0⟩).x * (vec2_diff (⟨1, 1⟩ : vec2 ℚ) ⟨0, 0⟩).y = 0 ∧
    (∀ r : ℚ,
      (rd (MD5_bind_triangle (zero_division_lib r) example_triangle_positions ⟨0, 1, 2⟩
          (example_triangle_vertices ⟨0, 0⟩ ⟨1, 1⟩ ⟨2, 2⟩)) 0).tangent = ⟨-2 * r, -r, 0⟩ ∧
      (rd (MD5_bind_triangle (zero_division_lib r) example_triangle_positions ⟨0, 1, 2⟩
          (example_triangle_vertices ⟨0, 0⟩ ⟨1, 1⟩ ⟨2, 2⟩)) 1).tangent = ⟨-2 * r, -r, 0⟩ ∧
      (rd (MD5_bind_triangle (zero_division_lib r) example_triangle_positions ⟨0, 1, 2⟩
          (example_triangle_vertices ⟨0, 0⟩ ⟨1, 1⟩ ⟨2, 2⟩)) 2).tangent = ⟨-2 * r, -r, 0⟩) ∧
    (rd (MD5_bind_triangle (zero_division_lib 1) example_triangle_positions ⟨0, 1, 2⟩
        (example_triangle_vertices ⟨0, 0⟩ ⟨1, 1⟩ ⟨2, 2⟩)) 0).tangent = ⟨-2, -1, 0⟩ := by
  have key : ∀ r : ℚ,
      (rd (MD5_bind_triangle (zero_division_lib r) example_triangle_positions ⟨0, 1, 2⟩
          (example_triangle_vertices ⟨0, 0⟩ ⟨1, 1⟩ ⟨2, 2⟩)) 0).tangent = ⟨-2 * r, -r, 0⟩ ∧
      (rd (MD5_bind_triangle (zero_division_lib r) example_triangle_positions ⟨0, 1, 2⟩
          (example_triangle_vertices ⟨0, 0⟩ ⟨1, 1⟩ ⟨2, 2⟩)) 1).tangent = ⟨-2 * r, -r, 0⟩ ∧
      (rd (MD5_bind_triangle (zero_division_lib r) example_triangle_positions ⟨0, 1, 2⟩
          (example_triangle_vertices ⟨0, 0⟩ ⟨1, 1⟩ ⟨2, 2⟩)) 2).tangent = ⟨-2 * r, -r, 0⟩ := by
    intro r
    have hT : (⟨-2 * r, -r, 0⟩ : vec3 ℚ) =
        triangle_tangent (zero_division_lib r)
          (vec3_diff (rd example_triangle_positions 0) (rd example_triangle_positions 1))
          (vec3_diff (rd example_triangle_positions 0) (rd example_triangle_positions 2))
          (vec2_diff (rd (example_triangle_vertices ⟨0, 0⟩ ⟨1, 1⟩ ⟨2, 2⟩) 1).uv
            (rd (example_triangle_vertices ⟨0, 0⟩ ⟨1, 1⟩ ⟨2, 2⟩) 0).uv)
          (vec2_diff (rd (example_triangle_vertices ⟨0, 0⟩ ⟨1, 1⟩ ⟨2, 2⟩) 2).uv
            (rd (example_triangle_vertices ⟨0, 0⟩ ⟨1, 1⟩ ⟨2, 2⟩) 0).uv) := by
      norm_num [triangle_tangent, zero_division_lib, rational_lib, vec3_diff, vec2_diff, rd,
        example_triangle_positions, example_triangle_vertices]
    have h := bind_triangle_tangent (zero_division_lib r) example_triangle_positions ⟨0, 1, 2⟩
      (example_triangle_vertices ⟨0, 0⟩ ⟨1, 1⟩ ⟨2, 2⟩) (by decide) (by decide) (by decide)
      (by decide) (by decide) (by decide) _ hT
    have z : ∀ j, j < 3 →
        vec3_add (rd (example_triangle_vertices ⟨0, 0⟩ ⟨1, 1⟩ ⟨2, 2⟩) j).tangent
          (⟨-2 * r, -r, 0⟩ : vec3 ℚ) = ⟨-2 * r, -r, 0⟩ := by
      intro j hj
      interval_cases j <;> simp [vec3_add, rd, example_triangle_vertices]
    exact ⟨h.1.trans (z 0 (by decide)), h.2.1.trans (z 1 (by decide)),
      h.2.2.trans (z 2 (by decide))⟩
  refine ⟨?_, ?_, key, ?_⟩
  · intro M v1 v2 uv1 uv2 h
    unfold triangle_tangent
    simp only [h]
  · norm_num [vec2_diff]
  · have h := (key 1).1
    norm_num at h
    exact h

/-- C23: for `0 < t < 1`, `vec4_slerp` gives the same result for `q1` and for
its negation whenever `dot(q0, q1)` is not zero; when the dot product is above
`0.999999` the result is the linear blend of `q0` and `q1`, when it is below
`-0.999999` the linear blend of `q0` and the negated `q1`; when its absolute
value `c` is at most `0.999999`, `0 <= c`, `1 - c * c` is positive and so is
its square root for a library whose square root is positive on positive
numbers.  The result does not depend on what the division returns for a
divisor that is not positive: two libraries with the same square root, sine
and arc tangent that divide alike by positive divisors give the same result. -/
theorem C23_vec4_slerp_guard (M : FloatLib F) (q0 q1 : vec4 F) (t : F) (h0 : 0 < t) (h1 : t < 1) :
    (vec4_dot_vec4 q0 q1 ≠ 0 →
      vec4_slerp M q0 q1 t = vec4_slerp M q0 (vec4_invert q1) t) ∧
    (vec4_dot_vec4 q0 q1 > 999999 / 1000000 →
      vec4_slerp M q0 q1 t = vec4_linear_blend q0 q1 t) ∧
    (vec4_dot_vec4 q0 q1 < -(999999 / 1000000) →
      vec4_slerp M q0 q1 t = vec4_linear_blend q0 (vec4_invert q1) t) ∧
    (|vec4_dot_vec4 q0 q1| ≤ 999999 / 1000000 →
      0 ≤ |vec4_dot_vec4 q0 q1| ∧ 0 < 1 - |vec4_dot_vec4 q0 q1| * |vec4_dot_vec4 q0 q1| ∧
      ((∀ x, 0 < x → 0 < M.sqrtf x) →
        0 < M.sqrtf (1 - |vec4_dot_vec4 q0 q1| * |vec4_dot_vec4 q0 q1|))) ∧
    (∀ M1 : FloatLib F, M1.sqrtf = M.sqrtf → M1.sinf = M.sinf → M1.atan2f = M.atan2f →
      (∀ x, 0 < x → 0 < M.sqrtf x) → (∀ a b, 0 < b → M1.fdiv a b = M.fdiv a b) →
      vec4_slerp M1 q0 q1 t = vec4_slerp M q0 q1 t) := by
  have ht1 : t ≠ 1 := ne_of_lt h1
  have ht0 : t ≠ 0 := ne_of_gt h0
  refine ⟨?_, ?_, ?_, ?_, ?_⟩
  · intro hd
    rcases lt_or_gt_of_ne hd with hneg | hpos
    · have hn : ¬ (vec4_dot_vec4 q0 (vec4_invert q1) < 0) := by
        rw [dot_invert]; linarith
      by_cases hle : -vec4_dot_vec4 q0 q1 ≤ 999999 / 1000000
      · rw [slerp_far M q0 q1 t ht1 ht0 (-vec4_dot_vec4 q0 q1) (by rw [if_pos hneg]) hle
            (vec4_invert q1) (by rw [if_pos hneg]),
          slerp_far M q0 (vec4_invert q1) t ht1 ht0 (-vec4_dot_vec4 q0 q1)
            (by rw [if_neg hn, dot_invert]) hle (vec4_invert q1) (by rw [if_neg hn])]
      · rw [slerp_near M q0 q1 t ht1 ht0 (-vec4_dot_vec4 q0 q1) (by rw [if_pos hneg])
            (not_le.mp hle) (vec4_invert q1) (by rw [if_pos hneg]),
          slerp_near M q0 (vec4_invert q1) t ht1 ht0 (-vec4_dot_vec4 q0 q1)
            (by rw [if_neg hn, dot_invert]) (not_le.mp hle) (vec4_invert q1) (by rw [if_neg hn])]
    · have hn : ¬ (vec4_dot_vec4 q0 q1 < 0) := not_lt.mpr (le_of_lt hpos)
      have hi : vec4_dot_vec4 q0 (vec4_invert q1) < 0 := by
        rw [dot_invert]; linarith
      by_cases hle : vec4_dot_vec4 q0 q1 ≤ 999999 / 1000000
      · rw [slerp_far M q0 q1 t ht1 ht0 (vec4_dot_vec4 q0 q1) (by rw [if_neg hn]) hle
            q1 (by rw [if_neg hn]),
          slerp_far M q0 (vec4_invert q1) t ht1 ht0 (vec4_dot_vec4 q0 q1)
            (by rw [if_pos hi, dot_invert, neg_neg]) hle q1
            (by rw [if_pos hi, invert_invert])]
      · rw [slerp_near M q0 q1 t ht1 ht0 (vec4_dot_vec4 q0 q1) (by rw [if_neg hn])
            (not_le.mp hle) q1 (by rw [if_neg hn]),
          slerp_near M q0 (vec4_invert q1) t ht1 ht0 (vec4_dot_vec4 q0 q1)
            (by rw [if_pos hi, dot_invert, neg_neg]) (not_le.mp hle) q1
            (by rw [if_pos hi, invert_invert])]
  · intro hgt
    have hn : ¬ (vec4_dot_vec4 q0 q1 < 0) := by
      intro h
      have : (0 : F) < 999999 / 1000000 := by norm_num
      linarith
    exact slerp_near M q0 q1 t ht1 ht0 (vec4_dot_vec4 q0 q1) (by rw [if_neg hn]) hgt q1
      (by rw [if_neg hn])
  · intro hlt
    have hneg : vec4_dot_vec4 q0 q1 < 0 := by
      have : (0 : F) < 999999 / 1000000 := by norm_num
      linarith
    exact slerp_near M q0 q1 t ht1 ht0 (-vec4_dot_vec4 q0 q1) (by rw [if_pos hneg])
      (by linarith) (vec4_invert q1) (by rw [if_pos hneg])
  · intro hle
    have hnn := abs_nonneg (vec4_dot_vec4 q0 q1)
    have hpos : 0 < 1 - |vec4_dot_vec4 q0 q1| * |vec4_dot_vec4 q0 q1| := by nlinarith
    exact ⟨hnn, hpos, fun h => h _ hpos⟩
  · intro M1 e1 e2 e3 hsq hdiv
    have hc : |vec4_dot_vec4 q0 q1| =
        if vec4_dot_vec4 q0 q1 < 0 then -vec4_dot_vec4 q0 q1 else vec4_dot_vec4 q0 q1 := by
      by_cases hneg : vec4_dot_vec4 q0 q1 < 0
      · rw [if_pos hneg, abs_of_neg hneg]
      · rw [if_neg hneg, abs_of_nonneg (not_lt.mp hneg)]
    by_cases hle : |vec4_dot_vec4 q0 q1| ≤ 999999 / 1000000
    · have hnn := abs_nonneg (vec4_dot_vec4 q0 q1)
      have hpos : 0 < 1 - |vec4_dot_vec4 q0 q1| * |vec4_dot_vec4 q0 q1| := by nlinarith
      rw [slerp_far M1 q0 q1 t ht1 ht0 _ hc hle _ rfl, slerp_far M q0 q1 t ht1 ht0 _ hc hle _ rfl,
        e1, e2, e3, hdiv 1 _ (hsq _ hpos)]
    · rw [slerp_near M1 q0 q1 t ht1 ht0 _ hc (not_le.mp hle) _ rfl,
        slerp_near M q0 q1 t ht1 ht0 _ hc (not_le.mp hle) _ rfl]

/-- C23 at a concrete input: between (0, 0, 0, 1) and (0, 0, 0, -1) at
`t = 1/2` the second quaternion may be negated. -/
theorem C23_vec4_slerp_guard_witness :
    vec4_slerp rational_lib ⟨0, 0, 0, 1⟩ ⟨0, 0, 0, -1⟩ (1 / 2) =
      vec4_slerp rational_lib ⟨0, 0, 0, 1⟩ (vec4_invert ⟨0, 0, 0, -1⟩) (1 / 2) :=
  (C23_vec4_slerp_guard rational_lib ⟨0, 0, 0, 1⟩ ⟨0, 0, 0, -1⟩ (1 / 2) (by norm_num)
    (by norm_num)).1 (by norm_num [vec4_dot_vec4])

/-- C24: take a playing frame-stepped action that does not loop, at
`curr_frame = 0` with `n_frame >= 1`, whose working pose and frames hold
`n_joint` joints, and any run of calls of `MD5_draw_action`, of any elapsed
times; a tick is advancing when the action plays and its accumulated time
reaches the frame period, the other ticks only add to `frame_time`.  Let `c`
be the number of advancing ticks of the run.  Then `c <= n_frame`; when
`c >= 1` the working pose is `frame[ c - 1 ]`, copied by the `c`-th advancing
tick; when `c < n_frame` the action is playing at `curr_frame = c`; and when
`c = n_frame` the action is stopped with `curr_frame = 0`, `next_frame = 1`
and `frame_time = 0`, and any further ticks, of any elapsed time, leave it as
it is. -/
theorem C24_frame_stepped_once (M : FloatLib F) (md5 : MD5 F) (i : Nat)
    (hi : i < md5.n_action) (hl : i < md5.md5action.length)
    (hstate : (rd md5.md5action i).state = PLAY)
    (hmethod : (rd md5.md5action i).method = MD5_METHOD_FRAME)
    (hloop : (rd md5.md5action i).loop = 0)
    (hcurr : (rd md5.md5action i).curr_frame = 0)
    (hn : 1 ≤ (rd md5.md5action i).n_frame)
    (hpose : (rd md5.md5action i).pose.length = md5.n_joint)
    (hframes : ∀ k, k < (rd md5.md5action i).n_frame →
      (rd (rd md5.md5action i).frame k).length = md5.n_joint)
    (dts : List F) :
    let a := rd md5.md5action i
    let c := advancing_ticks M i dts md5
    let b := rd (MD5_draw_action_steps M dts md5).md5action i
    c ≤ a.n_frame ∧
    (0 < c → b.pose = rd a.frame (c - 1)) ∧
    (c < a.n_frame → b.state = PLAY ∧ b.curr_frame = (c : Int)) ∧
    (c = a.n_frame →
      b.state = STOP ∧ b.curr_frame = 0 ∧ b.next_frame = 1 ∧ b.frame_time = 0 ∧
      ∀ more : List F, rd (MD5_draw_action_steps M (dts ++ more) md5).md5action i = b) := by
  intro a c b
  obtain ⟨_, _, _, _, _, hc, hp, hplay, hstop⟩ :=
    frame_run_inv M md5 i hi hl a rfl hstate hmethod hloop hcurr hn hpose hframes dts
  refine ⟨hc, hp, hplay, ?_⟩
  intro hcn
  obtain ⟨s1, s2, s3, s4⟩ := hstop hcn
  refine ⟨s1, s2, s3, s4, ?_⟩
  intro more
  obtain ⟨f1, _, f3⟩ := draw_action_steps_fields M dts md5
  rw [draw_action_steps_append]
  exact draw_action_steps_rest M more _ i (by rw [f1]; exact hi) (by rw [f3]; exact hl)
    (by rw [s1]; decide)

/-- C24 at a concrete input: the example action of four frames, started
frame-stepped without loop, run with ticks of half a frame period.  The ticks
1, 2, 4 and 6 are advancing, the ticks 3 and 5 are not: after three ticks the
action plays at `curr_frame = 2` with the pose `frame[ 1 ]`, after six ticks it
is stopped with the pose `frame[ 3 ]`, and a seventh tick leaves it stopped. -/
theorem C24_frame_stepped_once_witness :
    advancing_ticks rational_lib 0 [1 / 48, 1 / 48, 1 / 48] example_played_once = 2 ∧
      (rd (MD5_draw_action_steps rational_lib [1 / 48, 1 / 48, 1 / 48]
        example_played_once).md5action 0).curr_frame = 2 ∧
      (rd (MD5_draw_action_steps rational_lib [1 / 48, 1 / 48, 1 / 48]
        example_played_once).md5action 0).pose = example_pose1 ∧
      advancing_ticks rational_lib 0 [1 / 48, 1 / 48, 1 / 48, 1 / 48, 1 / 48, 1 / 48]
        example_played_once = 4 ∧
      (rd (MD5_draw_action_steps rational_lib [1 / 48, 1 / 48, 1 / 48, 1 / 48, 1 / 48, 1 / 48]
        example_played_once).md5action 0).state = STOP ∧
      (rd (MD5_draw_action_steps rational_lib [1 / 48, 1 / 48, 1 / 48, 1 / 48, 1 / 48, 1 / 48]
        example_played_once).md5action 0).pose = example_pose1 ∧
      (rd (MD5_draw_action_steps rational_lib
        ([1 / 48, 1 / 48, 1 / 48, 1 / 48, 1 / 48, 1 / 48] ++ [1 / 24])
        example_played_once).md5action 0).state = STOP := by
  have c3 : advancing_ticks rational_lib 0 [1 / 48, 1 / 48, 1 / 48] example_played_once = 2 := by
    norm_num [advancing_ticks, tick_advances, example_played_once, MD5_draw_action, whileIdx,
      MD5_draw_action_body, MD5_draw_action_frame, MD5_action_play, MD5_action_stop,
      memcpy_joints, example_action, example_skeleton, rd, rdI, PLAY, STOP, MD5_METHOD_FRAME,
      example_md5, MD5_new]
  have c6 : advancing_ticks rational_lib 0 [1 / 48, 1 / 48, 1 / 48, 1 / 48, 1 / 48, 1 / 48]
      example_played_once = 4 := by
    norm_num [advancing_ticks, tick_advances, example_played_once, MD5_draw_action, whileIdx,
      MD5_draw_action_body, MD5_draw_action_frame, MD5_action_play, MD5_action_stop,
      memcpy_joints, example_action, example_skeleton, rd, rdI, PLAY, STOP, MD5_METHOD_FRAME,
      example_md5, MD5_new]
  have hsized : ∀ k, k < (rd example_played_once.md5action 0).n_frame →
      (rd (rd example_played_once.md5action 0).frame k).length = example_played_once.n_joint := by
    intro k hk
    have hk4 : k < 4 := hk
    interval_cases k <;> rfl
  have h3 := C24_frame_stepped_once rational_lib example_played_once 0 (by decide) (by decide)
    rfl rfl rfl rfl (by decide) rfl hsized [1 / 48, 1 / 48, 1 / 48]
  have h6 := C24_frame_stepped_once rational_lib example_played_once 0 (by decide) (by decide)
    rfl rfl rfl rfl (by decide) rfl hsized [1 / 48, 1 / 48, 1 / 48, 1 / 48, 1 / 48, 1 / 48]
  simp only [c3, c6] at h3 h6
  have n4 : (rd example_played_once.md5action 0).n_frame = 4 := rfl
  rw [n4] at h3 h6
  obtain ⟨s1, s2, s3, s4, s5⟩ := h6.2.2.2 rfl
  refine ⟨c3, (h3.2.2.1 (by decide)).2, h3.2.1 (by decide), c6, s1, h6.2.1 (by decide), ?_⟩
  rw [s5 [1 / 24]]
  exact s1

/-- C25: the tangent of the code is not the UV-Jacobian tangent.  With a
division that is exact at the determinant, the code's tangent for the corners
`p0`, `p1`, `p2` is `-((p1 - p0) * dv2 + (p2 - p0) * dv1) / det`: the two terms
are added where the Jacobian tangent subtracts them.  On the triangle
(0, 0, 0), (1, 0, 0), (0, 1, 0) with the texture coordinates (0, 0), (1, 1),
(0, 1) the determinant is 1 and `MD5_bind_triangle` adds (-1, -1, 0) to the
tangent of each of the three vertices, while the Jacobian tangent is
(1, -1, 0) for the edges taken from the first corner and (-1, 1, 0) for the
edges taken towards it, and no `B` solves the two equations of the Jacobian
tangent for the code's vector or for its negation. -/
theorem C25_tangent_not_jacobian :
    (∀ (M : FloatLib ℚ) (p0 p1 p2 : vec3 ℚ) (uv1 uv2 : vec2 ℚ),
      M.fdiv 1 (uv1.x * uv2.y - uv2.x * uv1.y) = 1 / (uv1.x * uv2.y - uv2.x * uv1.y) →
      triangle_tangent M (vec3_diff p0 p1) (vec3_diff p0 p2) uv1 uv2 =
        ⟨-((vec3_diff p1 p0).x * uv2.y + (vec3_diff p2 p0).x * uv1.y) /
            (uv1.x * uv2.y - uv2.x * uv1.y),
          -((vec3_diff p1 p0).y * uv2.y + (vec3_diff p2 p0).y * uv1.y) /
            (uv1.x * uv2.y - uv2.x * uv1.y),
          -((vec3_diff p1 p0).z * uv2.y + (vec3_diff p2 p0).z * uv1.y) /
            (uv1.x * uv2.y - uv2.x * uv1.y)⟩) ∧
    ((rd (MD5_bind_triangle rational_lib example_triangle_positions ⟨0, 1, 2⟩
          (example_triangle_vertices ⟨0, 0⟩ ⟨1, 1⟩ ⟨0, 1⟩)) 0).tangent = ⟨-1, -1, 0⟩ ∧
      (rd (MD5_bind_triangle rational_lib example_triangle_positions ⟨0, 1, 2⟩
          (example_triangle_vertices ⟨0, 0⟩ ⟨1, 1⟩ ⟨0, 1⟩)) 1).tangent = ⟨-1, -1, 0⟩ ∧
      (rd (MD5_bind_triangle rational_lib example_triangle_positions ⟨0, 1, 2⟩
          (example_triangle_vertices ⟨0, 0⟩ ⟨1, 1⟩ ⟨0, 1⟩)) 2).tangent = ⟨-1, -1, 0⟩) ∧
    (vec2_diff (⟨1, 1⟩ : vec2 ℚ) ⟨0, 0⟩).x * (vec2_diff (⟨0, 1⟩ : vec2 ℚ) ⟨0, 0⟩).y -
      (vec2_diff (⟨0, 1⟩ : vec2 ℚ) ⟨0, 0⟩).x * (vec2_diff (⟨1, 1⟩ : vec2 ℚ) ⟨0, 0⟩).y = 1 ∧
    jacobian_tangent (vec3_diff (⟨1, 0, 0⟩ : vec3 ℚ) ⟨0, 0, 0⟩) (vec3_diff ⟨0, 1, 0⟩ ⟨0, 0, 0⟩)
      (vec2_diff ⟨1, 1⟩ ⟨0, 0⟩) (vec2_diff ⟨0, 1⟩ ⟨0, 0⟩) = ⟨1, -1, 0⟩ ∧
    jacobian_tangent (vec3_diff (⟨0, 0, 0⟩ : vec3 ℚ) ⟨1, 0, 0⟩) (vec3_diff ⟨0, 0, 0⟩ ⟨0, 1, 0⟩)
      (vec2_diff ⟨1, 1⟩ ⟨0, 0⟩) (vec2_diff ⟨0, 1⟩ ⟨0, 0⟩) = ⟨-1, 1, 0⟩ ∧
    (¬ ∃ B : vec3 ℚ,
      (⟨1, 0, 0⟩ : vec3 ℚ) = ⟨1 * (-1) + 1 * B.x, 1 * (-1) + 1 * B.y, 1 * 0 + 1 * B.z⟩ ∧
      (⟨0, 1, 0⟩ : vec3 ℚ) = ⟨0 * (-1) + 1 * B.x, 0 * (-1) + 1 * B.y, 0 * 0 + 1 * B.z⟩) ∧
    (¬ ∃ B : vec3 ℚ,
      (⟨1, 0, 0⟩ : vec3 ℚ) = ⟨1 * 1 + 1 * B.x, 1 * 1 + 1 * B.y, 1 * 0 + 1 * B.z⟩ ∧
      (⟨0, 1, 0⟩ : vec3 ℚ) = ⟨0 * 1 + 1 * B.x, 0 * 1 + 1 * B.y, 0 * 0 + 1 * B.z⟩) := by
  refine ⟨?_, ?_, ?_, ?_, ?_, ?_, ?_⟩
  · intro M p0 p1 p2 uv1 uv2 h
    unfold triangle_tangent
    simp only [h, vec3_diff, vec3.mk.injEq]
    refine ⟨?_, ?_, ?_⟩ <;> ring
  · have hT : (⟨-1, -1, 0⟩ : vec3 ℚ) =
        triangle_tangent rational_lib
          (vec3_diff (rd example_triangle_positions 0) (rd example_triangle_positions 1))
          (vec3_diff (rd example_triangle_positions 0) (rd example_triangle_positions 2))
          (vec2_diff (rd (example_triangle_vertices ⟨0, 0⟩ ⟨1, 1⟩ ⟨0, 1⟩) 1).uv
            (rd (example_triangle_vertices ⟨0, 0⟩ ⟨1, 1⟩ ⟨0, 1⟩) 0).uv)
          (vec2_diff (rd (example_triangle_vertices ⟨0, 0⟩ ⟨1, 1⟩ ⟨0, 1⟩) 2).uv
            (rd (example_triangle_vertices ⟨0, 0⟩ ⟨1, 1⟩ ⟨0, 1⟩) 0).uv) := by
      norm_num [triangle_tangent, rational_lib, vec3_diff, vec2_diff, rd,
        example_triangle_positions, example_triangle_vertices]
    have h := bind_triangle_tangent rational_lib example_triangle_positions ⟨0, 1, 2⟩
      (example_triangle_vertices ⟨0, 0⟩ ⟨1, 1⟩ ⟨0, 1⟩) (by decide) (by decide) (by decide)
      (by decide) (by decide) (by decide) _ hT
    have z : ∀ j, j < 3 →
        vec3_add (rd (example_triangle_vertices ⟨0, 0⟩ ⟨1, 1⟩ ⟨0, 1⟩) j).tangent
          (⟨-1, -1, 0⟩ : vec3 ℚ) = ⟨-1, -1, 0⟩ := by
      intro j hj
      interval_cases j <;> simp [vec3_add, rd, example_triangle_vertices]
    exact ⟨h.1.trans (z 0 (by decide)), h.2.1.trans (z 1 (by decide)),
      h.2.2.trans (z 2 (by decide))⟩
  · norm_num [vec2_diff]
  · norm_num [jacobian_tangent, vec3_diff, vec2_diff]
  · norm_num [jacobian_tangent, vec3_diff, vec2_diff]
  · rintro ⟨B, h1, h2⟩
    simp only [vec3.mk.injEq] at h1 h2
    linarith [h1.1, h2.1]
  · rintro ⟨B, h1, h2⟩
    simp only [vec3.mk.injEq] at h1 h2
    linarith [h1.2.1, h2.2.1]

/-- C26: the frame indices can leave the range of the frames.  The two-frame
example action, freshly loaded, is started with `MD5_METHOD_LERP` and the loop
flag set, ticked by one frame period (it is then at `curr_frame = 1`,
`next_frame = 0`), and started again with the loop flag cleared; the next tick
of one frame period leaves it playing with `curr_frame = 2 = n_frame` and
`next_frame = 3`. -/
theorem C26_frame_index_overrun :
    ((rd example_replayed.md5action 0).n_frame = 2 ∧
      (rd example_replayed.md5action 0).curr_frame = 1 ∧
      (rd example_replayed.md5action 0).next_frame = 0 ∧
      (rd example_replayed.md5action 0).state = PLAY) ∧
    ((rd (MD5_draw_action rational_lib example_replayed (1 / 24)).1.md5action 0).n_frame = 2 ∧
      (rd (MD5_draw_action rational_lib example_replayed (1 / 24)).1.md5action 0).curr_frame = 2 ∧
      (rd (MD5_draw_action rational_lib example_replayed (1 / 24)).1.md5action 0).next_frame = 3 ∧
      (rd (MD5_draw_action rational_lib example_replayed (1 / 24)).1.md5action 0).state = PLAY) := by
  have e := example_replayed_action
  rw [blend_tick_loop rational_lib example_looping (1 / 24) _ 0 rfl (Or.inl rfl)
    (by norm_num [example_looping, example_clip, example_action, MD5_action_play, rd, CLAMP,
      rational_lib, MD5_METHOD_LERP, MD5_METHOD_FRAME]) (by decide)] at e
  have b1 : (rd example_replayed.md5action 0).n_frame = 2 := by
    rw [e]; simp [MD5_action_play, example_looping, example_clip, example_action, rd, MD5_METHOD_LERP, MD5_METHOD_FRAME]
  have b2 : (rd example_replayed.md5action 0).curr_frame = 1 := by
    rw [e]; simp [MD5_action_play, example_looping, example_clip, example_action, rd, MD5_METHOD_LERP, MD5_METHOD_FRAME]
  have b3 : (rd example_replayed.md5action 0).next_frame = 0 := by
    rw [e]; simp [MD5_action_play, example_looping, example_clip, example_action, rd, MD5_METHOD_LERP, MD5_METHOD_FRAME]
  have b4 : (rd example_replayed.md5action 0).state = PLAY := by
    rw [e]; simp [MD5_action_play, example_looping, example_clip, example_action, rd, MD5_METHOD_LERP, MD5_METHOD_FRAME]
  have b5 : (rd example_replayed.md5action 0).method = MD5_METHOD_LERP := by
    rw [e]; simp [MD5_action_play, example_looping, example_clip, example_action, rd, MD5_METHOD_LERP, MD5_METHOD_FRAME]
  have b6 : (rd example_replayed.md5action 0).loop = 0 := by
    rw [e]; simp [MD5_action_play, example_looping, example_clip, example_action, rd, MD5_METHOD_LERP, MD5_METHOD_FRAME]
  have b7 : (rd example_replayed.md5action 0).frame_time = 0 := by
    rw [e]; simp [MD5_action_play, example_looping, example_clip, example_action, rd, MD5_METHOD_LERP, MD5_METHOD_FRAME]
  have b8 : (rd example_replayed.md5action 0).fps = 1 / 24 := by
    rw [e]; simp [MD5_action_play, example_looping, example_clip, example_action, rd, MD5_METHOD_LERP, MD5_METHOD_FRAME]
  refine ⟨⟨b1, b2, b3, b4⟩, ?_⟩
  have hn : example_replayed.n_action = 1 :=
    draw_action_n_action rational_lib example_looping (1 / 24)
  have hlen : example_replayed.md5action.length = 1 := by
    unfold example_replayed
    dsimp only
    rw [List.length_set, draw_action_length]
    rfl
  rw [draw_action_rd rational_lib example_replayed (1 / 24) 0 (by rw [hn]; decide)
      (by rw [hlen]; decide),
    blend_tick_go rational_lib example_replayed (1 / 24) _ 0 b4 (Or.inl b5)
      (by rw [b7, b8]; norm_num [CLAMP, rational_lib]) b6 (by rw [b1, b2]; decide)]
  dsimp only
  rw [b1, b2, b4]
  exact ⟨rfl, rfl, rfl, rfl⟩

/-- C27: `MD5_draw_action` can return 0 after writing a working pose.  The
example action plays frame-stepped without loop at its last frame with one
frame period accumulated; the tick copies `frame[ 3 ]` over the working pose,
which differs from the pose held before, stops the action and returns 0. -/
theorem C27_MD5_draw_action_silent_stop :
    (MD5_draw_action rational_lib example_at_end (1 / 24)).2 = 0 ∧
    (rd (MD5_draw_action rational_lib example_at_end (1 / 24)).1.md5action 0).pose =
      example_pose1 ∧
    (rd example_at_end.md5action 0).pose = [example_root, example_child] ∧
    (rd (MD5_draw_action rational_lib example_at_end (1 / 24)).1.md5action 0).pose ≠
      (rd example_at_end.md5action 0).pose ∧
    (rd (MD5_draw_action rational_lib example_at_end (1 / 24)).1.md5action 0).state = STOP := by
  have hs := frame_tick_stop rational_lib example_at_end (1 / 24)
    (rd example_at_end.md5action 0) 0 rfl rfl
    (by norm_num [example_at_end, example_last_frame, example_action, rd]) rfl (by decide)
  have hp : memcpy_joints (rd example_at_end.md5action 0).pose
      (rdI (rd example_at_end.md5action 0).frame (rd example_at_end.md5action 0).curr_frame)
      example_at_end.n_joint = example_pose1 :=
    memcpy_joints_eq _ _ _ rfl rfl
  rw [draw_action_single rational_lib example_at_end (1 / 24) rfl, hs, hp]
  refine ⟨rfl, rfl, rfl, ?_, rfl⟩
  intro h
  have h2 : example_pose1 = [example_root, example_child] := h
  simp [example_pose1, example_root, example_child] at h2

/-- C28: `vec4_lerp` and `vec4_slerp` are the same function, and
`MD5_blend_pose` and `MD5_add_pose` give the same result for
`MD5_METHOD_FRAME`, `MD5_METHOD_LERP` and `MD5_METHOD_SLERP`. -/
theorem C28_vec4_lerp_is_slerp (M : FloatLib F) :
    (∀ q0 q1 t, vec4_lerp M q0 q1 t = vec4_slerp M q0 q1 t) ∧
    (∀ (md5 : MD5 F) (final_pose pose0 pose1 : List (MD5JOINT F)) (blend : F),
      MD5_blend_pose M md5 final_pose pose0 pose1 MD5_METHOD_FRAME blend =
          MD5_blend_pose M md5 final_pose pose0 pose1 MD5_METHOD_LERP blend ∧
        MD5_blend_pose M md5 final_pose pose0 pose1 MD5_METHOD_LERP blend =
          MD5_blend_pose M md5 final_pose pose0 pose1 MD5_METHOD_SLERP blend) ∧
    (∀ (frame_bytes : FRAMEBYTES) (md5 : MD5 F) (final_pose : List (MD5JOINT F))
        (action0 action1 : MD5ACTION F) (action_weight : F),
      MD5_add_pose M frame_bytes md5 final_pose action0 action1 MD5_METHOD_FRAME
            action_weight =
          MD5_add_pose M frame_bytes md5 final_pose action0 action1 MD5_METHOD_LERP
            action_weight ∧
        MD5_add_pose M frame_bytes md5 final_pose action0 action1 MD5_METHOD_LERP
            action_weight =
          MD5_add_pose M frame_bytes md5 final_pose action0 action1 MD5_METHOD_SLERP
            action_weight) := by
  refine ⟨fun _ _ _ => rfl, ?_, ?_⟩
  · intro md5 final_pose pose0 pose1 blend
    exact ⟨rfl, rfl⟩
  · intro frame_bytes md5 final_pose action0 action1 action_weight
    exact ⟨rfl, rfl⟩

/-- C29: let the square root of the math library be exact and every bind-pose
joint rotation be a unit quaternion.  Take a vertex `j` of mesh `i` whose
weights lie inside the weight array, refer to joints of the bind pose and are
referred to by no other vertex, in a mesh whose normal and tangent buffers hold
`n_vertex` entries.  After `MD5_build_bind_pose_weighted_normals_tangents`
followed by `MD5_set_pose` with the bind pose, the output normal of the vertex
is the sum of the biases of its weights times the normal the preprocessor left
in the vertex, which is the normalised sum of the face normals: a unit vector
or zero.  When no triangle of the mesh has a zero UV determinant, so that no
tangent is divided by zero, the same holds for the tangent. -/
theorem C29_bind_pose_normals (M : FloatLib F)
    (hs : ∀ x, 0 ≤ x → 0 ≤ M.sqrtf x ∧ M.sqrtf x * M.sqrtf x = x) (md5 : MD5 F) (i j : Nat)
    (hi : i < md5.n_mesh) (hil : i < md5.md5mesh.length)
    (hj : j < (rd md5.md5mesh i).n_vertex) (hjl : j < (rd md5.md5mesh i).md5vertex.length)
    (hna : (rd md5.md5mesh i).vertex_data.normal_array.length = (rd md5.md5mesh i).n_vertex)
    (hta : (rd md5.md5mesh i).vertex_data.tangent_array.length = (rd md5.md5mesh i).n_vertex)
    (hw : (rd (rd md5.md5mesh i).md5vertex j).start + (rd (rd md5.md5mesh i).md5vertex j).count ≤
      (rd md5.md5mesh i).n_weight)
    (hwl : (rd md5.md5mesh i).n_weight ≤ (rd md5.md5mesh i).md5weight.length)
    (hown : ∀ j1 k1 k, j1 < (rd md5.md5mesh i).n_vertex →
      k1 < (rd (rd md5.md5mesh i).md5vertex j1).count →
      k < (rd (rd md5.md5mesh i).md5vertex j).count →
      (rd (rd md5.md5mesh i).md5vertex j1).start + k1 =
        (rd (rd md5.md5mesh i).md5vertex j).start + k → j1 = j)
    (hrot : ∀ n, n < md5.bind_pose.length → vec4_dot (rd md5.bind_pose n).rotation = 1)
    (hjoint : ∀ k, k < (rd (rd md5.md5mesh i).md5vertex j).count →
      0 ≤ (rd (rd md5.md5mesh i).md5weight
        ((rd (rd md5.md5mesh i).md5vertex j).start + k)).joint ∧
      (rd (rd md5.md5mesh i).md5weight
        ((rd (rd md5.md5mesh i).md5vertex j).start + k)).joint < (md5.bind_pose.length : Int)) :
    rd (rd (MD5_set_pose M (MD5_build_bind_pose_weighted_normals_tangents M md5)
        (MD5_build_bind_pose_weighted_normals_tangents M md5).bind_pose).md5mesh
        i).vertex_data.normal_array j =
      vec3_bias
        (Finset.sum (Finset.range (rd (rd md5.md5mesh i).md5vertex j).count)
          (fun k => (rd (rd md5.md5mesh i).md5weight
            ((rd (rd md5.md5mesh i).md5vertex j).start + k)).bias))
        (rd (rd (MD5_build_bind_pose_weighted_normals_tangents M md5).md5mesh i).md5vertex
          j).normal ∧
    (vec3_dot (rd (rd (MD5_build_bind_pose_weighted_normals_tangents M md5).md5mesh
          i).md5vertex j).normal = 1 ∨
      (rd (rd (MD5_build_bind_pose_weighted_normals_tangents M md5).md5mesh i).md5vertex
          j).normal = ⟨0, 0, 0⟩) ∧
    ((∀ t, t < (rd md5.md5mesh i).n_triangle →
        triangle_uv_determinant (rd md5.md5mesh i).md5vertex
          (rd (rd md5.md5mesh i).md5triangle t) ≠ 0) →
      rd (rd (MD5_set_pose M (MD5_build_bind_pose_weighted_normals_tangents M md5)
          (MD5_build_bind_pose_weighted_normals_tangents M md5).bind_pose).md5mesh
          i).vertex_data.tangent_array j =
        vec3_bias
          (Finset.sum (Finset.range (rd (rd md5.md5mesh i).md5vertex j).count)
            (fun k => (rd (rd md5.md5mesh i).md5weight
              ((rd (rd md5.md5mesh i).md5vertex j).start + k)).bias))
          (rd (rd (MD5_build_bind_pose_weighted_normals_tangents M md5).md5mesh i).md5vertex
            j).tangent ∧
      (vec3_dot (rd (rd (MD5_build_bind_pose_weighted_normals_tangents M md5).md5mesh
            i).md5vertex j).tangent = 1 ∨
        (rd (rd (MD5_build_bind_pose_weighted_normals_tangents M md5).md5mesh i).md5vertex
            j).tangent = ⟨0, 0, 0⟩)) := by
  obtain ⟨p1, _, p3, p4, _⟩ := bind_pose_preprocess_same M md5
  have hunit : ∀ k, k < (rd (rd md5.md5mesh i).md5vertex j).count →
      vec4_dot (rdI md5.bind_pose (rd (rd md5.md5mesh i).md5weight
        ((rd (rd md5.md5mesh i).md5vertex j).start + k)).joint).rotation = 1 := by
    intro k hk
    obtain ⟨h0, h1⟩ := hjoint k hk
    unfold rdI
    rw [if_pos h0]
    exact hrot _ (by omega)
  obtain ⟨r1, r2⟩ := bind_mesh_set_pose M hs md5 (rd md5.md5mesh i) j hj hjl hna hta hw hwl
    hown hunit
  obtain ⟨u1, u2⟩ := bind_vertices_unit M hs (rd md5.md5mesh i) j hj hjl
  have em : rd (MD5_build_bind_pose_weighted_normals_tangents M md5).md5mesh i =
      MD5_bind_mesh M md5 (rd md5.md5mesh i) := by
    rw [preprocess_md5mesh, if_pos ⟨hi, hil⟩]
  rw [set_pose_md5mesh, if_pos ⟨by rw [p1]; exact hi, by rw [p4]; exact hil⟩, p3, em]
  exact ⟨r1, u1, fun _ => ⟨r2, u2⟩⟩

/-- C29 at a concrete input over the reals: vertex 1 of the turned skeleton,
whose joint rotation is (3/5, 0, 0, 4/5) and whose two weights have the biases
1/2 and 1/4.  The preprocessor leaves the unit normal (0, 24/25, -7/25) and the
unit tangent (0, -7/25, -24/25) in the vertex; after the round trip through the
weights the outputs are 3/4 of them. -/
theorem C29_bind_pose_normals_witness :
    rd (rd (MD5_set_pose
        (⟨Real.sqrt, Real.sin, fun s c => Complex.arg ⟨c, s⟩, fun a b => a / b⟩ : FloatLib ℝ)
        (MD5_build_bind_pose_weighted_normals_tangents
          (⟨Real.sqrt, Real.sin, fun s c => Complex.arg ⟨c, s⟩, fun a b => a / b⟩ : FloatLib ℝ)
          (example_turned_md5 ℝ))
        (MD5_build_bind_pose_weighted_normals_tangents
          (⟨Real.sqrt, Real.sin, fun s c => Complex.arg ⟨c, s⟩, fun a b => a / b⟩ : FloatLib ℝ)
          (example_turned_md5 ℝ)).bind_pose).md5mesh 0).vertex_data.normal_array 1 =
        ⟨0, 18 / 25, -21 / 100⟩ ∧
      rd (rd (MD5_set_pose
        (⟨Real.sqrt, Real.sin, fun s c => Complex.arg ⟨c, s⟩, fun a b => a / b⟩ : FloatLib ℝ)
        (MD5_build_bind_pose_weighted_normals_tangents
          (⟨Real.sqrt, Real.sin, fun s c => Complex.arg ⟨c, s⟩, fun a b => a / b⟩ : FloatLib ℝ)
          (example_turned_md5 ℝ))
        (MD5_build_bind_pose_weighted_normals_tangents
          (⟨Real.sqrt, Real.sin, fun s c => Complex.arg ⟨c, s⟩, fun a b => a / b⟩ : FloatLib ℝ)
          (example_turned_md5 ℝ)).bind_pose).md5mesh 0).vertex_data.tangent_array 1 =
        ⟨0, -21 / 100, -18 / 25⟩ := by
  have h := C29_bind_pose_normals
    (⟨Real.sqrt, Real.sin, fun s c => Complex.arg ⟨c, s⟩, fun a b => a / b⟩ : FloatLib ℝ)
    (fun x hx => ⟨Real.sqrt_nonneg x, Real.mul_self_sqrt hx⟩) (example_turned_md5 ℝ) 0 1
    (by simp [example_turned_md5])
    (by simp [example_turned_md5])
    (by simp [example_turned_md5, rd])
    (by simp [example_turned_md5, rd])
    (by simp [example_turned_md5, rd])
    (by simp [example_turned_md5, rd])
    (by simp [example_turned_md5, rd])
    (by simp [example_turned_md5, rd])
    (by
      intro j1 k1 k hj1 hk1 hk he
      have hj3 : j1 < 3 := by simpa [example_turned_md5, rd] using hj1
      interval_cases j1 <;> simp [example_turned_md5, rd] at hk1 hk he ⊢ <;> omega)
    (by
      intro n hn
      have hn1 : n < 1 := by simpa [example_turned_md5] using hn
      interval_cases n
      norm_num [example_turned_md5, rd, vec4_dot])
    (by
      intro k hk
      have hk1 : k < 2 := by simpa [example_turned_md5, rd] using hk
      interval_cases k <;> simp [example_turned_md5, rd])
  have hdet : ∀ t, t < (rd (example_turned_md5 ℝ).md5mesh 0).n_triangle →
      triangle_uv_determinant (rd (example_turned_md5 ℝ).md5mesh 0).md5vertex
        (rd (rd (example_turned_md5 ℝ).md5mesh 0).md5triangle t) ≠ 0 := by
    intro t ht
    have ht1 : t < 1 := by simpa [example_turned_md5, rd] using ht
    interval_cases t
    norm_num [example_turned_md5, rd, triangle_uv_determinant, vec2_diff]
  have em : rd (MD5_build_bind_pose_weighted_normals_tangents
      (⟨Real.sqrt, Real.sin, fun s c => Complex.arg ⟨c, s⟩, fun a b => a / b⟩ : FloatLib ℝ)
      (example_turned_md5 ℝ)).md5mesh 0 =
      MD5_bind_mesh
        (⟨Real.sqrt, Real.sin, fun s c => Complex.arg ⟨c, s⟩, fun a b => a / b⟩ : FloatLib ℝ)
        (example_turned_md5 ℝ) (rd (example_turned_md5 ℝ).md5mesh 0) := by
    rw [preprocess_md5mesh, if_pos (by simp [example_turned_md5])]
  have hbias : Finset.sum
      (Finset.range (rd (rd (example_turned_md5 ℝ).md5mesh 0).md5vertex 1).count)
      (fun k => (rd (rd (example_turned_md5 ℝ).md5mesh 0).md5weight
        ((rd (rd (example_turned_md5 ℝ).md5mesh 0).md5vertex 1).start + k)).bias) = 3 / 4 := by
    norm_num [example_turned_md5, rd, Finset.sum_range_succ]
  have hv : (rd (MD5_build_bind_pose_weighted_normals_tangents
      (⟨Real.sqrt, Real.sin, fun s c => Complex.arg ⟨c, s⟩, fun a b => a / b⟩ : FloatLib ℝ)
      (example_turned_md5 ℝ)).md5mesh 0).md5vertex = MD5_bind_vertices
      (⟨Real.sqrt, Real.sin, fun s c => Complex.arg ⟨c, s⟩, fun a b => a / b⟩ : FloatLib ℝ)
      (rd (example_turned_md5 ℝ).md5mesh 0) := by
    rw [em]
    rfl
  constructor
  · rw [h.1, hbias, hv, example_turned_normal]
    norm_num [vec3_bias]
  · rw [(h.2.2 hdet).1, hbias, hv, example_turned_tangent]
    norm_num [vec3_bias]

/-- C30: over the reals, with the real square root, sine and arc tangent,
`vec4_slerp` of two unit quaternions whose dot product has absolute value at
most `0.999999` is a unit quaternion, for every `t`. -/
theorem C30_vec4_slerp_unit (q0 q1 : vec4 ℝ) (t : ℝ) (h0 : vec4_dot q0 = 1) (h1 : vec4_dot q1 = 1)
    (hd : |vec4_dot_vec4 q0 q1| ≤ 999999 / 1000000) :
    vec4_dot
      (vec4_slerp
        (⟨Real.sqrt, Real.sin, fun s c => Complex.arg ⟨c, s⟩, fun a b => a / b⟩ : FloatLib ℝ)
        q0 q1 t) = 1 := by
  unfold vec4_slerp
  simp only []
  by_cases ht1 : t = 1
  · rw [if_pos ht1]; exact h1
  rw [if_neg ht1]
  by_cases ht0 : t = 0
  · rw [if_pos ht0]; exact h0
  rw [if_neg ht0]
  unfold vec4_dot at h0 h1 ⊢
  obtain ⟨hlo, hhi⟩ := abs_le.mp hd
  by_cases hneg : vec4_dot_vec4 q0 q1 < 0
  · simp only [if_pos hneg]
    have hc1 : ¬ (-vec4_dot_vec4 q0 q1 > 999999 / 1000000) := by linarith
    rw [if_neg hc1]
    have hw := slerp_weights_unit (-vec4_dot_vec4 q0 q1) t (by linarith) (by linarith)
    simp only []
    generalize hk0 : Real.sin ((1 - t) * Complex.arg ⟨-vec4_dot_vec4 q0 q1,
      Real.sqrt (1 - -vec4_dot_vec4 q0 q1 * -vec4_dot_vec4 q0 q1)⟩) *
        (1 / Real.sqrt (1 - -vec4_dot_vec4 q0 q1 * -vec4_dot_vec4 q0 q1)) = k0 at hw ⊢
    generalize hk1 : Real.sin (t * Complex.arg ⟨-vec4_dot_vec4 q0 q1,
      Real.sqrt (1 - -vec4_dot_vec4 q0 q1 * -vec4_dot_vec4 q0 q1)⟩) *
        (1 / Real.sqrt (1 - -vec4_dot_vec4 q0 q1 * -vec4_dot_vec4 q0 q1)) = k1 at hw ⊢
    unfold vec4_dot_vec4 at hw
    linear_combination hw + k0 * k0 * h0 + k1 * k1 * h1
  · simp only [if_neg hneg]
    have hc1 : ¬ (vec4_dot_vec4 q0 q1 > 999999 / 1000000) := by linarith
    rw [if_neg hc1]
    have hw := slerp_weights_unit (vec4_dot_vec4 q0 q1) t (by linarith) (by linarith)
    simp only []
    generalize hk0 : Real.sin ((1 - t) * Complex.arg ⟨vec4_dot_vec4 q0 q1,
      Real.sqrt (1 - vec4_dot_vec4 q0 q1 * vec4_dot_vec4 q0 q1)⟩) *
        (1 / Real.sqrt (1 - vec4_dot_vec4 q0 q1 * vec4_dot_vec4 q0 q1)) = k0 at hw ⊢
    generalize hk1 : Real.sin (t * Complex.arg ⟨vec4_dot_vec4 q0 q1,
      Real.sqrt (1 - vec4_dot_vec4 q0 q1 * vec4_dot_vec4 q0 q1)⟩) *
        (1 / Real.sqrt (1 - vec4_dot_vec4 q0 q1 * vec4_dot_vec4 q0 q1)) = k1 at hw ⊢
    unfold vec4_dot_vec4 at hw
    linear_combination hw + k0 * k0 * h0 + k1 * k1 * h1

/-- C30 at a concrete input: half way between (0, 0, 0, 1) and (1, 0, 0, 0). -/
theorem C30_vec4_slerp_unit_witness :
    vec4_dot
      (vec4_slerp
        (⟨Real.sqrt, Real.sin, fun s c => Complex.arg ⟨c, s⟩, fun a b => a / b⟩ : FloatLib ℝ)
        ⟨0, 0, 0, 1⟩ ⟨1, 0, 0, 0⟩ (1 / 2)) = 1 :=
  C30_vec4_slerp_unit ⟨0, 0, 0, 1⟩ ⟨1, 0, 0, 0⟩ (1 / 2) (by norm_num [vec4_dot])
    (by norm_num [vec4_dot]) (by norm_num [vec4_dot_vec4])

end Claims

end GFX
